import Mathlib

/-!
# ARK net client service

A shallow embedding of `AFCNetClientService` (connection registry, per-tick state
machine, message and event dispatch), of the transport pump of
`AFCWebSocketClient`, of the bus-id parsing of `ParseArgs` and of
`ValueFromString<bool>`, followed by the properties established about them.

Conventions of the embedding:

* C++ `int` / `int64_t` values (bus ids, message ids, timestamps) are `Int`;
  no arithmetic in the embedded code comes near the machine bounds.
* A callback (`NET_MSG_FUNCTOR`, `NET_EVENT_FUNCTOR`) is external code.  It is
  represented by a label, and each invocation is appended to the `trace` of the
  service together with what the callback can observe at that moment.
* A raw pointer that may be null is an `Option`.  A function that dereferences a
  null pointer returns `none`.
* `m_pPluginManager->GetNowTime()` is an input of the tick (`Env.now`).
-/

set_option maxRecDepth 100000

namespace ark

/-! ## Constants and plain data -/

/-- Modelled from the spec: `AFTimespan::SECOND_MS` (base/AFDateTime.hpp is not among
the sources), the number of ticks of the millisecond clock in one second. -/
def SECOND_MS : Int := 1000

/-- Modelled from the spec: `EConstDefine_DefaultWeight` (its header is not among the
sources), the fixed number of virtual nodes of one physical peer, "e.g. 100". -/
def EConstDefine_DefaultWeight : Nat := 100

/-- The protocol tag of an endpoint. -/
inductive proto_type where
  | tcp
  | udp
  | ws
deriving DecidableEq, Repr

/-- The fields of `AFEndpoint` read by the service: `proto()`, `GetIP()`, `GetPort()`,
`IsV6()`. -/
structure AFEndpoint where
  proto : proto_type
  ip : String
  port : Nat
  is_v6 : Bool
deriving DecidableEq, Repr

/-- The type of a connection event. -/
inductive AFNetEventType where
  | NONE
  | CONNECTED
  | DISCONNECTED
deriving DecidableEq, Repr

/-- A connection event: session id, type, bus id of the peer, peer ip. -/
structure AFNetEvent where
  id_ : Int
  type_ : AFNetEventType
  bus_id_ : Int
  ip_ : String
deriving DecidableEq, Repr

/-- A decoded inbound message: message id and payload bytes. -/
structure AFNetMsg where
  msg_id_ : Int
  data_ : List Nat
deriving DecidableEq, Repr

/-- The states of a connection entry (`AFConnectionData::ConnectState`). -/
inductive ConnectState where
  | DISCONNECT
  | CONNECTING
  | CONNECTED
  | RECONNECT
deriving DecidableEq, Repr

/-! ## Transport -/

/-- A call made by the service on a transport (`AFINet`), with its arguments. -/
inductive NetCall where
  | StartClient (head_len : Nat) (target_busid : Int) (ip : String) (port : Nat) (ip_v6 : Bool)
  | Update
  | Shutdown
deriving DecidableEq, Repr

/-- The session of a client transport: the two inbound queues filled by the I/O
worker (front of the queue first) and the removal flag. -/
structure AFHttpSession where
  session_id_ : Int
  events_ : List AFNetEvent
  msgs_ : List AFNetMsg
  need_remove_ : Bool
deriving DecidableEq, Repr

/-- A transport object.  `id` tells the allocations of `CreateNet` apart, `calls`
records the calls the service made on it, oldest first. -/
structure AFINet where
  id : Nat
  calls : List NetCall
  client_session_ptr_ : Option AFHttpSession
deriving DecidableEq, Repr

/-- `AFCWebSocketClient::UpdateNetEvent`: pops every queued event and hands it to
`net_event_cb_`.  Returns the events handed over, in order, and the session.
A null session returns at once (`ARK_ASSERT_RET_NONE`). -/
def UpdateNetEvent (session : Option AFHttpSession) : List AFNetEvent × Option AFHttpSession :=
  match session with
  | none => ([], none)
  | some ss => (ss.events_, some { ss with events_ := [] })

/-- The loop of `AFCWebSocketClient::UpdateNetMsg` on the message queue `q` with
`msg_count` messages already handled: pop, hand to `net_msg_cb_`, increment, and
leave the loop once `msg_count > ARK_PROCESS_NET_MSG_COUNT_ONCE`.  Returns the
messages handed over, in order, and the queue that is left. -/
def UpdateNetMsgLoop (count_once : Nat) : List AFNetMsg → Nat → List AFNetMsg × List AFNetMsg
  | [], _ => ([], [])
  | msg :: rest, msg_count =>
    if msg_count + 1 > count_once then ([msg], rest)
    else
      let r := UpdateNetMsgLoop count_once rest (msg_count + 1)
      (msg :: r.1, r.2)

/-- `AFCWebSocketClient::UpdateNetMsg`, with `ARK_PROCESS_NET_MSG_COUNT_ONCE` (a macro
whose header is not among the sources) as the parameter `count_once`.  Returns the
calls `net_msg_cb_(msg, session_id)` made, in order, and the session. -/
def UpdateNetMsg (count_once : Nat) (session : Option AFHttpSession) :
    List (AFNetMsg × Int) × Option AFHttpSession :=
  match session with
  | none => ([], none)
  | some ss =>
    let r := UpdateNetMsgLoop count_once ss.msgs_ 0
    (r.1.map (fun m => (m, ss.session_id_)), some { ss with msgs_ := r.2 })

/-- `AFCWebSocketClient::UpdateNetSession`: pump the events, then the messages, then
drop the session when it is flagged for removal. -/
def UpdateNetSession (count_once : Nat) (session : Option AFHttpSession) :
    List AFNetEvent × List (AFNetMsg × Int) × Option AFHttpSession :=
  let e := UpdateNetEvent session
  let m := UpdateNetMsg count_once e.2
  let kept := match m.2 with
    | none => none
    | some ss => if ss.need_remove_ then none else some ss
  (e.1, m.1, kept)

/-- `AFINet::Update` as seen from the service: the call is recorded and the session
is pumped.  The pump is the one of `AFCWebSocketClient::Update`, the transport
whose source is at hand. -/
def AFINet.Update (count_once : Nat) (net : AFINet) :
    List AFNetEvent × List (AFNetMsg × Int) × AFINet :=
  let r := UpdateNetSession count_once net.client_session_ptr_
  (r.1, r.2.1, { net with calls := net.calls ++ [NetCall.Update], client_session_ptr_ := r.2.2 })

/-- `AFINet::Shutdown` as seen from the service: the call is recorded. -/
def AFINet.Shutdown (net : AFINet) : AFINet :=
  { net with calls := net.calls ++ [NetCall.Shutdown] }

/-- `AFINet::StartClient` as seen from the service: the call is recorded with its
arguments; whether it succeeds is decided outside (`Env.start_ok`). -/
def AFINet.StartClient (net : AFINet) (head_len : Nat) (target_busid : Int) (ip : String)
    (port : Nat) (ip_v6 : Bool) : AFINet :=
  { net with calls := net.calls ++ [NetCall.StartClient head_len target_busid ip port ip_v6] }

/-! ## Consistent-hash ring -/

/-- A virtual node of the ring (`AFCMachineNode`). -/
structure AFCMachineNode where
  nVirtualIndex : Nat
  nMachineID : Int
  strIP : String
  nPort : Nat
  nWeight : Nat
deriving DecidableEq, Repr

/-- Two virtual nodes occupy the same place of the ring when they agree on the
physical id and the replica index. -/
def AFCMachineNode.same_key (a b : AFCMachineNode) : Bool :=
  a.nMachineID == b.nMachineID && a.nVirtualIndex == b.nVirtualIndex

/-- Modelled from the spec: the ring class behind `consistent_hashmap_` is not among
the sources.  A ring is the list of its virtual nodes, each "keyed by a deterministic
hash of (physical id, replica index)"; the key is kept as that pair itself, so that
distinct pairs never collide.  `Insert` adds the node unless its key is taken. -/
def ring_insert (ring : List AFCMachineNode) (node : AFCMachineNode) : List AFCMachineNode :=
  if ring.any (fun n => n.same_key node) then ring else ring ++ [node]

/-- Modelled from the spec: `Erase` of the ring class (not among the sources) removes
the virtual node with the key of `node`; "erasing a node not present is a no-op". -/
def ring_erase (ring : List AFCMachineNode) (node : AFCMachineNode) : List AFCMachineNode :=
  ring.filter (fun n => !(n.same_key node))

/-- Whether the ring holds the virtual node with replica index `i` of machine `bus_id`. -/
def ring_has (ring : List AFCMachineNode) (bus_id : Int) (i : Nat) : Bool :=
  ring.any (fun n => n.nMachineID == bus_id && n.nVirtualIndex == i)

/-! ## Connection entries and the registry map -/

/-- A connection entry (`AFConnectionData`). -/
structure AFConnectionData where
  head_len_ : Nat
  server_bus_id_ : Int
  endpoint_ : AFEndpoint
  net_state_ : ConnectState
  last_active_time_ : Int
  net_client_ptr_ : Option AFINet
deriving DecidableEq, Repr

/-- `AFMapEx::find_value`: the entry stored under `key`, null when there is none. -/
def find_value {α : Type} (m : List (Int × α)) (key : Int) : Option α :=
  match m with
  | [] => none
  | (k, v) :: rest => if k = key then some v else find_value rest key

/-- `AFMapEx::insert`: an ordered map keeps its keys ascending and does not replace
the value of a key that is present. -/
def map_insert {α : Type} (m : List (Int × α)) (key : Int) (v : α) : List (Int × α) :=
  match m with
  | [] => [(key, v)]
  | (k, w) :: rest =>
    if key < k then (key, v) :: (k, w) :: rest
    else if key = k then (k, w) :: rest
    else (k, w) :: map_insert rest key v

/-- Assignment through the shared pointer stored under `key`: the entry is replaced
by `f` of it, the other entries and the keys stay. -/
def map_modify {α : Type} (m : List (Int × α)) (key : Int) (f : α → α) : List (Int × α) :=
  match m with
  | [] => []
  | (k, v) :: rest => if k = key then (k, f v) :: rest else (k, v) :: map_modify rest key f

/-! ## The service -/

/-- What the service does to the outside, in the order it does it. -/
inductive Action where
  /-- A per-id message handler is invoked with a message and its session id. -/
  | msg_cb (cb : Nat) (msg : AFNetMsg) (session_id : Int)
  /-- An event callback is invoked; `ring` and `state` are the ring and the state of
  the entry of the event's bus id at that moment. -/
  | event_cb (cb : Nat) (event : AFNetEvent) (ring : List AFCMachineNode)
      (state : Option ConnectState)
  /-- The error line of `OnNetMsg` for a message id without handler. -/
  | log_invalid_msg (msg_id : Int)
  /-- A server report is sent for an entry: `KeepReport`; `state` is the entry's state
  at that moment. -/
  | report (bus_id : Int) (state : ConnectState)
  /-- The dump of `LogServerInfo`. -/
  | log_server_info
deriving DecidableEq, Repr

/-- The state of `AFCNetClientService`.  `bus_index` is the table of
`m_pNetServiceManagerModule` (bus id of the peer to the id of its transport, if it has one),
`next_net_id` numbers the transports `CreateNet` allocates. -/
structure AFCNetClientService where
  tmp_connections_ : List AFConnectionData
  real_connections_ : List (Int × AFConnectionData)
  net_msg_callbacks_ : List (Int × Nat)
  net_msg_forward_callbacks_ : List Nat
  net_event_callbacks_ : List Nat
  consistent_hashmap_ : List AFCMachineNode
  bus_index : List (Int × Option Nat)
  next_net_id : Nat
  trace : List Action
deriving DecidableEq, Repr

/-- The inputs of one tick that the service does not own: the clock, the outcome of
a transport start for a target bus id, and `ARK_PROCESS_NET_MSG_COUNT_ONCE`.  The
clock is `m_pPluginManager->GetNowTime()`; the plugin manager is not among the
sources, and its clock is read as the time of the tick: every call within one
`Update` returns `now`. -/
structure Env where
  now : Int
  start_ok : Int → Bool
  count_once : Nat

/-- The service right after construction. -/
def AFCNetClientService.empty : AFCNetClientService :=
  { tmp_connections_ := [], real_connections_ := [], net_msg_callbacks_ := [],
    net_msg_forward_callbacks_ := [], net_event_callbacks_ := [], consistent_hashmap_ := [],
    bus_index := [], next_net_id := 0, trace := [] }

/-- `AFCNetClientService::StartClient`: the request is pushed on `tmp_connections_`.
The three fields it does not set keep the member defaults of `AFConnectionData`, whose
header is not among the sources; promotion overwrites all three. -/
def StartClient (s : AFCNetClientService) (head_len : Nat) (target_bus_id : Int)
    (endpoint : AFEndpoint) : Bool × AFCNetClientService :=
  let data : AFConnectionData :=
    { head_len_ := head_len, server_bus_id_ := target_bus_id, endpoint_ := endpoint,
      net_state_ := ConnectState.DISCONNECT, last_active_time_ := 0, net_client_ptr_ := none }
  (true, { s with tmp_connections_ := s.tmp_connections_ ++ [data] })

/-- `AFCNetClientService::RegMsgCallback`. -/
def RegMsgCallback (s : AFCNetClientService) (msg_id : Int) (cb : Nat) :
    Bool × AFCNetClientService :=
  match find_value s.net_msg_callbacks_ msg_id with
  | some _ => (false, s)
  | none => (true, { s with net_msg_callbacks_ := map_insert s.net_msg_callbacks_ msg_id cb })

/-- `AFCNetClientService::RegForwardMsgCallback`. -/
def RegForwardMsgCallback (s : AFCNetClientService) (cb : Nat) : Bool × AFCNetClientService :=
  (true, { s with net_msg_forward_callbacks_ := s.net_msg_forward_callbacks_ ++ [cb] })

/-- `AFCNetClientService::RegNetEventCallback`. -/
def RegNetEventCallback (s : AFCNetClientService) (cb : Nat) : Bool × AFCNetClientService :=
  (true, { s with net_event_callbacks_ := s.net_event_callbacks_ ++ [cb] })

/-- `AFCNetClientService::OnNetMsg`. -/
def OnNetMsg (s : AFCNetClientService) (msg : AFNetMsg) (session_id : Int) :
    AFCNetClientService :=
  match find_value s.net_msg_callbacks_ msg.msg_id_ with
  | some cb => { s with trace := s.trace ++ [Action.msg_cb cb msg session_id] }
  | none => { s with trace := s.trace ++ [Action.log_invalid_msg msg.msg_id_] }

/-- `AFCNetClientService::GetConnectionInfo`. -/
def GetConnectionInfo (s : AFCNetClientService) (bus_id : Int) : Option AFConnectionData :=
  find_value s.real_connections_ bus_id

/-- `AFCNetClientService::CreateNet`: a transport exists for tcp only, the other
protocols give the null pointer. -/
def CreateNet (s : AFCNetClientService) (proto : proto_type) :
    Option AFINet × AFCNetClientService :=
  match proto with
  | proto_type.tcp =>
    (some { id := s.next_net_id, calls := [], client_session_ptr_ := none },
      { s with next_net_id := s.next_net_id + 1 })
  | proto_type.udp => (none, s)
  | proto_type.ws => (none, s)

/-- The virtual node `AddServerWeightData` and `RemoveServerWeightData` build for
replica index `i` of an entry. -/
def machine_node (xInfo : AFConnectionData) (i : Nat) : AFCMachineNode :=
  { nVirtualIndex := i, nMachineID := xInfo.server_bus_id_, strIP := xInfo.endpoint_.ip,
    nPort := xInfo.endpoint_.port, nWeight := EConstDefine_DefaultWeight }

/-- `AFCNetClientService::AddServerWeightData`, on the ring. -/
def AddServerWeightData (ring : List AFCMachineNode) (xInfo : AFConnectionData) :
    List AFCMachineNode :=
  (List.range EConstDefine_DefaultWeight).foldl
    (fun r i => ring_insert r (machine_node xInfo i)) ring

/-- `AFCNetClientService::RemoveServerWeightData`, on the ring. -/
def RemoveServerWeightData (ring : List AFCMachineNode) (xInfo : AFConnectionData) :
    List AFCMachineNode :=
  (List.range EConstDefine_DefaultWeight).foldl
    (fun r i => ring_erase r (machine_node xInfo i)) ring

/-- Modelled from the spec: `AddNetConnectionBus` of the service manager module (not
among the sources): "the registry's reverse index from connection bus id to transport
handle is updated". -/
def AddNetConnectionBus (index : List (Int × Option Nat)) (bus_id : Int) (net : Option Nat) :
    List (Int × Option Nat) :=
  (bus_id, net) :: index.filter (fun p => !(p.1 == bus_id))

/-- Modelled from the spec: `RemoveNetConnectionBus` of the service manager module
(not among the sources): the binding of the bus id leaves the reverse index. -/
def RemoveNetConnectionBus (index : List (Int × Option Nat)) (bus_id : Int) :
    List (Int × Option Nat) :=
  index.filter (fun p => !(p.1 == bus_id))

/-- `AFCNetClientService::OnConnect`. -/
def OnConnect (s : AFCNetClientService) (event : AFNetEvent) : AFCNetClientService :=
  match GetConnectionInfo s event.bus_id_ with
  | none => s
  | some pServerInfo =>
    { s with
      consistent_hashmap_ := AddServerWeightData s.consistent_hashmap_ pServerInfo
      real_connections_ := map_modify s.real_connections_ event.bus_id_
        (fun d => { d with net_state_ := ConnectState.CONNECTED })
      bus_index := AddNetConnectionBus s.bus_index event.bus_id_
        (pServerInfo.net_client_ptr_.map (fun n => n.id)) }

/-- `AFCNetClientService::OnDisconnect`. -/
def OnDisconnect (now : Int) (s : AFCNetClientService) (event : AFNetEvent) :
    AFCNetClientService :=
  match GetConnectionInfo s event.bus_id_ with
  | none => s
  | some pServerInfo =>
    { s with
      consistent_hashmap_ := RemoveServerWeightData s.consistent_hashmap_ pServerInfo
      real_connections_ := map_modify s.real_connections_ event.bus_id_
        (fun d => { d with net_state_ := ConnectState.DISCONNECT, last_active_time_ := now })
      bus_index := RemoveNetConnectionBus s.bus_index event.bus_id_ }

/-- The loop of `OnNetEvent` over `net_event_callbacks_`: each callback is invoked with
the event, and sees the ring and the entry as they are then. -/
def fire_event_callbacks (s : AFCNetClientService) (event : AFNetEvent) :
    AFCNetClientService :=
  { s with trace := s.trace ++ s.net_event_callbacks_.map (fun cb =>
      Action.event_cb cb event s.consistent_hashmap_
        ((GetConnectionInfo s event.bus_id_).map (fun d => d.net_state_))) }

/-- `AFCNetClientService::OnNetEvent`. -/
def OnNetEvent (now : Int) (s : AFCNetClientService) (event : AFNetEvent) :
    AFCNetClientService :=
  let s1 := match event.type_ with
    | AFNetEventType.CONNECTED => OnConnect s event
    | AFNetEventType.DISCONNECTED => OnDisconnect now s event
    | AFNetEventType.NONE => s
  fire_event_callbacks s1 event

/-- `AFCNetClientService::KeepAlive` on the entry stored under `key`; `KeepReport`
sends the server report and `LogServerInfo` dumps the registry. -/
def KeepAlive (now : Int) (s : AFCNetClientService) (key : Int) : AFCNetClientService :=
  match find_value s.real_connections_ key with
  | none => s
  | some pServerData =>
    if pServerData.last_active_time_ + 10 > now then s
    else
      { s with
        real_connections_ := (map_modify s.real_connections_ key
          (fun d => { d with last_active_time_ := now }))
        trace := (s.trace ++
          [Action.report pServerData.server_bus_id_ pServerData.net_state_,
            Action.log_server_info]) }

/-- The call `net_client_ptr_->Update()` on the transport of the entry under `key`:
the transport is pumped, the events it surfaces go to `OnNetEvent` and then the
messages go to `OnNetMsg`. -/
def NetUpdate (env : Env) (s : AFCNetClientService) (key : Int) : AFCNetClientService :=
  match find_value s.real_connections_ key with
  | none => s
  | some connection_data =>
    match connection_data.net_client_ptr_ with
    | none => s
    | some net =>
      let r := net.Update env.count_once
      let s1 := { s with real_connections_ := (map_modify s.real_connections_ key
        (fun d => { d with net_client_ptr_ := some r.2.2 })) }
      let s2 := r.1.foldl (OnNetEvent env.now) s1
      r.2.1.foldl (fun st m => OnNetMsg st m.1 m.2) s2

/-- The body of the loop of `ProcessAddConnection` for one queued request.  `none` is
the call of `StartClient` through the null pointer `CreateNet` returned.  The call
passes four arguments, so `ip_v6` is the default of the declaration, `false`. -/
def AddConnection (env : Env) (s : AFCNetClientService) (connection_data : AFConnectionData) :
    Option AFCNetClientService :=
  match find_value s.real_connections_ connection_data.server_bus_id_ with
  | some _ => some s
  | none =>
    let c := CreateNet s connection_data.endpoint_.proto
    match c.1 with
    | none => none
    | some net =>
      let ret := env.start_ok connection_data.server_bus_id_
      let target_connection_data : AFConnectionData :=
        { connection_data with
          last_active_time_ := env.now
          net_client_ptr_ := some (net.StartClient connection_data.head_len_
            connection_data.server_bus_id_ connection_data.endpoint_.ip
            connection_data.endpoint_.port false)
          net_state_ := if ret then ConnectState.CONNECTING else ConnectState.RECONNECT }
      let s1 := c.2
      some { s1 with real_connections_ := (map_insert s1.real_connections_
        connection_data.server_bus_id_ target_connection_data) }

/-- The loop of `ProcessAddConnection` over the queued requests. -/
def AddConnections (env : Env) :
    List AFConnectionData → AFCNetClientService → Option AFCNetClientService
  | [], s => some s
  | connection_data :: rest, s =>
    match AddConnection env s connection_data with
    | none => none
    | some s1 => AddConnections env rest s1

/-- `AFCNetClientService::ProcessAddConnection`. -/
def ProcessAddConnection (env : Env) (s : AFCNetClientService) : Option AFCNetClientService :=
  match AddConnections env s.tmp_connections_ s with
  | none => none
  | some s1 => some { s1 with tmp_connections_ := [] }

/-- The body of the loop of `ProcessUpdate` for the entry stored under `key`.  `none`
is the call of `StartClient` through a null `net_client_ptr_`. -/
def ProcessUpdateEntry (env : Env) (s : AFCNetClientService) (key : Int) :
    Option AFCNetClientService :=
  match find_value s.real_connections_ key with
  | none => some s
  | some connection_data =>
    match connection_data.net_state_ with
    | ConnectState.DISCONNECT =>
      some { s with real_connections_ := (map_modify s.real_connections_ key
        (fun d => { d with net_state_ := ConnectState.RECONNECT,
                           net_client_ptr_ := d.net_client_ptr_.map AFINet.Shutdown })) }
    | ConnectState.CONNECTING => some (NetUpdate env s key)
    | ConnectState.CONNECTED =>
      match connection_data.net_client_ptr_ with
      | none => some s
      | some _ => some (KeepAlive env.now (NetUpdate env s key) key)
    | ConnectState.RECONNECT =>
      if connection_data.last_active_time_ + 30 * SECOND_MS ≥ env.now then some s
      else
        match connection_data.net_client_ptr_ with
        | none => none
        | some net =>
          let ret := env.start_ok connection_data.server_bus_id_
          some { s with real_connections_ := (map_modify s.real_connections_ key
            (fun d => { d with
              last_active_time_ := env.now
              net_client_ptr_ := some (net.Shutdown.StartClient connection_data.head_len_
                connection_data.server_bus_id_ connection_data.endpoint_.ip
                connection_data.endpoint_.port connection_data.endpoint_.is_v6)
              net_state_ := if ret then ConnectState.CONNECTING else ConnectState.RECONNECT })) }

/-- The loop of `ProcessUpdate` over the keys of the registry. -/
def ProcessUpdateLoop (env : Env) :
    List Int → AFCNetClientService → Option AFCNetClientService
  | [], s => some s
  | key :: rest, s =>
    match ProcessUpdateEntry env s key with
    | none => none
    | some s1 => ProcessUpdateLoop env rest s1

/-- `AFCNetClientService::ProcessUpdate`. -/
def ProcessUpdate (env : Env) (s : AFCNetClientService) : Option AFCNetClientService :=
  ProcessUpdateLoop env (s.real_connections_.map (fun p => p.1)) s

/-- `AFCNetClientService::Update`. -/
def Update (env : Env) (s : AFCNetClientService) : Option AFCNetClientService :=
  match ProcessAddConnection env s with
  | none => none
  | some s1 => ProcessUpdate env s1

/-! ## Bus-id parsing of `ParseArgs` -/

/-- A view into a character buffer (`AFSlice`): `data` is what the pointer `data()`
points at, that is the buffer from the first character of the view up to its
terminating NUL, and `size` is the length of the view. -/
structure AFSlice where
  data : List Char
  size : Nat
deriving DecidableEq, Repr

/-- The scan of `Split`: `start` is the buffer from the start of the current token,
`n` the number of characters of the token read so far. -/
def SplitLoop : List Char → List Char → Nat → List AFSlice
  | [], start, n => [{ data := start, size := n }]
  | c :: cs, start, n =>
    if c = '.' then { data := start, size := n } :: SplitLoop cs cs 0
    else SplitLoop cs start (n + 1)

/-- Modelled from the spec: `AFStringUtils::Split(slices, str, ".")` (not among the
sources) cuts the string into its "dot-separated fields", as views into the string. -/
def Split (str : List Char) : List AFSlice :=
  SplitLoop str str 0

/-- The white space `atoi` skips (`isspace` in the C locale). -/
def isspace (c : Char) : Bool :=
  c = ' ' || c = '\t' || c = '\n' || c = '\r' || c.toNat = 11 || c.toNat = 12

/-- The digit loop of `atoi`: reads decimal digits into `acc` and stops at the first
character that is not one. -/
def atoi_digits : List Char → Int → Int
  | [], acc => acc
  | c :: cs, acc =>
    if c.isDigit then atoi_digits cs (acc * 10 + ((c.toNat : Int) - 48)) else acc

/-- The number the function `std::atoi` of the C library reads from a buffer: it skips
white space, reads an optional sign and then decimal digits; the number is 0 when
there are none.  `std::atoi` returns an `int`: it returns this number when the number
fits an `int` (`atoi_fits_int`), and C leaves its result undefined when it does not
(the C libraries differ there), so what is stated about the value of `std::atoi` is
stated for the buffers with `atoi_fits_int`. -/
def atoi (from_ : List Char) : Int :=
  match from_.dropWhile isspace with
  | '-' :: rest => - atoi_digits rest 0
  | '+' :: rest => atoi_digits rest 0
  | rest => atoi_digits rest 0

/-- The least value of a 32-bit `int`. -/
def INT_MIN : Int := -2147483648

/-- The greatest value of a 32-bit `int`. -/
def INT_MAX : Int := 2147483647

/-- The number `std::atoi` reads from the buffer fits an `int`: this is when C defines
the result of `std::atoi`, which is then that number. -/
@[reducible] def atoi_fits_int (from_ : List Char) : Prop :=
  INT_MIN ≤ atoi from_ ∧ atoi from_ ≤ INT_MAX

/-- `detail::Converter<uint8_t, From>::convert(const char*)`: the `int` of `atoi` is
returned as `uint8_t`, that is reduced modulo 256.  It is the value of the code for
the buffers with `atoi_fits_int`. -/
def convert_uint8 (from_ : List Char) : Int :=
  atoi from_ % 256

/-- Modelled from the spec: `AFBusAddr` (base/AFBus.hpp is not among the sources)
holds "four 8-bit fields (channel, zone, role/app-type, instance) packed big-endian
into one 32-bit integer". -/
def bus_id_of (channel_id zone_id app_type inst_id : Int) : Int :=
  ((channel_id * 256 + zone_id) * 256 + app_type) * 256 + inst_id

/-- The bus-id section of `ParseArgs` for the value `busid` of the flag: `none` is
`return false`, `some id` is the call `SetBusID(id)`. -/
def ParseArgs_busid (busid : String) : Option Int :=
  match Split busid.data with
  | [s0, s1, s2, s3] =>
    some (bus_id_of (convert_uint8 s0.data) (convert_uint8 s1.data)
      (convert_uint8 s2.data) (convert_uint8 s3.data))
  | _ => none

/-! ## Reachable states -/

/-- What the I/O worker of a transport does between two ticks, seen from the service:
the session held by the transport of the entry under `key` (its queues of events and
messages, its removal flag) is whatever the worker made of it. -/
def io_worker (s : AFCNetClientService) (key : Int) (session : Option AFHttpSession) :
    AFCNetClientService :=
  { s with real_connections_ := (map_modify s.real_connections_ key
      (fun d => { d with net_client_ptr_ :=
        d.net_client_ptr_.map (fun n => { n with client_session_ptr_ := session }) })) }

/-- The states the service reaches from its construction through the calls of the
application (`StartClient`, the three registrations), ticks that return, events
handed to `OnNetEvent`, messages handed to `OnNetMsg`, and the work of the I/O
workers on the queues. -/
inductive Reachable : AFCNetClientService → Prop where
  | init : Reachable AFCNetClientService.empty
  | start_client (s : AFCNetClientService) (head_len : Nat) (target_bus_id : Int)
      (endpoint : AFEndpoint) :
      Reachable s → Reachable (StartClient s head_len target_bus_id endpoint).2
  | reg_msg (s : AFCNetClientService) (msg_id : Int) (cb : Nat) :
      Reachable s → Reachable (RegMsgCallback s msg_id cb).2
  | reg_forward (s : AFCNetClientService) (cb : Nat) :
      Reachable s → Reachable (RegForwardMsgCallback s cb).2
  | reg_event (s : AFCNetClientService) (cb : Nat) :
      Reachable s → Reachable (RegNetEventCallback s cb).2
  | update (s s1 : AFCNetClientService) (env : Env) :
      Reachable s → Update env s = some s1 → Reachable s1
  | net_event (s : AFCNetClientService) (now : Int) (event : AFNetEvent) :
      Reachable s → Reachable (OnNetEvent now s event)
  | net_msg (s : AFCNetClientService) (msg : AFNetMsg) (session_id : Int) :
      Reachable s → Reachable (OnNetMsg s msg session_id)
  | io (s : AFCNetClientService) (key : Int) (session : Option AFHttpSession) :
      Reachable s → Reachable (io_worker s key session)

/-- The number of `StartClient` calls a transport has received. -/
def start_calls (net : Option AFINet) : Nat :=
  match net with
  | none => 0
  | some n => (n.calls.filter (fun c =>
      match c with
      | NetCall.StartClient _ _ _ _ _ => true
      | _ => false)).length

/-! ## Scenarios

Concrete runs of the service, built with the operations above from the service as
constructed.  They follow the end-to-end scenario of the spec: a tcp peer at
1.2.3.4:9001, here with bus id 7 and one registered event callback. -/

/-- The tcp endpoint of the scenarios. -/
def scenario_endpoint : AFEndpoint :=
  { proto := proto_type.tcp, ip := "1.2.3.4", port := 9001, is_v6 := false }

/-- A tick at time `now` in which transports start, with a limit of 100 messages. -/
def scenario_env (now : Int) : Env :=
  { now := now, start_ok := fun _ => true, count_once := 100 }

/-- A tick at time `now` in which no transport starts. -/
def scenario_env_down (now : Int) : Env :=
  { now := now, start_ok := fun _ => false, count_once := 100 }

/-- The service with event callback 1 registered and a request for bus id 7 queued. -/
def scenario_requested : AFCNetClientService :=
  (StartClient (RegNetEventCallback AFCNetClientService.empty 1).2 4 7 scenario_endpoint).2

/-- The scenario after the tick at time 0: the entry of bus id 7 is `CONNECTING`. -/
def scenario_connecting : AFCNetClientService :=
  (Update (scenario_env 0) scenario_requested).getD scenario_requested

/-- The scenario after the `Connected` event of bus id 7: the entry is `CONNECTED`
and the ring holds its virtual nodes. -/
def scenario_connected : AFCNetClientService :=
  OnNetEvent 0 scenario_connecting
    { id_ := 1, type_ := AFNetEventType.CONNECTED, bus_id_ := 7, ip_ := "1.2.3.4" }


/-- The scenario when the transport does not start in the tick at time 0: the entry of
bus id 7 is `RECONNECT` with last-activity timestamp 0. -/
def scenario_reconnecting : AFCNetClientService :=
  (Update (scenario_env_down 0) scenario_requested).getD scenario_requested

/-- The transport of the scenario after its first `StartClient` call. -/
def scenario_net : AFINet :=
  { id := 0, client_session_ptr_ := none,
    calls := [NetCall.StartClient 4 7 "1.2.3.4" 9001 false] }

/-- The entry of bus id 7 in `scenario_reconnecting`. -/
def scenario_entry_reconnecting : AFConnectionData :=
  { head_len_ := 4, server_bus_id_ := 7, endpoint_ := scenario_endpoint,
    net_state_ := ConnectState.RECONNECT, last_active_time_ := 0,
    net_client_ptr_ := some scenario_net }

/-- A udp endpoint: `CreateNet` has no transport for it. -/
def scenario_endpoint_udp : AFEndpoint :=
  { proto := proto_type.udp, ip := "1.2.3.4", port := 9001, is_v6 := false }

/-- The first request queued for a target bus id, if there is one. -/
def first_request (q : List AFConnectionData) (bus_id : Int) : Option AFConnectionData :=
  match q with
  | [] => none
  | c :: rest => if c.server_bus_id_ = bus_id then some c else first_request rest bus_id

/-- The entry `ProcessAddConnection` builds from a queued request in service `s`. -/
def promoted_entry (env : Env) (s : AFCNetClientService) (c : AFConnectionData) :
    AFConnectionData :=
  { c with
    last_active_time_ := env.now
    net_client_ptr_ := some
      { id := s.next_net_id, client_session_ptr_ := none,
        calls := [NetCall.StartClient c.head_len_ c.server_bus_id_ c.endpoint_.ip
          c.endpoint_.port false] }
    net_state_ := if env.start_ok c.server_bus_id_ then ConnectState.CONNECTING
      else ConnectState.RECONNECT }

/-- Ring and registry agree: every entry is stored under its own bus id, and the ring
holds the virtual node `i` of bus id `b` exactly when `i` is below the default weight
and the entry of `b` is `CONNECTED`. -/
def ring_consistent (real : List (Int × AFConnectionData)) (ring : List AFCMachineNode) :
    Prop :=
  (∀ (k : Int) (d : AFConnectionData), find_value real k = some d → d.server_bus_id_ = k) ∧
  (∀ (b : Int) (i : Nat), ring_has ring b i = true ↔
    (i < EConstDefine_DefaultWeight ∧
      ∃ d, find_value real b = some d ∧ d.net_state_ = ConnectState.CONNECTED))

/-- What `OnNetMsg` does for a message handed over by the pump, given the per-id
table. -/
def msg_action (callbacks : List (Int × Nat)) (m : AFNetMsg × Int) : Action :=
  match find_value callbacks m.1.msg_id_ with
  | some cb => Action.msg_cb cb m.1 m.2
  | none => Action.log_invalid_msg m.1.msg_id_

/-- The service after the tick body has pumped the `Disconnected` event `e` of the
`CONNECTED` entry `d` under `key`, whose transport `net` handed over `msgs`. -/
def after_disconnect (env : Env) (s : AFCNetClientService) (key : Int)
    (d : AFConnectionData) (net : AFINet) (e : AFNetEvent) (msgs : List (AFNetMsg × Int)) :
    AFCNetClientService :=
  { s with
    real_connections_ := (map_modify s.real_connections_ key (fun d0 =>
      { d0 with net_state_ := ConnectState.DISCONNECT, last_active_time_ := env.now,
                net_client_ptr_ := some (net.Update env.count_once).2.2 }))
    consistent_hashmap_ := RemoveServerWeightData s.consistent_hashmap_ d
    bus_index := RemoveNetConnectionBus s.bus_index key
    trace := (s.trace ++ s.net_event_callbacks_.map (fun cb =>
        Action.event_cb cb e (RemoveServerWeightData s.consistent_hashmap_ d)
          (some ConnectState.DISCONNECT)) ++
      msgs.map (msg_action s.net_msg_callbacks_)) }

/-- The `Disconnected` event of the scenario. -/
def scenario_disconnected_event : AFNetEvent :=
  { id_ := 1, type_ := AFNetEventType.DISCONNECTED, bus_id_ := 7, ip_ := "1.2.3.4" }

/-- The session of the scenario when the I/O worker has queued the `Disconnected`
event. -/
def scenario_closed_session : AFHttpSession :=
  { session_id_ := 1, need_remove_ := true, msgs_ := [],
    events_ := [scenario_disconnected_event] }

/-- The connected scenario once the I/O worker has queued the `Disconnected` event of
the closed session. -/
def scenario_closing : AFCNetClientService :=
  io_worker scenario_connected 7 (some scenario_closed_session)

/-- The transport of the scenario in `scenario_closing`. -/
def scenario_net_closing : AFINet :=
  { id := 0, client_session_ptr_ := some scenario_closed_session,
    calls := [NetCall.StartClient 4 7 "1.2.3.4" 9001 false, NetCall.Update] }

/-- The entry of bus id 7 in `scenario_closing`. -/
def scenario_entry_closing : AFConnectionData :=
  { head_len_ := 4, server_bus_id_ := 7, endpoint_ := scenario_endpoint,
    net_state_ := ConnectState.CONNECTED, last_active_time_ := 0,
    net_client_ptr_ := some scenario_net_closing }

/-- A websocket endpoint: `CreateNet` has no transport for it either. -/
def scenario_endpoint_ws : AFEndpoint :=
  { proto := proto_type.ws, ip := "1.2.3.4", port := 9001, is_v6 := false }

/-- Another tcp endpoint than the one of the scenario. -/
def scenario_endpoint_other : AFEndpoint :=
  { proto := proto_type.tcp, ip := "5.6.7.8", port := 9002, is_v6 := false }

/-- The request `StartClient` queues in the scenario. -/
def scenario_request : AFConnectionData :=
  { head_len_ := 4, server_bus_id_ := 7, endpoint_ := scenario_endpoint,
    net_state_ := ConnectState.DISCONNECT, last_active_time_ := 0, net_client_ptr_ := none }

/-! ## Teardown -/

/-- Modelled from the spec: `ARK_DELETE` (a macro whose header is not among the
sources) on a transport pointer that is not null.  The transport is "shut down and
released": the object is destroyed, its destructor shuts it down (the comment at the
call, and `~AFCWebSocketClient`), and the pointer is null afterwards.  Returns the
transport as it was destroyed and the pointer. -/
def ARK_DELETE (net : AFINet) : AFINet × Option AFINet :=
  (net.Shutdown, none)

/-- The body of the loop of `AFCNetClientService::Shutdown` for one entry: the
transport destroyed, if there is one, and the entry afterwards. -/
def ShutdownEntry (connection_data : AFConnectionData) : Option AFINet × AFConnectionData :=
  match connection_data.net_client_ptr_ with
  | none => (none, connection_data)
  | some net => (some (ARK_DELETE net).1, { connection_data with net_client_ptr_ := (ARK_DELETE net).2 })

/-- `AFCNetClientService::Shutdown`: the loop visits every entry of the registry and
deletes its transport; nothing is taken out of `real_connections_`.  Returns the
transports destroyed, in the order of the registry, and the service. -/
def Shutdown (s : AFCNetClientService) : List AFINet × AFCNetClientService :=
  (s.real_connections_.filterMap (fun p => (ShutdownEntry p.2).1),
    { s with real_connections_ :=
      s.real_connections_.map (fun p => (p.1, (ShutdownEntry p.2).2)) })

/-- The number of server reports in a trace. -/
def report_count (trace : List Action) : Nat :=
  (trace.filter (fun a =>
    match a with
    | Action.report _ _ => true
    | _ => false)).length

/-! ## The game module -/

/-- `AFCGameNetClientModule::StartClient`, seen from the net client service it looks up:
`create_ret` is the result of `CreateClusterClients`, `pNetClient` the service (null
when the lookup fails).  Both registrations on `pNetClient`, the one of
`OnSocketEvent` as event callback among them, are commented out in the source, so the
service is left as it is. -/
def GameNetClientModule_StartClient (create_ret : Int)
    (pNetClient : Option AFCNetClientService) : Int × Option AFCNetClientService :=
  if create_ret ≠ 0 then (create_ret, pNetClient)
  else
    match pNetClient with
    | none => (-1, none)
    | some s => (0, some s)

/-- The bus id of the end-to-end scenario of the spec, 0x02030405. -/
def e2e_bus_id : Int := 33752069

/-- The `Connected` event of the end-to-end scenario. -/
def e2e_connected_event : AFNetEvent :=
  { id_ := 1, type_ := AFNetEventType.CONNECTED, bus_id_ := e2e_bus_id, ip_ := "1.2.3.4" }

/-- The end-to-end scenario of the spec on the service as the game module leaves it:
`StartClient(tcp, bus = 0x02030405, 1.2.3.4:9001)`, a tick, the `Connected` event. -/
def e2e_connected : AFCNetClientService :=
  OnNetEvent 0
    ((Update (scenario_env 0)
        (StartClient (((GameNetClientModule_StartClient 0
          (some AFCNetClientService.empty)).2).getD AFCNetClientService.empty)
          4 e2e_bus_id scenario_endpoint).2).getD AFCNetClientService.empty)
    e2e_connected_event

/-! ## Repeated ticks -/

/-- The ticks at the times `times`, in order, when no transport ever starts. -/
def ticks_down (count_once : Nat) :
    List Int → AFCNetClientService → Option AFCNetClientService
  | [], s => some s
  | now :: rest, s =>
    match Update { now := now, start_ok := fun _ => false, count_once := count_once } s with
    | none => none
    | some s1 => ticks_down count_once rest s1

/-- The number of ticks among `times` at which the reconnect interval has elapsed since
the last attempt, `last` being the time of the attempt before the first tick. -/
def attempts (last : Int) : List Int → Nat
  | [] => 0
  | now :: rest =>
    if last + 30 * SECOND_MS < now then attempts now rest + 1 else attempts last rest

/-- The time of the last attempt after the ticks at `times`. -/
def last_attempt (last : Int) : List Int → Int
  | [] => last
  | now :: rest =>
    if last + 30 * SECOND_MS < now then last_attempt now rest else last_attempt last rest

/-- The times of `n` ticks, each one millisecond after the interval that follows the
tick before it, the first one counted from `last`. -/
def spaced (last : Int) : Nat → List Int
  | 0 => []
  | n + 1 => (last + 30 * SECOND_MS + 1) :: spaced (last + 30 * SECOND_MS + 1) n

/-- Every entry of the registry holds a transport. -/
def holds_net (real : List (Int × AFConnectionData)) : Prop :=
  ∀ (k : Int) (d : AFConnectionData), find_value real k = some d →
    d.net_client_ptr_.isSome = true

/-! ## Reports -/

/-- The trace of `s1` is the trace of `s` followed by actions among which every server
report was sent for an entry that was `CONNECTED` at that moment. -/
def reports_connected (s s1 : AFCNetClientService) : Prop :=
  ∃ added, s1.trace = s.trace ++ added ∧
    ∀ (b : Int) (st : ConnectState), Action.report b st ∈ added →
      st = ConnectState.CONNECTED

/-- The entry under `key`, if there is one, is `CONNECTED` or has the last-activity
timestamp `now`. -/
def connected_or_stamped (now : Int) (key : Int) (real : List (Int × AFConnectionData)) :
    Prop :=
  ∀ d, find_value real key = some d →
    d.net_state_ = ConnectState.CONNECTED ∨ d.last_active_time_ = now

/-! ## Reconnect attempts -/

/-- The scenario after `Shutdown` of the service whose entry of bus id 7 is
`RECONNECT`: the entry is still registered and holds no transport. -/
def scenario_reconnecting_torn_down : AFCNetClientService :=
  (Shutdown scenario_reconnecting).2

/-- The `StartClient` call `ProcessAddConnection` makes on the transport it created for
the request `d`: four arguments, the fifth is the default of the declaration. -/
def promotion_call (d : AFConnectionData) : NetCall :=
  NetCall.StartClient d.head_len_ d.server_bus_id_ d.endpoint_.ip d.endpoint_.port false

/-- The `StartClient` call of case `RECONNECT` of `ProcessUpdate` on the transport of
the entry `d`: five arguments, the fifth is `endpoint_.IsV6()`. -/
def reconnect_call (d : AFConnectionData) : NetCall :=
  NetCall.StartClient d.head_len_ d.server_bus_id_ d.endpoint_.ip d.endpoint_.port
    d.endpoint_.is_v6

/-- The connect attempt as the specification words it, for the initial attempt and for
every later one alike: header length, target bus id, IP, port and the IPv6 flag of
the endpoint. -/
def spec_connect_call (d : AFConnectionData) : NetCall :=
  NetCall.StartClient d.head_len_ d.server_bus_id_ d.endpoint_.ip d.endpoint_.port
    d.endpoint_.is_v6

/-- A tcp endpoint with the IPv6 flag set. -/
def scenario_endpoint_v6 : AFEndpoint :=
  { proto := proto_type.tcp, ip := "::1", port := 9001, is_v6 := true }

/-- The service as constructed with one request, for bus id 7 at the IPv6 endpoint. -/
def scenario_v6_requested : AFCNetClientService :=
  (StartClient AFCNetClientService.empty 4 7 scenario_endpoint_v6).2

/-- Modelled from the spec: the declaration of `AFINet::StartClient` (its header is
not among the sources) gives the fifth parameter of "StartClient(headerLen,
targetBusId, ip, port, ipv6)" a default, which the four-argument call of the promotion
takes; this is that call with the default left open. -/
def promotion_call_with (ip_v6_default : Bool) (d : AFConnectionData) : NetCall :=
  NetCall.StartClient d.head_len_ d.server_bus_id_ d.endpoint_.ip d.endpoint_.port
    ip_v6_default

/-! ## `lexical_cast` to `bool` -/

/-- The buffer `c_str()` points at, as C reads it: the characters of the string before
its first NUL character, all of them when it has none. -/
def c_str (strValue : String) : List Char :=
  strValue.data.takeWhile (fun c => c ≠ Char.ofNat 0)

/-- The function `strlen` of the C library on such a buffer. -/
def strlen (from_ : List Char) : Nat :=
  from_.length

/-- The constant `detail::strue`. -/
def strue : List Char := "true".data

/-- The constant `detail::sfalse`. -/
def sfalse : List Char := "false".data

/-- The loop of `detail::checkbool` over the indices still to compare; the character
at the end of a buffer is its terminating NUL. -/
def checkbool_loop (from_ s : List Char) : List Nat → Bool
  | [] => true
  | i :: rest =>
    if from_.getD i (Char.ofNat 0) ≠ s.getD i (Char.ofNat 0) then false
    else checkbool_loop from_ s rest

/-- `detail::checkbool`. -/
def checkbool (from_ : List Char) (len : Nat) (s : List Char) : Bool :=
  checkbool_loop from_ s (List.range len)

/-- `detail::Converter<int, const char*>::convert`, the specialisation for `int32_t`:
the value of `atoi`.  It is the value of the code for the buffers with
`atoi_fits_int`. -/
def convert_int32 (from_ : List Char) : Int :=
  atoi from_

/-- `detail::convert(const char*)`; `none` is `throw std::invalid_argument`.  In the
last branch the value is the one of the code when the buffer has `atoi_fits_int`. -/
def convert (from_ : List Char) : Option Bool :=
  let len := strlen from_
  if len = 4 then
    if checkbool from_ len strue then some true else none
  else if len = 5 then
    if checkbool from_ len sfalse then some false else none
  else some (decide (convert_int32 from_ > 0))

/-- `lexical_cast<bool>(const std::string&)`: `detail::Converter<bool, string>::convert`,
which hands `from.c_str()` to `detail::convert`. -/
def lexical_cast_bool (from_ : String) : Option Bool :=
  convert (c_str from_)

/-- `ValueFromString<bool>(strValue, nValue)`: the result of the call and `nValue` after
it.  The assignment is not reached when `lexical_cast` throws. -/
def ValueFromString_bool (strValue : String) (nValue : Bool) : Bool × Bool :=
  match lexical_cast_bool strValue with
  | some v => (true, v)
  | none => (false, nValue)

/-! ## Mixed queues -/

/-- The service as constructed with two requests queued: bus id 9 at the udp endpoint,
then bus id 7 at the tcp endpoint. -/
def scenario_udp_then_tcp : AFCNetClientService :=
  (StartClient (StartClient AFCNetClientService.empty 4 9 scenario_endpoint_udp).2 4 7
    scenario_endpoint).2

/-- The service as constructed with the same two requests queued in the other order. -/
def scenario_tcp_then_udp : AFCNetClientService :=
  (StartClient (StartClient AFCNetClientService.empty 4 7 scenario_endpoint).2 4 9
    scenario_endpoint_udp).2

/-! ## The registry map -/

theorem find_value_map_insert {α : Type} (m : List (Int × α)) (key : Int) (v : α) (k : Int)
    (h : find_value m key = none) :
    find_value (map_insert m key v) k = if k = key then some v else find_value m k := by
  induction m with
  | nil =>
    by_cases hk : key = k
    · subst hk; simp [map_insert, find_value]
    · have hk2 : ¬ k = key := fun e => hk e.symm
      simp [map_insert, find_value, hk, hk2]
  | cons p rest ih =>
    obtain ⟨k0, w⟩ := p
    have hne : ¬ k0 = key := by
      intro e
      simp [find_value, e] at h
    have hrest : find_value rest key = none := by
      simpa [find_value, hne] using h
    have hne2 : ¬ key = k0 := fun e => hne e.symm
    by_cases hlt : key < k0
    · by_cases hk : key = k
      · subst hk; simp [map_insert, find_value, hlt]
      · have hk2 : ¬ k = key := fun e => hk e.symm
        simp [map_insert, find_value, hlt, hk, hk2]
    · by_cases hk0 : k0 = k
      · subst hk0
        simp [map_insert, find_value, hlt, hne2, hne]
      · simp [map_insert, find_value, hlt, hne2, hk0, ih hrest]

theorem find_value_map_modify {α : Type} (m : List (Int × α)) (key : Int) (f : α → α)
    (k : Int) :
    find_value (map_modify m key f) k
      = if k = key then (find_value m key).map f else find_value m k := by
  induction m with
  | nil => simp [map_modify, find_value]
  | cons p rest ih =>
    obtain ⟨k0, w⟩ := p
    by_cases h0 : k0 = key
    · subst h0
      by_cases hk : k = k0
      · subst hk; simp [map_modify, find_value]
      · have hk2 : ¬ k0 = k := fun e => hk e.symm
        simp [map_modify, find_value, hk, hk2]
    · by_cases hk : k = key
      · subst hk
        simp [map_modify, find_value, h0, ih]
      · by_cases hk0 : k0 = k
        · subst hk0; simp [map_modify, find_value, h0]
        · simp [map_modify, find_value, h0, hk0, hk, ih]

theorem map_modify_keys {α : Type} (m : List (Int × α)) (key : Int) (f : α → α) :
    (map_modify m key f).map (fun p => p.1) = m.map (fun p => p.1) := by
  induction m with
  | nil => simp [map_modify]
  | cons p rest ih =>
    obtain ⟨k0, w⟩ := p
    by_cases h0 : k0 = key
    · simp [map_modify, h0]
    · simp [map_modify, h0, ih]

/-! ## Message handlers -/

theorem RegMsgCallback_of_some (s : AFCNetClientService) (msg_id : Int) (cb h : Nat)
    (hh : find_value s.net_msg_callbacks_ msg_id = some h) :
    RegMsgCallback s msg_id cb = (false, s) := by
  simp only [RegMsgCallback, hh]

theorem RegMsgCallback_of_none (s : AFCNetClientService) (msg_id : Int) (cb : Nat)
    (hn : find_value s.net_msg_callbacks_ msg_id = none) :
    RegMsgCallback s msg_id cb
      = (true, { s with net_msg_callbacks_ := map_insert s.net_msg_callbacks_ msg_id cb }) := by
  simp only [RegMsgCallback, hn]

/-- C1: `RegMsgCallback(msg_id, cb)` returns false and leaves the service unchanged
when `msg_id` already has a handler; otherwise it returns true, binds `msg_id` to `cb`,
keeps every other binding and every other field.  Hence, after registering `h1` and
then `h2` for the id of a message, the second call returns false and `OnNetMsg`
invokes `h1` (once, with the message and session id) and nothing else. -/
theorem RegMsgCallback_one_handler_per_id (s : AFCNetClientService) (msg_id : Int)
    (cb h1 h2 : Nat) (msg : AFNetMsg) (session_id : Int) :
    (∀ h, find_value s.net_msg_callbacks_ msg_id = some h →
        RegMsgCallback s msg_id cb = (false, s)) ∧
    (find_value s.net_msg_callbacks_ msg_id = none →
        (RegMsgCallback s msg_id cb).1 = true ∧
        (∀ k, find_value (RegMsgCallback s msg_id cb).2.net_msg_callbacks_ k
            = if k = msg_id then some cb else find_value s.net_msg_callbacks_ k) ∧
        (RegMsgCallback s msg_id cb).2 = { s with net_msg_callbacks_ :=
            (RegMsgCallback s msg_id cb).2.net_msg_callbacks_ }) ∧
    (find_value s.net_msg_callbacks_ msg.msg_id_ = none →
        (RegMsgCallback s msg.msg_id_ h1).1 = true ∧
        (RegMsgCallback (RegMsgCallback s msg.msg_id_ h1).2 msg.msg_id_ h2).1 = false ∧
        (OnNetMsg (RegMsgCallback (RegMsgCallback s msg.msg_id_ h1).2 msg.msg_id_ h2).2
            msg session_id).trace = s.trace ++ [Action.msg_cb h1 msg session_id]) := by
  refine ⟨?_, ?_, ?_⟩
  · intro h hh
    exact RegMsgCallback_of_some s msg_id cb h hh
  · intro hn
    rw [RegMsgCallback_of_none s msg_id cb hn]
    refine ⟨rfl, ?_, rfl⟩
    intro k
    exact find_value_map_insert _ _ _ _ hn
  · intro hn
    rw [RegMsgCallback_of_none s msg.msg_id_ h1 hn]
    have h1some : find_value (map_insert s.net_msg_callbacks_ msg.msg_id_ h1) msg.msg_id_
        = some h1 := by
      rw [find_value_map_insert _ _ _ _ hn]; simp
    rw [RegMsgCallback_of_some _ msg.msg_id_ h2 h1 h1some]
    refine ⟨rfl, rfl, ?_⟩
    simp only [OnNetMsg, h1some]

/-- The contract of C1 on the message id 100 of the spec: on the empty service the
first registration succeeds, the second one fails, and the first handler fires. -/
theorem RegMsgCallback_one_handler_per_id_witness :
    (find_value AFCNetClientService.empty.net_msg_callbacks_ 100 = none) ∧
    (RegMsgCallback (RegMsgCallback AFCNetClientService.empty 100 1).2 100 2).1 = false ∧
    (OnNetMsg (RegMsgCallback (RegMsgCallback AFCNetClientService.empty 100 1).2 100 2).2
      { msg_id_ := 100, data_ := [] } 9).trace
      = [Action.msg_cb 1 { msg_id_ := 100, data_ := [] } 9] :=
  ⟨by decide,
   ((RegMsgCallback_one_handler_per_id AFCNetClientService.empty 100 1 1 2
      { msg_id_ := 100, data_ := [] } 9).2.2 (by decide)).2.1,
   ((RegMsgCallback_one_handler_per_id AFCNetClientService.empty 100 1 1 2
      { msg_id_ := 100, data_ := [] } 9).2.2 (by decide)).2.2⟩

/-- The per-id table alone decides what `OnNetMsg` does. -/
theorem OnNetMsg_eq (s : AFCNetClientService) (msg : AFNetMsg) (session_id : Int) :
    OnNetMsg s msg session_id = { s with trace := s.trace ++
      [match find_value s.net_msg_callbacks_ msg.msg_id_ with
        | some cb => Action.msg_cb cb msg session_id
        | none => Action.log_invalid_msg msg.msg_id_] } := by
  unfold OnNetMsg
  cases find_value s.net_msg_callbacks_ msg.msg_id_ <;> rfl

/-- C8, as the code has it: `RegForwardMsgCallback` only appends the handler to
`net_msg_forward_callbacks_`, and `OnNetMsg` never reads that list.  A message
produces exactly one action, the call of the per-id handler when there is one and the
error line otherwise, whatever forward handlers are registered. -/
theorem OnNetMsg_ignores_forward_callbacks (s : AFCNetClientService) (cb : Nat)
    (msg : AFNetMsg) (session_id : Int) :
    RegForwardMsgCallback s cb
      = (true, { s with net_msg_forward_callbacks_ := s.net_msg_forward_callbacks_ ++ [cb] }) ∧
    (OnNetMsg (RegForwardMsgCallback s cb).2 msg session_id).trace
      = (OnNetMsg s msg session_id).trace ∧
    (OnNetMsg s msg session_id).trace = s.trace ++
      [match find_value s.net_msg_callbacks_ msg.msg_id_ with
        | some h => Action.msg_cb h msg session_id
        | none => Action.log_invalid_msg msg.msg_id_] ∧
    (OnNetMsg s msg session_id).net_msg_forward_callbacks_ = s.net_msg_forward_callbacks_ := by
  refine ⟨rfl, ?_, ?_, ?_⟩
  · rw [OnNetMsg_eq, OnNetMsg_eq]; rfl
  · rw [OnNetMsg_eq]
  · rw [OnNetMsg_eq]

/-- C8 fails as stated: with forward handler 5 registered, and per-id handler 1 for
message id 100, a message with id 100 reaches handler 1 only and a message with id 200
reaches no handler at all. -/
theorem OnNetMsg_forward_callback_not_invoked :
    (OnNetMsg (RegMsgCallback (RegForwardMsgCallback AFCNetClientService.empty 5).2 100 1).2
      { msg_id_ := 100, data_ := [] } 9).trace
        = [Action.msg_cb 1 { msg_id_ := 100, data_ := [] } 9] ∧
    (OnNetMsg (RegMsgCallback (RegForwardMsgCallback AFCNetClientService.empty 5).2 100 1).2
      { msg_id_ := 200, data_ := [] } 9).trace = [Action.log_invalid_msg 200] := by
  decide

/-! ## The message pump -/

theorem UpdateNetMsgLoop_eq (count_once : Nat) (q : List AFNetMsg) :
    ∀ msg_count, msg_count ≤ count_once →
      UpdateNetMsgLoop count_once q msg_count
        = (q.take (count_once + 1 - msg_count), q.drop (count_once + 1 - msg_count)) := by
  induction q with
  | nil => intro c _; simp [UpdateNetMsgLoop]
  | cons m rest ih =>
    intro c hc
    by_cases hlast : c + 1 > count_once
    · have hone : count_once + 1 - c = 1 := by omega
      simp [UpdateNetMsgLoop, hlast, hone]
    · have hle : c + 1 ≤ count_once := by omega
      have hsucc : count_once + 1 - c = (count_once + 1 - (c + 1)) + 1 := by omega
      simp only [UpdateNetMsgLoop, hlast, if_false, ih (c + 1) hle]
      rw [hsucc]
      simp

/-- C9, evaluated on the code: one call of `UpdateNetMsg` hands over the first
`ARK_PROCESS_NET_MSG_COUNT_ONCE + 1` messages of the queue, in queue order, and leaves
the rest queued in order.  With a limit of 2 and three queued messages all three are
dispatched in the one call. -/
theorem UpdateNetMsg_dispatches_limit_plus_one (count_once : Nat) (ss : AFHttpSession) :
    UpdateNetMsg count_once (some ss)
      = ((ss.msgs_.take (count_once + 1)).map (fun m => (m, ss.session_id_)),
          some { ss with msgs_ := ss.msgs_.drop (count_once + 1) }) ∧
    (UpdateNetMsg 2 (some
        { session_id_ := 1, events_ := [], need_remove_ := false,
          msgs_ := [{ msg_id_ := 11, data_ := [] }, { msg_id_ := 12, data_ := [] },
                    { msg_id_ := 13, data_ := [] }] })).1
      = [({ msg_id_ := 11, data_ := [] }, 1), ({ msg_id_ := 12, data_ := [] }, 1),
         ({ msg_id_ := 13, data_ := [] }, 1)] := by
  refine ⟨?_, by decide⟩
  simp [UpdateNetMsg, UpdateNetMsgLoop_eq count_once ss.msgs_ 0 (Nat.zero_le _)]

/-! ## Bus-id parsing -/

/-- C10, as the code has it: the bus-id section of `ParseArgs` fails exactly when the
string does not split into 4 tokens.  For a 4-token string it sets a bus id; when the
number of each token fits an `int`, the fields of that bus id are `atoi` of each token
reduced modulo 256, each one in [0,255]. -/
theorem ParseArgs_busid_checks_token_count_only (busid : String) :
    ((ParseArgs_busid busid).isSome = true ↔ (Split busid.data).length = 4) ∧
    (∀ s0 s1 s2 s3, Split busid.data = [s0, s1, s2, s3] →
      atoi_fits_int s0.data → atoi_fits_int s1.data →
      atoi_fits_int s2.data → atoi_fits_int s3.data →
      ParseArgs_busid busid = some (bus_id_of (atoi s0.data % 256) (atoi s1.data % 256)
        (atoi s2.data % 256) (atoi s3.data % 256)) ∧
      (0 ≤ atoi s0.data % 256 ∧ atoi s0.data % 256 < 256) ∧
      (0 ≤ atoi s1.data % 256 ∧ atoi s1.data % 256 < 256) ∧
      (0 ≤ atoi s2.data % 256 ∧ atoi s2.data % 256 < 256) ∧
      (0 ≤ atoi s3.data % 256 ∧ atoi s3.data % 256 < 256)) := by
  unfold ParseArgs_busid
  generalize Split busid.data = l
  constructor
  · rcases l with _ | ⟨a, _ | ⟨b, _ | ⟨c, _ | ⟨d, _ | ⟨e, r⟩⟩⟩⟩⟩ <;> simp
  · intro s0 s1 s2 s3 hl _ _ _ _
    subst hl
    refine ⟨rfl, ?_, ?_, ?_, ?_⟩ <;>
      exact ⟨Int.emod_nonneg _ (by decide), Int.emod_lt_of_pos _ (by decide)⟩

/-- The statement of C10 at the address 8.8.8.8 of the help text and at 256.0.0.1: both
split into 4 tokens and set a bus id; the tokens of 256.0.0.1 read 256, 0, 0 and 1,
which fit an `int`, and the bus id is the one of the fields 0, 0, 0, 1. -/
theorem ParseArgs_busid_checks_token_count_only_witness :
    (Split "256.0.0.1".data).length = 4 ∧ (ParseArgs_busid "256.0.0.1").isSome = true ∧
    (Split "8.8.8.8".data).length = 4 ∧ (ParseArgs_busid "8.8.8.8").isSome = true ∧
    Split "256.0.0.1".data
      = [{ data := "256.0.0.1".data, size := 3 }, { data := "0.0.1".data, size := 1 },
         { data := "0.1".data, size := 1 }, { data := "1".data, size := 1 }] ∧
    atoi "256.0.0.1".data = 256 ∧ atoi_fits_int "256.0.0.1".data ∧
    ParseArgs_busid "256.0.0.1"
      = some (bus_id_of (atoi "256.0.0.1".data % 256) (atoi "0.0.1".data % 256)
          (atoi "0.1".data % 256) (atoi "1".data % 256)) ∧
    bus_id_of (atoi "256.0.0.1".data % 256) (atoi "0.0.1".data % 256)
      (atoi "0.1".data % 256) (atoi "1".data % 256) = bus_id_of 0 0 0 1 :=
  ⟨by decide, (ParseArgs_busid_checks_token_count_only "256.0.0.1").1.2 (by decide),
   by decide, (ParseArgs_busid_checks_token_count_only "8.8.8.8").1.2 (by decide),
   by decide, by decide, by decide,
   ((ParseArgs_busid_checks_token_count_only "256.0.0.1").2
      { data := "256.0.0.1".data, size := 3 } { data := "0.0.1".data, size := 1 }
      { data := "0.1".data, size := 1 } { data := "1".data, size := 1 }
      (by decide) (by decide) (by decide) (by decide) (by decide)).1,
   by decide⟩

/-- C10 fails as stated: the three strings of the claim split into 4 tokens and have a
field that is no decimal integer in [0,255], yet each of them sets a bus id:
256.0.0.1 the one of 0.0.0.1, -1.2.3.4 the one of 255.2.3.4, a.b.c.d the one of
0.0.0.0. -/
theorem ParseArgs_busid_accepts_out_of_range_fields :
    ParseArgs_busid "256.0.0.1" = some 1 ∧
    ParseArgs_busid "0.0.0.1" = some 1 ∧
    ParseArgs_busid "-1.2.3.4" = some (bus_id_of 255 2 3 4) ∧
    ParseArgs_busid "a.b.c.d" = some 0 := by
  decide

/-! ## Timers -/

theorem KeepAlive_eq (now : Int) (s : AFCNetClientService) (key : Int)
    (d : AFConnectionData) (hfind : find_value s.real_connections_ key = some d) :
    KeepAlive now s key =
      if d.last_active_time_ + 10 > now then s
      else { s with
        real_connections_ := (map_modify s.real_connections_ key
          (fun d => { d with last_active_time_ := now }))
        trace := (s.trace ++
          [Action.report d.server_bus_id_ d.net_state_, Action.log_server_info]) } := by
  simp only [KeepAlive, hfind]

/-- C5, evaluated on the code: the entry of bus id 7 is `CONNECTED` with last-activity
timestamp 0.  `KeepAlive` at time 9 sends nothing; at time 10, ten ticks of the
millisecond clock and not ten seconds, it sends a report and sets the timestamp to 10;
at time 20 it sends the next report. -/
theorem KeepAlive_reports_every_ten_milliseconds :
    (find_value scenario_connected.real_connections_ 7).map
        (fun d => (d.net_state_, d.last_active_time_)) = some (ConnectState.CONNECTED, 0) ∧
    KeepAlive 9 scenario_connected 7 = scenario_connected ∧
    (KeepAlive 10 scenario_connected 7).trace = scenario_connected.trace ++
        [Action.report 7 ConnectState.CONNECTED, Action.log_server_info] ∧
    (find_value (KeepAlive 10 scenario_connected 7).real_connections_ 7).map
        (fun d => d.last_active_time_) = some 10 ∧
    (KeepAlive 20 (KeepAlive 10 scenario_connected 7) 7).trace = scenario_connected.trace ++
        [Action.report 7 ConnectState.CONNECTED, Action.log_server_info,
         Action.report 7 ConnectState.CONNECTED, Action.log_server_info] ∧
    (20 : Int) - 10 < 10 * SECOND_MS := by
  decide

theorem start_calls_shutdown_start (net : AFINet) (head_len : Nat) (bus : Int) (ip : String)
    (port : Nat) (v6 : Bool) :
    start_calls (some (net.Shutdown.StartClient head_len bus ip port v6))
      = start_calls (some net) + 1 := by
  simp [start_calls, AFINet.Shutdown, AFINet.StartClient, List.filter_append]

/-- C4, as the code has it: a tick on a `RECONNECT` entry that holds a transport
attempts a new connect if and only if strictly more than 30 seconds
(`30 * SECOND_MS`) have elapsed since the last-activity timestamp.  When at most 30
seconds have elapsed, exactly 30 included, the service is left as it is.  Otherwise
the timestamp becomes the current time, the transport is shut down and receives
exactly one `StartClient` call, the state becomes `CONNECTING` or `RECONNECT` after
the outcome of that call, and the other entries are left as they are. -/
theorem ProcessUpdate_reconnects_after_more_than_30_seconds (env : Env)
    (s : AFCNetClientService) (key : Int) (d : AFConnectionData) (net : AFINet)
    (hfind : find_value s.real_connections_ key = some d)
    (hstate : d.net_state_ = ConnectState.RECONNECT)
    (hnet : d.net_client_ptr_ = some net) :
    (env.now - d.last_active_time_ ≤ 30 * SECOND_MS →
      ProcessUpdateEntry env s key = some s) ∧
    (30 * SECOND_MS < env.now - d.last_active_time_ →
      ∃ s1 d1, ProcessUpdateEntry env s key = some s1 ∧
        find_value s1.real_connections_ key = some d1 ∧
        d1 = { d with
          last_active_time_ := env.now
          net_client_ptr_ := some (net.Shutdown.StartClient d.head_len_ d.server_bus_id_
            d.endpoint_.ip d.endpoint_.port d.endpoint_.is_v6)
          net_state_ := if env.start_ok d.server_bus_id_ then ConnectState.CONNECTING
            else ConnectState.RECONNECT } ∧
        start_calls d1.net_client_ptr_ = start_calls d.net_client_ptr_ + 1 ∧
        (∀ k, k ≠ key → find_value s1.real_connections_ k = find_value s.real_connections_ k) ∧
        s1 = { s with real_connections_ := s1.real_connections_ }) := by
  constructor
  · intro hle
    have hge : d.last_active_time_ + 30 * SECOND_MS ≥ env.now := by omega
    simp only [ProcessUpdateEntry, hfind, hstate, hge, if_true]
  · intro hlt
    have hnge : ¬ (d.last_active_time_ + 30 * SECOND_MS ≥ env.now) := by omega
    have hstep : ProcessUpdateEntry env s key
        = some { s with real_connections_ := (map_modify s.real_connections_ key
            (fun d0 => { d0 with
              last_active_time_ := env.now
              net_client_ptr_ := some (net.Shutdown.StartClient d.head_len_ d.server_bus_id_
                d.endpoint_.ip d.endpoint_.port d.endpoint_.is_v6)
              net_state_ := if env.start_ok d.server_bus_id_ then ConnectState.CONNECTING
                else ConnectState.RECONNECT })) } := by
      simp only [ProcessUpdateEntry, hfind, hstate, hnge, if_false, hnet]
    refine ⟨_, _, hstep, ?_, rfl, ?_, ?_, rfl⟩
    · simp only [find_value_map_modify, if_true, hfind, Option.map_some']
    · simp only [hnet]
      exact start_calls_shutdown_start net _ _ _ _ _
    · intro k hk
      simp only [find_value_map_modify, hk, if_false]

/-- The statement of C4 on the scenario: the entry of bus id 7 is `RECONNECT` with
timestamp 0; the tick body at 30 seconds leaves the service as it is, the one at 30
seconds and one millisecond makes the attempt. -/
theorem ProcessUpdate_reconnects_after_more_than_30_seconds_witness :
    ProcessUpdateEntry (scenario_env (30 * SECOND_MS)) scenario_reconnecting 7
      = some scenario_reconnecting ∧
    ∃ s1 d1, ProcessUpdateEntry (scenario_env (30 * SECOND_MS + 1)) scenario_reconnecting 7
        = some s1 ∧
      find_value s1.real_connections_ 7 = some d1 ∧
      d1.net_state_ = ConnectState.CONNECTING ∧ d1.last_active_time_ = 30 * SECOND_MS + 1 ∧
      start_calls d1.net_client_ptr_ = 2 :=
  ⟨(ProcessUpdate_reconnects_after_more_than_30_seconds (scenario_env (30 * SECOND_MS))
      scenario_reconnecting 7 scenario_entry_reconnecting scenario_net
      (by decide) rfl rfl).1 (by decide),
   by
    obtain ⟨s1, d1, h1, h2, h3, h4, _, _⟩ :=
      (ProcessUpdate_reconnects_after_more_than_30_seconds
        (scenario_env (30 * SECOND_MS + 1)) scenario_reconnecting 7
        scenario_entry_reconnecting scenario_net (by decide) rfl rfl).2 (by decide)
    refine ⟨s1, d1, h1, h2, ?_, ?_, ?_⟩
    · rw [h3]; rfl
    · rw [h3]; rfl
    · rw [h4]; rfl⟩

/-- C4 fails as stated: the entry of bus id 7 is `RECONNECT` with last-activity
timestamp 0 and has received one `StartClient` call.  In the tick at time
`30 * SECOND_MS`, exactly 30 seconds later, no new connect is attempted: the tick
leaves the service as it is. -/
theorem ProcessUpdate_no_reconnect_at_exactly_30_seconds :
    (find_value scenario_reconnecting.real_connections_ 7).map
        (fun d => (d.net_state_, d.last_active_time_, start_calls d.net_client_ptr_))
      = some (ConnectState.RECONNECT, 0, 1) ∧
    Update (scenario_env (30 * SECOND_MS)) scenario_reconnecting = some scenario_reconnecting := by
  decide

/-! ## Promotion of queued requests -/

theorem find_value_isSome_iff_mem_keys {α : Type} (m : List (Int × α)) (k : Int) :
    (find_value m k).isSome = true ↔ k ∈ m.map (fun p => p.1) := by
  induction m with
  | nil => simp [find_value]
  | cons p rest ih =>
    obtain ⟨k0, w⟩ := p
    by_cases h0 : k0 = k
    · simp [find_value, h0]
    · have h1 : ¬ k = k0 := fun e => h0 e.symm
      simp [find_value, h0, h1, ih]

theorem map_insert_keys_perm {α : Type} (m : List (Int × α)) (key : Int) (v : α)
    (h : find_value m key = none) :
    List.Perm ((map_insert m key v).map (fun p => p.1)) (key :: m.map (fun p => p.1)) := by
  induction m with
  | nil => simp [map_insert]
  | cons p rest ih =>
    obtain ⟨k0, w⟩ := p
    have hne : ¬ k0 = key := by
      intro e
      simp [find_value, e] at h
    have hrest : find_value rest key = none := by
      simpa [find_value, hne] using h
    have hne2 : ¬ key = k0 := fun e => hne e.symm
    by_cases hlt : key < k0
    · simp [map_insert, hlt]
    · simp only [map_insert, hlt, if_false, hne2, List.map_cons]
      exact ((ih hrest).cons k0).trans (List.Perm.swap key k0 _)

theorem AddConnection_of_found (env : Env) (s : AFCNetClientService) (c d : AFConnectionData)
    (h : find_value s.real_connections_ c.server_bus_id_ = some d) :
    AddConnection env s c = some s := by
  simp only [AddConnection, h]

theorem AddConnection_of_new_tcp (env : Env) (s : AFCNetClientService) (c : AFConnectionData)
    (h : find_value s.real_connections_ c.server_bus_id_ = none)
    (htcp : c.endpoint_.proto = proto_type.tcp) :
    AddConnection env s c = some { s with
      next_net_id := s.next_net_id + 1
      real_connections_ := (map_insert s.real_connections_ c.server_bus_id_
        (promoted_entry env s c)) } := by
  simp only [AddConnection, h, htcp, CreateNet, AFINet.StartClient, promoted_entry,
    List.nil_append]

theorem AddConnection_of_new_not_tcp (env : Env) (s : AFCNetClientService)
    (c : AFConnectionData)
    (h : find_value s.real_connections_ c.server_bus_id_ = none)
    (hproto : c.endpoint_.proto ≠ proto_type.tcp) :
    AddConnection env s c = none := by
  cases hp : c.endpoint_.proto with
  | tcp => exact absurd hp hproto
  | udp => simp only [AddConnection, h, hp, CreateNet]
  | ws => simp only [AddConnection, h, hp, CreateNet]

/-- What one step of the promotion loop does when it returns. -/
theorem AddConnection_cases (env : Env) (s s1 : AFCNetClientService) (c : AFConnectionData)
    (h : AddConnection env s c = some s1) :
    ((find_value s.real_connections_ c.server_bus_id_).isSome = true ∧ s1 = s) ∨
    (find_value s.real_connections_ c.server_bus_id_ = none ∧
      c.endpoint_.proto = proto_type.tcp ∧
      s1 = { s with
        next_net_id := s.next_net_id + 1
        real_connections_ := (map_insert s.real_connections_ c.server_bus_id_
          (promoted_entry env s c)) }) := by
  cases hf : find_value s.real_connections_ c.server_bus_id_ with
  | some d =>
    left
    rw [AddConnection_of_found env s c d hf] at h
    exact ⟨rfl, (Option.some.inj h).symm⟩
  | none =>
    right
    by_cases htcp : c.endpoint_.proto = proto_type.tcp
    · rw [AddConnection_of_new_tcp env s c hf htcp] at h
      exact ⟨rfl, htcp, (Option.some.inj h).symm⟩
    · rw [AddConnection_of_new_not_tcp env s c hf htcp] at h
      cases h

theorem AddConnections_append (env : Env) (c : AFConnectionData) :
    ∀ (q : List AFConnectionData) (s : AFCNetClientService),
      AddConnections env (q ++ [c]) s
        = match AddConnections env q s with
          | none => none
          | some s1 => AddConnection env s1 c := by
  intro q
  induction q with
  | nil =>
    intro s
    simp only [List.nil_append, AddConnections]
    cases AddConnection env s c <;> rfl
  | cons c0 rest ih =>
    intro s
    simp only [List.cons_append, AddConnections]
    cases AddConnection env s c0 with
    | none => rfl
    | some s0 => exact ih s0

/-- Once the promotion loop returns, every target id that was active or queued is
active. -/
theorem AddConnections_found (env : Env) :
    ∀ (q : List AFConnectionData) (s s1 : AFCNetClientService),
      AddConnections env q s = some s1 → ∀ bus : Int,
        ((∃ c ∈ q, c.server_bus_id_ = bus) ∨
          (find_value s.real_connections_ bus).isSome = true) →
        (find_value s1.real_connections_ bus).isSome = true := by
  intro q
  induction q with
  | nil =>
    intro s s1 h bus hb
    simp only [AddConnections] at h
    rw [← Option.some.inj h]
    rcases hb with ⟨c, hc, _⟩ | hb
    · simp at hc
    · exact hb
  | cons c0 rest ih =>
    intro s s1 h bus hb
    simp only [AddConnections] at h
    cases h0 : AddConnection env s c0 with
    | none => rw [h0] at h; cases h
    | some s0 =>
      rw [h0] at h
      apply ih s0 s1 h bus
      have hkeep : ∀ b : Int, (find_value s.real_connections_ b).isSome = true →
          (find_value s0.real_connections_ b).isSome = true := by
        intro b hbs
        rcases AddConnection_cases env s s0 c0 h0 with ⟨_, e⟩ | ⟨hn, _, e⟩
        · rw [e]; exact hbs
        · rw [e]
          simp only [find_value_map_insert _ _ _ _ hn]
          split
          · rfl
          · exact hbs
      have hnew : (find_value s0.real_connections_ c0.server_bus_id_).isSome = true := by
        rcases AddConnection_cases env s s0 c0 h0 with ⟨hs, e⟩ | ⟨hn, _, e⟩
        · rw [e]; exact hs
        · rw [e]
          simp only [find_value_map_insert _ _ _ _ hn, if_true, Option.isSome_some]
      rcases hb with ⟨c, hc, hcb⟩ | hb
      · rcases List.mem_cons.mp hc with e | hrest
        · right
          rw [← hcb, e]
          exact hnew
        · left
          exact ⟨c, hrest, hcb⟩
      · right
        exact hkeep bus hb

theorem AddConnection_tmp (env : Env) (s : AFCNetClientService) (c : AFConnectionData)
    (t : List AFConnectionData) :
    AddConnection env { s with tmp_connections_ := t } c
      = (AddConnection env s c).map (fun s1 => { s1 with tmp_connections_ := t }) := by
  cases hf : find_value s.real_connections_ c.server_bus_id_ with
  | some d => simp only [AddConnection, hf, Option.map_some']
  | none =>
    cases hp : c.endpoint_.proto <;>
      simp only [AddConnection, hf, hp, CreateNet, Option.map_some', Option.map_none']

theorem AddConnections_tmp (env : Env) (t : List AFConnectionData) :
    ∀ (q : List AFConnectionData) (s : AFCNetClientService),
      AddConnections env q { s with tmp_connections_ := t }
        = (AddConnections env q s).map (fun s1 => { s1 with tmp_connections_ := t }) := by
  intro q
  induction q with
  | nil => intro s; simp only [AddConnections, Option.map_some']
  | cons c rest ih =>
    intro s
    simp only [AddConnections, AddConnection_tmp]
    cases AddConnection env s c with
    | none => rfl
    | some s0 => exact ih s0

/-- `ProcessAddConnection` is the promotion loop followed by the clearing of the queue. -/
theorem ProcessAddConnection_eq (env : Env) (s : AFCNetClientService) :
    ProcessAddConnection env s
      = (AddConnections env s.tmp_connections_ s).map
          (fun s1 => { s1 with tmp_connections_ := [] }) := by
  unfold ProcessAddConnection
  cases AddConnections env s.tmp_connections_ s <;> rfl

/-- C3, as the code has it: `StartClient` always returns true and pushes the request on
the pending queue, leaving the active registry as it is.  A request for a target bus
id that already has a pending request or an active entry is dropped at promotion:
`ProcessAddConnection` then gives the same result as if the request had not been
made. -/
theorem StartClient_duplicate_dropped_at_promotion (env : Env) (s : AFCNetClientService)
    (head_len : Nat) (target_bus_id : Int) (endpoint : AFEndpoint)
    (hdup : (∃ c ∈ s.tmp_connections_, c.server_bus_id_ = target_bus_id) ∨
      (find_value s.real_connections_ target_bus_id).isSome = true) :
    (StartClient s head_len target_bus_id endpoint).1 = true ∧
    (StartClient s head_len target_bus_id endpoint).2.real_connections_
      = s.real_connections_ ∧
    (∃ data : AFConnectionData, data.head_len_ = head_len ∧
      data.server_bus_id_ = target_bus_id ∧ data.endpoint_ = endpoint ∧
      (StartClient s head_len target_bus_id endpoint).2.tmp_connections_
        = s.tmp_connections_ ++ [data]) ∧
    ProcessAddConnection env (StartClient s head_len target_bus_id endpoint).2
      = ProcessAddConnection env s := by
  refine ⟨rfl, rfl, ⟨_, rfl, rfl, rfl, rfl⟩, ?_⟩
  rw [ProcessAddConnection_eq, ProcessAddConnection_eq]
  simp only [StartClient, AddConnections_tmp, AddConnections_append]
  cases h : AddConnections env s.tmp_connections_ s with
  | none => rfl
  | some s1 =>
    have hs := AddConnections_found env s.tmp_connections_ s s1 h target_bus_id hdup
    obtain ⟨d, hd⟩ := Option.isSome_iff_exists.mp hs
    have hskip := AddConnection_of_found env s1
      { head_len_ := head_len, server_bus_id_ := target_bus_id, endpoint_ := endpoint,
        net_state_ := ConnectState.DISCONNECT, last_active_time_ := 0,
        net_client_ptr_ := none } d hd
    simp only [hskip, Option.map_some']

/-- The statement of C3 on the scenario: bus id 7 has a pending request, and a second
request for it, even one with a udp endpoint, does not change what promotion gives. -/
theorem StartClient_duplicate_dropped_at_promotion_witness :
    ((∃ c ∈ scenario_requested.tmp_connections_, c.server_bus_id_ = 7) ∨
      (find_value scenario_requested.real_connections_ 7).isSome = true) ∧
    ProcessAddConnection (scenario_env 0)
        (StartClient scenario_requested 4 7 scenario_endpoint_udp).2
      = ProcessAddConnection (scenario_env 0) scenario_requested :=
  ⟨Or.inl (by decide),
   (StartClient_duplicate_dropped_at_promotion (scenario_env 0) scenario_requested 4 7
      scenario_endpoint_udp (Or.inl (by decide))).2.2.2⟩

/-- C3 fails as stated: bus id 7 has a pending request in the first service and an
active entry in the second, and in both a further `StartClient` for bus id 7 makes the
pending queue one request longer. -/
theorem StartClient_duplicate_is_queued :
    (∃ c ∈ scenario_requested.tmp_connections_, c.server_bus_id_ = 7) ∧
    scenario_requested.tmp_connections_.length = 1 ∧
    (StartClient scenario_requested 4 7 scenario_endpoint).2.tmp_connections_.length = 2 ∧
    (find_value scenario_connecting.real_connections_ 7).isSome = true ∧
    scenario_connecting.tmp_connections_ = [] ∧
    (StartClient scenario_connecting 4 7 scenario_endpoint).2.tmp_connections_.length = 1 := by
  decide

/-- The promotion loop on tcp requests: it returns, the keys stay distinct, the active
ids are the former ones and the queued ones, the former entries are untouched, and a
newly active id holds the entry built from the first request queued for it. -/
theorem AddConnections_tcp (env : Env) :
    ∀ (q : List AFConnectionData) (s : AFCNetClientService),
      (∀ c ∈ q, c.endpoint_.proto = proto_type.tcp) →
      (s.real_connections_.map (fun p => p.1)).Nodup →
      ∃ s1, AddConnections env q s = some s1 ∧
        (s1.real_connections_.map (fun p => p.1)).Nodup ∧
        (∀ bus : Int, (find_value s1.real_connections_ bus).isSome = true ↔
          ((find_value s.real_connections_ bus).isSome = true ∨
            ∃ c ∈ q, c.server_bus_id_ = bus)) ∧
        (∀ (bus : Int) (d : AFConnectionData), find_value s.real_connections_ bus = some d →
          find_value s1.real_connections_ bus = some d) ∧
        (∀ (bus : Int) (c : AFConnectionData), find_value s.real_connections_ bus = none →
          first_request q bus = some c →
          ∃ s0, find_value s1.real_connections_ bus = some (promoted_entry env s0 c)) := by
  intro q
  induction q with
  | nil =>
    intro s _ hnd
    refine ⟨s, rfl, hnd, ?_, fun _ _ h => h, ?_⟩
    · intro bus; simp
    · intro bus c _ hfirst
      simp [first_request] at hfirst
  | cons c rest ih =>
    intro s htcp hnd
    have htcp_rest : ∀ c' ∈ rest, c'.endpoint_.proto = proto_type.tcp :=
      fun c' hc' => htcp c' (List.mem_cons_of_mem _ hc')
    cases hf : find_value s.real_connections_ c.server_bus_id_ with
    | some d =>
      obtain ⟨s1, h1, hnd1, hiff, hkeep, hfirst⟩ := ih s htcp_rest hnd
      refine ⟨s1, ?_, hnd1, ?_, hkeep, ?_⟩
      · simp only [AddConnections, AddConnection_of_found env s c d hf, h1]
      · intro bus
        rw [hiff bus]
        constructor
        · rintro (h | ⟨c', hc', e⟩)
          · exact Or.inl h
          · exact Or.inr ⟨c', List.mem_cons_of_mem _ hc', e⟩
        · rintro (h | ⟨c', hc', e⟩)
          · exact Or.inl h
          · rcases List.mem_cons.mp hc' with e' | hrest
            · left
              rw [← e, e', hf]; rfl
            · exact Or.inr ⟨c', hrest, e⟩
      · intro bus c' hnone hfr
        by_cases hb : c.server_bus_id_ = bus
        · rw [hb, hnone] at hf; cases hf
        · simp only [first_request, hb, if_false] at hfr
          exact hfirst bus c' hnone hfr
    | none =>
      have hstep := AddConnection_of_new_tcp env s c hf (htcp c (List.mem_cons_self _ _))
      have hnotmem : c.server_bus_id_ ∉ s.real_connections_.map (fun p => p.1) := by
        intro hm
        have := (find_value_isSome_iff_mem_keys s.real_connections_ c.server_bus_id_).mpr hm
        rw [hf] at this
        cases this
      have hnd0 : ((map_insert s.real_connections_ c.server_bus_id_
          (promoted_entry env s c)).map (fun p => p.1)).Nodup :=
        (map_insert_keys_perm _ _ _ hf).nodup_iff.mpr (List.nodup_cons.mpr ⟨hnotmem, hnd⟩)
      obtain ⟨s1, h1, hnd1, hiff, hkeep, hfirst⟩ := ih
        { s with
          next_net_id := s.next_net_id + 1
          real_connections_ := (map_insert s.real_connections_ c.server_bus_id_
            (promoted_entry env s c)) } htcp_rest hnd0
      simp only [find_value_map_insert _ _ _ _ hf] at hiff hkeep hfirst
      refine ⟨s1, ?_, hnd1, ?_, ?_, ?_⟩
      · simp only [AddConnections, hstep, h1]
      · intro bus
        rw [hiff bus]
        by_cases hb : bus = c.server_bus_id_
        · simp only [hb, if_true, Option.isSome_some, true_or, true_iff]
          exact Or.inr ⟨c, List.mem_cons_self _ _, rfl⟩
        · simp only [hb, if_false]
          constructor
          · rintro (h | ⟨c', hc', e⟩)
            · exact Or.inl h
            · exact Or.inr ⟨c', List.mem_cons_of_mem _ hc', e⟩
          · rintro (h | ⟨c', hc', e⟩)
            · exact Or.inl h
            · rcases List.mem_cons.mp hc' with e' | hrest
              · exact absurd (by rw [← e, e']) hb
              · exact Or.inr ⟨c', hrest, e⟩
      · intro bus d hd
        apply hkeep bus d
        have hb : ¬ bus = c.server_bus_id_ := by
          intro e; rw [e, hf] at hd; cases hd
        simp only [hb, if_false, hd]
      · intro bus c' hnone hfr
        by_cases hb : c.server_bus_id_ = bus
        · simp only [first_request, hb, if_true] at hfr
          refine ⟨s, ?_⟩
          apply hkeep bus
          rw [← Option.some.inj hfr]
          simp only [hb, if_true]
        · have hb2 : ¬ bus = c.server_bus_id_ := fun e => hb e.symm
          simp only [first_request, hb, if_false] at hfr
          apply hfirst bus c' _ hfr
          simp only [hb2, if_false, hnone]

theorem first_request_bus :
    ∀ (q : List AFConnectionData) (bus : Int) (c : AFConnectionData),
      first_request q bus = some c → c.server_bus_id_ = bus := by
  intro q
  induction q with
  | nil => intro bus c h; simp [first_request] at h
  | cons c0 rest ih =>
    intro bus c h
    by_cases hb : c0.server_bus_id_ = bus
    · simp only [first_request, hb, if_true] at h
      rw [← Option.some.inj h]; exact hb
    · simp only [first_request, hb, if_false] at h
      exact ih bus c h

/-- Two requests for one bus id on the service as constructed, then a tick in which
the transport starts. -/
theorem Update_two_requests_started (env : Env) (h1 h2 : Nat) (bus : Int)
    (e1 e2 : AFEndpoint) (he1 : e1.proto = proto_type.tcp) (hok : env.start_ok bus = true) :
    Update env (StartClient (StartClient AFCNetClientService.empty h1 bus e1).2 h2 bus e2).2
      = some { AFCNetClientService.empty with
          next_net_id := 1
          real_connections_ := [(bus,
            { head_len_ := h1, server_bus_id_ := bus, endpoint_ := e1,
              net_state_ := ConnectState.CONNECTING, last_active_time_ := env.now,
              net_client_ptr_ := some
                { id := 0, client_session_ptr_ := none,
                  calls := [NetCall.StartClient h1 bus e1.ip e1.port false,
                    NetCall.Update] } })] } := by
  simp [Update, ProcessAddConnection, AddConnections, AddConnection, StartClient,
    AFCNetClientService.empty, find_value, he1, CreateNet, map_insert, hok,
    ProcessUpdate, ProcessUpdateLoop, ProcessUpdateEntry, NetUpdate, AFINet.Update,
    UpdateNetSession, UpdateNetEvent, UpdateNetMsg, map_modify, AFINet.StartClient]

/-- Two requests for one bus id on the service as constructed, then a tick in which
the transport does not start. -/
theorem Update_two_requests_failed (env : Env) (h1 h2 : Nat) (bus : Int)
    (e1 e2 : AFEndpoint) (he1 : e1.proto = proto_type.tcp) (hok : env.start_ok bus = false) :
    Update env (StartClient (StartClient AFCNetClientService.empty h1 bus e1).2 h2 bus e2).2
      = some { AFCNetClientService.empty with
          next_net_id := 1
          real_connections_ := [(bus,
            { head_len_ := h1, server_bus_id_ := bus, endpoint_ := e1,
              net_state_ := ConnectState.RECONNECT, last_active_time_ := env.now,
              net_client_ptr_ := some
                { id := 0, client_session_ptr_ := none,
                  calls := [NetCall.StartClient h1 bus e1.ip e1.port false] } })] } := by
  simp [Update, ProcessAddConnection, AddConnections, AddConnection, StartClient,
    AFCNetClientService.empty, find_value, he1, CreateNet, map_insert, hok,
    ProcessUpdate, ProcessUpdateLoop, ProcessUpdateEntry, SECOND_MS, AFINet.StartClient]

/-- Promotion of tcp requests: when the queued requests are tcp requests (and the keys
of the registry are distinct, as they are in the registry of a map),
`ProcessAddConnection` returns with an empty queue and a registry that holds exactly
one entry for every requested target bus id; the entries active before are untouched,
and an id that was not active holds the entry built from the first request queued
for it.  In particular, on the service as constructed, two `StartClient` calls for one
bus id, the first with a tcp endpoint, followed by one `Update` give a registry with
exactly one entry, the one of the first request. -/
theorem ProcessAddConnection_one_entry_per_target (env : Env) (s : AFCNetClientService)
    (htcp : ∀ c ∈ s.tmp_connections_, c.endpoint_.proto = proto_type.tcp)
    (hnd : (s.real_connections_.map (fun p => p.1)).Nodup) :
    (∃ s1, ProcessAddConnection env s = some s1 ∧ s1.tmp_connections_ = [] ∧
      (∀ c ∈ s.tmp_connections_,
        (s1.real_connections_.map (fun p => p.1)).count c.server_bus_id_ = 1) ∧
      (∀ (bus : Int) (d : AFConnectionData), find_value s.real_connections_ bus = some d →
        find_value s1.real_connections_ bus = some d) ∧
      (∀ (bus : Int) (c : AFConnectionData), find_value s.real_connections_ bus = none →
        first_request s.tmp_connections_ bus = some c →
        ∃ d, find_value s1.real_connections_ bus = some d ∧ d.head_len_ = c.head_len_ ∧
          d.endpoint_ = c.endpoint_ ∧ d.server_bus_id_ = bus ∧
          d.last_active_time_ = env.now ∧ start_calls d.net_client_ptr_ = 1)) ∧
    (∀ (h1 h2 : Nat) (bus : Int) (e1 e2 : AFEndpoint), e1.proto = proto_type.tcp →
      ∃ s1 d, Update env
          (StartClient (StartClient AFCNetClientService.empty h1 bus e1).2 h2 bus e2).2
          = some s1 ∧
        s1.real_connections_ = [(bus, d)] ∧ d.head_len_ = h1 ∧ d.endpoint_ = e1 ∧
        d.server_bus_id_ = bus) := by
  constructor
  · obtain ⟨s1, h1, hnd1, hiff, hkeep, hfirst⟩ :=
      AddConnections_tcp env s.tmp_connections_ s htcp hnd
    refine ⟨{ s1 with tmp_connections_ := [] }, ?_, rfl, ?_, hkeep, ?_⟩
    · rw [ProcessAddConnection_eq, h1]; rfl
    · intro c hc
      apply List.count_eq_one_of_mem hnd1
      apply (find_value_isSome_iff_mem_keys _ _).mp
      exact (hiff c.server_bus_id_).mpr (Or.inr ⟨c, hc, rfl⟩)
    · intro bus c hnone hfr
      obtain ⟨s0, h0⟩ := hfirst bus c hnone hfr
      refine ⟨_, h0, rfl, rfl, first_request_bus _ bus c hfr, rfl, ?_⟩
      simp [promoted_entry, start_calls]
  · intro h1 h2 bus e1 e2 he1
    cases hok : env.start_ok bus
    · exact ⟨_, _, Update_two_requests_failed env h1 h2 bus e1 e2 he1 hok, rfl, rfl, rfl, rfl⟩
    · exact ⟨_, _, Update_two_requests_started env h1 h2 bus e1 e2 he1 hok, rfl, rfl, rfl, rfl⟩

/-- Promotion on the scenario, with the request for bus id 7 queued twice, the second
time with a udp endpoint: the tick returns, the registry holds one entry for bus id 7,
and it has the tcp endpoint of the first request. -/
theorem ProcessAddConnection_one_entry_per_target_witness :
    (∀ c ∈ (StartClient AFCNetClientService.empty 4 7 scenario_endpoint).2.tmp_connections_,
      c.endpoint_.proto = proto_type.tcp) ∧
    ∃ s1 d, Update (scenario_env 0)
        (StartClient (StartClient AFCNetClientService.empty 4 7 scenario_endpoint).2 5 7
          scenario_endpoint_udp).2 = some s1 ∧
      s1.real_connections_ = [(7, d)] ∧ d.head_len_ = 4 ∧ d.endpoint_ = scenario_endpoint ∧
      d.server_bus_id_ = 7 :=
  ⟨by decide,
   (ProcessAddConnection_one_entry_per_target (scenario_env 0)
      (StartClient AFCNetClientService.empty 4 7 scenario_endpoint).2
      (by decide) (by decide)).2 4 5 7 scenario_endpoint scenario_endpoint_udp rfl⟩

/-- C2, evaluated on the code: with one request queued for bus id 7 whose endpoint is
udp, `CreateNet` gives the null pointer and `ProcessAddConnection` calls `StartClient`
through it: neither it nor the tick returns with a registry that holds an entry for
bus id 7.  With the tcp endpoint the same request gives the one entry. -/
theorem ProcessAddConnection_udp_request_no_entry :
    (StartClient AFCNetClientService.empty 4 7 scenario_endpoint_udp).2.tmp_connections_.map
        (fun c => c.server_bus_id_) = [7] ∧
    ProcessAddConnection (scenario_env 0)
        (StartClient AFCNetClientService.empty 4 7 scenario_endpoint_udp).2 = none ∧
    Update (scenario_env 0)
        (StartClient AFCNetClientService.empty 4 7 scenario_endpoint_udp).2 = none ∧
    (Update (scenario_env 0)
        (StartClient AFCNetClientService.empty 4 7 scenario_endpoint).2).map
        (fun s1 => s1.real_connections_.map (fun p => p.1)) = some [7] := by
  decide

/-! ## The ring -/

theorem ring_has_insert (ring : List AFCMachineNode) (node : AFCMachineNode) (b : Int)
    (i : Nat) :
    ring_has (ring_insert ring node) b i = true ↔
      (ring_has ring b i = true ∨ (b = node.nMachineID ∧ i = node.nVirtualIndex)) := by
  unfold ring_insert
  split
  · rename_i htaken
    constructor
    · exact Or.inl
    · rintro (h | ⟨hb, hi⟩)
      · exact h
      · subst hb; subst hi
        simpa [ring_has, AFCMachineNode.same_key] using htaken
  · simp only [ring_has, List.any_append, List.any_cons, List.any_nil, Bool.or_false,
      Bool.or_eq_true, Bool.and_eq_true, beq_iff_eq]
    constructor
    · rintro (h | ⟨hb, hi⟩)
      · exact Or.inl h
      · exact Or.inr ⟨hb.symm, hi.symm⟩
    · rintro (h | ⟨hb, hi⟩)
      · exact Or.inl h
      · exact Or.inr ⟨hb.symm, hi.symm⟩

theorem ring_has_erase (ring : List AFCMachineNode) (node : AFCMachineNode) (b : Int)
    (i : Nat) :
    ring_has (ring_erase ring node) b i = true ↔
      (ring_has ring b i = true ∧ ¬ (b = node.nMachineID ∧ i = node.nVirtualIndex)) := by
  simp only [ring_has, ring_erase, List.any_eq_true, List.mem_filter,
    AFCMachineNode.same_key, Bool.and_eq_true, beq_iff_eq, Bool.not_eq_true',
    Bool.and_eq_false_imp]
  constructor
  · rintro ⟨x, ⟨hx, hne⟩, hb, hi⟩
    refine ⟨⟨x, hx, hb, hi⟩, ?_⟩
    rintro ⟨hb2, hi2⟩
    have := hne (hb.trans hb2)
    rw [hi.trans hi2] at this
    simp at this
  · rintro ⟨⟨x, hx, hb, hi⟩, hne⟩
    refine ⟨x, ⟨hx, ?_⟩, hb, hi⟩
    intro hb2
    have : ¬ i = node.nVirtualIndex := fun hi2 => hne ⟨hb.symm.trans hb2, hi2⟩
    rw [hi]
    simpa using this

theorem ring_has_insert_all (xInfo : AFConnectionData) (b : Int) (i : Nat) :
    ∀ (l : List Nat) (ring : List AFCMachineNode),
      ring_has (l.foldl (fun r j => ring_insert r (machine_node xInfo j)) ring) b i = true ↔
        (ring_has ring b i = true ∨ (b = xInfo.server_bus_id_ ∧ i ∈ l)) := by
  intro l
  induction l with
  | nil => intro ring; simp
  | cons j rest ih =>
    intro ring
    rw [List.foldl_cons, ih, ring_has_insert]
    simp only [machine_node, List.mem_cons]
    constructor
    · rintro ((h | ⟨hb, hi⟩) | ⟨hb, hi⟩)
      · exact Or.inl h
      · exact Or.inr ⟨hb, Or.inl hi⟩
      · exact Or.inr ⟨hb, Or.inr hi⟩
    · rintro (h | ⟨hb, hi | hi⟩)
      · exact Or.inl (Or.inl h)
      · exact Or.inl (Or.inr ⟨hb, hi⟩)
      · exact Or.inr ⟨hb, hi⟩

theorem ring_has_erase_all (xInfo : AFConnectionData) (b : Int) (i : Nat) :
    ∀ (l : List Nat) (ring : List AFCMachineNode),
      ring_has (l.foldl (fun r j => ring_erase r (machine_node xInfo j)) ring) b i = true ↔
        (ring_has ring b i = true ∧ ¬ (b = xInfo.server_bus_id_ ∧ i ∈ l)) := by
  intro l
  induction l with
  | nil => intro ring; simp
  | cons j rest ih =>
    intro ring
    rw [List.foldl_cons, ih, ring_has_erase]
    simp only [machine_node, List.mem_cons]
    constructor
    · rintro ⟨⟨h, hne⟩, hrest⟩
      refine ⟨h, ?_⟩
      rintro ⟨hb, hi | hi⟩
      · exact hne ⟨hb, hi⟩
      · exact hrest ⟨hb, hi⟩
    · rintro ⟨h, hne⟩
      exact ⟨⟨h, fun hx => hne ⟨hx.1, Or.inl hx.2⟩⟩, fun hx => hne ⟨hx.1, Or.inr hx.2⟩⟩

/-- The virtual nodes `AddServerWeightData` puts on the ring for an entry: the replicas
below the default weight of the entry's bus id. -/
theorem ring_has_AddServerWeightData (ring : List AFCMachineNode) (xInfo : AFConnectionData)
    (b : Int) (i : Nat) :
    ring_has (AddServerWeightData ring xInfo) b i = true ↔
      (ring_has ring b i = true ∨
        (b = xInfo.server_bus_id_ ∧ i < EConstDefine_DefaultWeight)) := by
  unfold AddServerWeightData
  rw [ring_has_insert_all, List.mem_range]

/-- The virtual nodes `RemoveServerWeightData` takes off the ring for an entry: the
same replicas. -/
theorem ring_has_RemoveServerWeightData (ring : List AFCMachineNode)
    (xInfo : AFConnectionData) (b : Int) (i : Nat) :
    ring_has (RemoveServerWeightData ring xInfo) b i = true ↔
      (ring_has ring b i = true ∧
        ¬ (b = xInfo.server_bus_id_ ∧ i < EConstDefine_DefaultWeight)) := by
  unfold RemoveServerWeightData
  rw [ring_has_erase_all, List.mem_range]

/-! ## Ring and registry stay consistent -/

theorem ring_consistent_modify (real : List (Int × AFConnectionData))
    (ring : List AFCMachineNode) (key : Int) (f : AFConnectionData → AFConnectionData)
    (h : ring_consistent real ring)
    (hf : ∀ d, find_value real key = some d →
      (f d).server_bus_id_ = d.server_bus_id_ ∧
      ((f d).net_state_ = ConnectState.CONNECTED ↔ d.net_state_ = ConnectState.CONNECTED)) :
    ring_consistent (map_modify real key f) ring := by
  obtain ⟨hbus, hring⟩ := h
  constructor
  · intro k d hd
    rw [find_value_map_modify] at hd
    by_cases hk : k = key
    · subst hk
      simp only [if_true] at hd
      cases hf0 : find_value real k with
      | none => rw [hf0] at hd; cases hd
      | some d0 =>
        rw [hf0] at hd
        rw [← Option.some.inj hd, (hf d0 hf0).1]
        exact hbus k d0 hf0
    · simp only [hk, if_false] at hd
      exact hbus k d hd
  · intro b i
    rw [hring b i, find_value_map_modify]
    by_cases hk : b = key
    · subst hk
      simp only [if_true]
      constructor
      · rintro ⟨hi, d0, hd0, hst⟩
        exact ⟨hi, f d0, by rw [hd0]; rfl, (hf d0 hd0).2.mpr hst⟩
      · rintro ⟨hi, d, hd, hst⟩
        cases hf0 : find_value real b with
        | none => rw [hf0] at hd; cases hd
        | some d0 =>
          rw [hf0] at hd
          refine ⟨hi, d0, rfl, (hf d0 hf0).2.mp ?_⟩
          rw [Option.some.inj hd]; exact hst
    · simp only [hk, if_false]

theorem ring_consistent_connect (real : List (Int × AFConnectionData))
    (ring : List AFCMachineNode) (key : Int) (d0 : AFConnectionData)
    (h : ring_consistent real ring) (hfind : find_value real key = some d0) :
    ring_consistent
      (map_modify real key (fun d => { d with net_state_ := ConnectState.CONNECTED }))
      (AddServerWeightData ring d0) := by
  obtain ⟨hbus, hring⟩ := h
  have hkey : d0.server_bus_id_ = key := hbus key d0 hfind
  constructor
  · intro k d hd
    rw [find_value_map_modify] at hd
    by_cases hk : k = key
    · subst hk
      simp only [if_true, hfind, Option.map_some'] at hd
      rw [← Option.some.inj hd]
      exact hkey
    · simp only [hk, if_false] at hd
      exact hbus k d hd
  · intro b i
    rw [ring_has_AddServerWeightData, hring b i, find_value_map_modify, hkey]
    by_cases hk : b = key
    · subst hk
      simp only [if_true, hfind, Option.map_some', true_and]
      constructor
      · rintro (⟨hi, _⟩ | hi)
        · exact ⟨hi, _, rfl, rfl⟩
        · exact ⟨hi, _, rfl, rfl⟩
      · rintro ⟨hi, _⟩
        exact Or.inr hi
    · simp only [hk, if_false, false_and, or_false]

theorem ring_consistent_disconnect (real : List (Int × AFConnectionData))
    (ring : List AFCMachineNode) (key : Int) (d0 : AFConnectionData) (now : Int)
    (h : ring_consistent real ring) (hfind : find_value real key = some d0) :
    ring_consistent
      (map_modify real key (fun d => { d with net_state_ := ConnectState.DISCONNECT,
                                              last_active_time_ := now }))
      (RemoveServerWeightData ring d0) := by
  obtain ⟨hbus, hring⟩ := h
  have hkey : d0.server_bus_id_ = key := hbus key d0 hfind
  constructor
  · intro k d hd
    rw [find_value_map_modify] at hd
    by_cases hk : k = key
    · subst hk
      simp only [if_true, hfind, Option.map_some'] at hd
      rw [← Option.some.inj hd]
      exact hkey
    · simp only [hk, if_false] at hd
      exact hbus k d hd
  · intro b i
    rw [ring_has_RemoveServerWeightData, hring b i, find_value_map_modify, hkey]
    by_cases hk : b = key
    · subst hk
      simp only [if_true, hfind, Option.map_some', true_and]
      constructor
      · rintro ⟨⟨hi, _⟩, hne⟩
        exact absurd hi hne
      · rintro ⟨_, d, hd, hst⟩
        rw [← Option.some.inj hd] at hst
        cases hst
    · simp only [hk, if_false, false_and, not_false_eq_true, and_true]

theorem ring_consistent_insert (real : List (Int × AFConnectionData))
    (ring : List AFCMachineNode) (key : Int) (d0 : AFConnectionData)
    (h : ring_consistent real ring) (hnone : find_value real key = none)
    (hkey : d0.server_bus_id_ = key) (hstate : d0.net_state_ ≠ ConnectState.CONNECTED) :
    ring_consistent (map_insert real key d0) ring := by
  obtain ⟨hbus, hring⟩ := h
  constructor
  · intro k d hd
    rw [find_value_map_insert _ _ _ _ hnone] at hd
    by_cases hk : k = key
    · subst hk
      simp only [if_true] at hd
      rw [← Option.some.inj hd]
      exact hkey
    · simp only [hk, if_false] at hd
      exact hbus k d hd
  · intro b i
    rw [hring b i, find_value_map_insert _ _ _ _ hnone]
    by_cases hk : b = key
    · subst hk
      simp only [if_true, hnone]
      constructor
      · rintro ⟨_, d, hd, _⟩
        cases hd
      · rintro ⟨_, d, hd, hst⟩
        rw [← Option.some.inj hd] at hst
        exact absurd hst hstate
    · simp only [hk, if_false]

theorem OnConnect_of_none (s : AFCNetClientService) (event : AFNetEvent)
    (h : find_value s.real_connections_ event.bus_id_ = none) :
    OnConnect s event = s := by
  simp only [OnConnect, GetConnectionInfo, h]

theorem OnConnect_of_some (s : AFCNetClientService) (event : AFNetEvent)
    (d : AFConnectionData) (h : find_value s.real_connections_ event.bus_id_ = some d) :
    OnConnect s event = { s with
      consistent_hashmap_ := AddServerWeightData s.consistent_hashmap_ d
      real_connections_ := (map_modify s.real_connections_ event.bus_id_
        (fun d => { d with net_state_ := ConnectState.CONNECTED }))
      bus_index := (AddNetConnectionBus s.bus_index event.bus_id_
        (d.net_client_ptr_.map (fun n => n.id))) } := by
  simp only [OnConnect, GetConnectionInfo, h]

theorem OnDisconnect_of_none (now : Int) (s : AFCNetClientService) (event : AFNetEvent)
    (h : find_value s.real_connections_ event.bus_id_ = none) :
    OnDisconnect now s event = s := by
  simp only [OnDisconnect, GetConnectionInfo, h]

theorem OnDisconnect_of_some (now : Int) (s : AFCNetClientService) (event : AFNetEvent)
    (d : AFConnectionData) (h : find_value s.real_connections_ event.bus_id_ = some d) :
    OnDisconnect now s event = { s with
      consistent_hashmap_ := RemoveServerWeightData s.consistent_hashmap_ d
      real_connections_ := (map_modify s.real_connections_ event.bus_id_
        (fun d => { d with net_state_ := ConnectState.DISCONNECT, last_active_time_ := now }))
      bus_index := RemoveNetConnectionBus s.bus_index event.bus_id_ } := by
  simp only [OnDisconnect, GetConnectionInfo, h]

theorem OnConnect_consistent (s : AFCNetClientService) (event : AFNetEvent)
    (h : ring_consistent s.real_connections_ s.consistent_hashmap_) :
    ring_consistent (OnConnect s event).real_connections_
      (OnConnect s event).consistent_hashmap_ := by
  cases hf : find_value s.real_connections_ event.bus_id_ with
  | none => rw [OnConnect_of_none s event hf]; exact h
  | some d =>
    rw [OnConnect_of_some s event d hf]
    dsimp only
    exact ring_consistent_connect s.real_connections_ s.consistent_hashmap_ event.bus_id_ d h hf

theorem OnDisconnect_consistent (now : Int) (s : AFCNetClientService) (event : AFNetEvent)
    (h : ring_consistent s.real_connections_ s.consistent_hashmap_) :
    ring_consistent (OnDisconnect now s event).real_connections_
      (OnDisconnect now s event).consistent_hashmap_ := by
  cases hf : find_value s.real_connections_ event.bus_id_ with
  | none => rw [OnDisconnect_of_none now s event hf]; exact h
  | some d =>
    rw [OnDisconnect_of_some now s event d hf]
    dsimp only
    exact ring_consistent_disconnect s.real_connections_ s.consistent_hashmap_
      event.bus_id_ d now h hf

theorem OnNetEvent_consistent (now : Int) (s : AFCNetClientService) (event : AFNetEvent)
    (h : ring_consistent s.real_connections_ s.consistent_hashmap_) :
    ring_consistent (OnNetEvent now s event).real_connections_
      (OnNetEvent now s event).consistent_hashmap_ := by
  unfold OnNetEvent fire_event_callbacks
  cases event.type_ with
  | NONE => exact h
  | CONNECTED => exact OnConnect_consistent s event h
  | DISCONNECTED => exact OnDisconnect_consistent now s event h

theorem OnNetMsg_consistent (s : AFCNetClientService) (msg : AFNetMsg) (session_id : Int)
    (h : ring_consistent s.real_connections_ s.consistent_hashmap_) :
    ring_consistent (OnNetMsg s msg session_id).real_connections_
      (OnNetMsg s msg session_id).consistent_hashmap_ := by
  rw [OnNetMsg_eq]; exact h

theorem events_consistent (now : Int) :
    ∀ (events : List AFNetEvent) (s : AFCNetClientService),
      ring_consistent s.real_connections_ s.consistent_hashmap_ →
      ring_consistent (events.foldl (OnNetEvent now) s).real_connections_
        (events.foldl (OnNetEvent now) s).consistent_hashmap_ := by
  intro events
  induction events with
  | nil => intro s h; exact h
  | cons e rest ih =>
    intro s h
    exact ih _ (OnNetEvent_consistent now s e h)

theorem msgs_consistent :
    ∀ (msgs : List (AFNetMsg × Int)) (s : AFCNetClientService),
      ring_consistent s.real_connections_ s.consistent_hashmap_ →
      ring_consistent
        (msgs.foldl (fun st m => OnNetMsg st m.1 m.2) s).real_connections_
        (msgs.foldl (fun st m => OnNetMsg st m.1 m.2) s).consistent_hashmap_ := by
  intro msgs
  induction msgs with
  | nil => intro s h; exact h
  | cons m rest ih =>
    intro s h
    exact ih _ (OnNetMsg_consistent s m.1 m.2 h)

theorem KeepAlive_consistent (now : Int) (s : AFCNetClientService) (key : Int)
    (h : ring_consistent s.real_connections_ s.consistent_hashmap_) :
    ring_consistent (KeepAlive now s key).real_connections_
      (KeepAlive now s key).consistent_hashmap_ := by
  unfold KeepAlive
  cases hf : find_value s.real_connections_ key with
  | none => exact h
  | some d =>
    simp only
    split
    · exact h
    · exact ring_consistent_modify _ _ _ _ h (fun _ _ => ⟨rfl, Iff.rfl⟩)

theorem NetUpdate_consistent (env : Env) (s : AFCNetClientService) (key : Int)
    (h : ring_consistent s.real_connections_ s.consistent_hashmap_) :
    ring_consistent (NetUpdate env s key).real_connections_
      (NetUpdate env s key).consistent_hashmap_ := by
  unfold NetUpdate
  cases hf : find_value s.real_connections_ key with
  | none => exact h
  | some d =>
    cases hn : d.net_client_ptr_ with
    | none => simp only [hn]; exact h
    | some net =>
      simp only [hn]
      apply msgs_consistent
      apply events_consistent
      exact ring_consistent_modify _ _ _ _ h (fun _ _ => ⟨rfl, Iff.rfl⟩)

theorem ProcessUpdateEntry_consistent (env : Env) (s s1 : AFCNetClientService) (key : Int)
    (h : ring_consistent s.real_connections_ s.consistent_hashmap_)
    (hstep : ProcessUpdateEntry env s key = some s1) :
    ring_consistent s1.real_connections_ s1.consistent_hashmap_ := by
  unfold ProcessUpdateEntry at hstep
  cases hf : find_value s.real_connections_ key with
  | none =>
    simp only [hf] at hstep
    rw [← Option.some.inj hstep]; exact h
  | some d =>
    simp only [hf] at hstep
    cases hst : d.net_state_ with
    | DISCONNECT =>
      simp only [hst] at hstep
      rw [← Option.some.inj hstep]
      apply ring_consistent_modify _ _ _ _ h
      intro d0 hd0
      have hd : d0 = d := Option.some.inj (hd0.symm.trans hf)
      refine ⟨rfl, ?_⟩
      simp [hd, hst]
    | CONNECTING =>
      simp only [hst] at hstep
      rw [← Option.some.inj hstep]
      exact NetUpdate_consistent env s key h
    | CONNECTED =>
      simp only [hst] at hstep
      cases hn : d.net_client_ptr_ with
      | none =>
        simp only [hn] at hstep
        rw [← Option.some.inj hstep]; exact h
      | some net =>
        simp only [hn] at hstep
        rw [← Option.some.inj hstep]
        exact KeepAlive_consistent env.now _ key (NetUpdate_consistent env s key h)
    | RECONNECT =>
      simp only [hst] at hstep
      split at hstep
      · rw [← Option.some.inj hstep]; exact h
      · cases hn : d.net_client_ptr_ with
        | none => simp only [hn] at hstep; cases hstep
        | some net =>
          simp only [hn] at hstep
          rw [← Option.some.inj hstep]
          apply ring_consistent_modify _ _ _ _ h
          intro d0 hd0
          have hd : d0 = d := Option.some.inj (hd0.symm.trans hf)
          refine ⟨rfl, ?_⟩
          cases env.start_ok d.server_bus_id_ <;> simp [hd, hst]

theorem ProcessUpdateLoop_consistent (env : Env) :
    ∀ (keys : List Int) (s s1 : AFCNetClientService),
      ring_consistent s.real_connections_ s.consistent_hashmap_ →
      ProcessUpdateLoop env keys s = some s1 →
      ring_consistent s1.real_connections_ s1.consistent_hashmap_ := by
  intro keys
  induction keys with
  | nil =>
    intro s s1 h hstep
    simp only [ProcessUpdateLoop] at hstep
    rw [← Option.some.inj hstep]; exact h
  | cons key rest ih =>
    intro s s1 h hstep
    simp only [ProcessUpdateLoop] at hstep
    cases h0 : ProcessUpdateEntry env s key with
    | none => rw [h0] at hstep; cases hstep
    | some s0 =>
      rw [h0] at hstep
      exact ih s0 s1 (ProcessUpdateEntry_consistent env s s0 key h h0) hstep

theorem AddConnection_consistent (env : Env) (s s1 : AFCNetClientService)
    (c : AFConnectionData)
    (h : ring_consistent s.real_connections_ s.consistent_hashmap_)
    (hstep : AddConnection env s c = some s1) :
    ring_consistent s1.real_connections_ s1.consistent_hashmap_ := by
  rcases AddConnection_cases env s s1 c hstep with ⟨_, e⟩ | ⟨hn, _, e⟩
  · rw [e]; exact h
  · rw [e]
    refine ring_consistent_insert s.real_connections_ s.consistent_hashmap_
      c.server_bus_id_ (promoted_entry env s c) h hn rfl ?_
    simp only [promoted_entry]
    cases env.start_ok c.server_bus_id_ <;> simp

theorem AddConnections_consistent (env : Env) :
    ∀ (q : List AFConnectionData) (s s1 : AFCNetClientService),
      ring_consistent s.real_connections_ s.consistent_hashmap_ →
      AddConnections env q s = some s1 →
      ring_consistent s1.real_connections_ s1.consistent_hashmap_ := by
  intro q
  induction q with
  | nil =>
    intro s s1 h hstep
    simp only [AddConnections] at hstep
    rw [← Option.some.inj hstep]; exact h
  | cons c rest ih =>
    intro s s1 h hstep
    simp only [AddConnections] at hstep
    cases h0 : AddConnection env s c with
    | none => rw [h0] at hstep; cases hstep
    | some s0 =>
      rw [h0] at hstep
      exact ih s0 s1 (AddConnection_consistent env s s0 c h h0) hstep

theorem Update_consistent (env : Env) (s s1 : AFCNetClientService)
    (h : ring_consistent s.real_connections_ s.consistent_hashmap_)
    (hstep : Update env s = some s1) :
    ring_consistent s1.real_connections_ s1.consistent_hashmap_ := by
  unfold Update at hstep
  rw [ProcessAddConnection_eq] at hstep
  cases h0 : AddConnections env s.tmp_connections_ s with
  | none => rw [h0] at hstep; cases hstep
  | some s0 =>
    rw [h0] at hstep
    simp only [Option.map_some', ProcessUpdate] at hstep
    exact ProcessUpdateLoop_consistent env _ { s0 with tmp_connections_ := [] } s1
      (AddConnections_consistent env _ s s0 h h0) hstep

theorem Reachable_consistent (s : AFCNetClientService) (h : Reachable s) :
    ring_consistent s.real_connections_ s.consistent_hashmap_ := by
  induction h with
  | init =>
    constructor
    · intro k d hd; cases hd
    · intro b i
      simp [AFCNetClientService.empty, ring_has, find_value]
  | start_client s head_len bus endpoint _ ih => exact ih
  | reg_msg s msg_id cb _ ih =>
    unfold RegMsgCallback
    cases find_value s.net_msg_callbacks_ msg_id <;> exact ih
  | reg_forward s cb _ ih => exact ih
  | reg_event s cb _ ih => exact ih
  | update s s1 env _ hstep ih => exact Update_consistent env s s1 ih hstep
  | net_event s now event _ ih => exact OnNetEvent_consistent now s event ih
  | net_msg s msg session_id _ ih => exact OnNetMsg_consistent s msg session_id ih
  | io s key session _ ih =>
    exact ring_consistent_modify _ _ _ _ ih (fun _ _ => ⟨rfl, Iff.rfl⟩)

/-- C7: in every state reachable from the service as constructed (through
`StartClient`, registrations, ticks, events, messages and the work of the I/O
workers), the ring contains the virtual nodes of a bus id, replica indices
0 .. `EConstDefine_DefaultWeight - 1`, if and only if the active entry of that bus id
is `CONNECTED`; the ring holds no other node, and every entry is stored under its own
bus id.  `AddServerWeightData` (in `OnConnect`) inserts, and `RemoveServerWeightData`
(in `OnDisconnect`) erases, exactly the replicas below the default weight of the
entry's bus id: the same set. -/
theorem ring_membership_iff_connected (s : AFCNetClientService) (h : Reachable s) :
    (∀ b : Int,
      (∀ i, i < EConstDefine_DefaultWeight → ring_has s.consistent_hashmap_ b i = true) ↔
        ∃ d, find_value s.real_connections_ b = some d ∧
          d.net_state_ = ConnectState.CONNECTED) ∧
    (∀ (b : Int) (i : Nat), ring_has s.consistent_hashmap_ b i = true →
      i < EConstDefine_DefaultWeight) ∧
    (∀ (k : Int) (d : AFConnectionData), find_value s.real_connections_ k = some d →
      d.server_bus_id_ = k) ∧
    (∀ (ring : List AFCMachineNode) (xInfo : AFConnectionData) (b : Int) (i : Nat),
      (ring_has (AddServerWeightData ring xInfo) b i = true ↔
        (ring_has ring b i = true ∨
          (b = xInfo.server_bus_id_ ∧ i < EConstDefine_DefaultWeight))) ∧
      (ring_has (RemoveServerWeightData ring xInfo) b i = true ↔
        (ring_has ring b i = true ∧
          ¬ (b = xInfo.server_bus_id_ ∧ i < EConstDefine_DefaultWeight)))) := by
  obtain ⟨hbus, hring⟩ := Reachable_consistent s h
  refine ⟨?_, ?_, hbus, ?_⟩
  · intro b
    constructor
    · intro hall
      exact ((hring b 0).mp (hall 0 (by decide))).2
    · intro hd i hi
      exact (hring b i).mpr ⟨hi, hd⟩
  · intro b i hhas
    exact ((hring b i).mp hhas).1
  · intro ring xInfo b i
    exact ⟨ring_has_AddServerWeightData ring xInfo b i,
      ring_has_RemoveServerWeightData ring xInfo b i⟩

theorem scenario_connected_reachable : Reachable scenario_connected :=
  Reachable.net_event scenario_connecting 0
    { id_ := 1, type_ := AFNetEventType.CONNECTED, bus_id_ := 7, ip_ := "1.2.3.4" }
    (Reachable.update scenario_requested scenario_connecting (scenario_env 0)
      (Reachable.start_client _ 4 7 scenario_endpoint
        (Reachable.reg_event _ 1 Reachable.init))
      (by decide))

/-- The statement of C7 on the scenario: after `StartClient`, a tick and the
`Connected` event the entry of bus id 7 is `CONNECTED`, so the ring holds all its
virtual nodes. -/
theorem ring_membership_iff_connected_witness :
    Reachable scenario_connected ∧
    (∃ d, find_value scenario_connected.real_connections_ 7 = some d ∧
      d.net_state_ = ConnectState.CONNECTED) ∧
    (∀ i, i < EConstDefine_DefaultWeight →
      ring_has scenario_connected.consistent_hashmap_ 7 i = true) :=
  ⟨scenario_connected_reachable, by decide,
   ((ring_membership_iff_connected scenario_connected scenario_connected_reachable).1 7).mpr
      (by decide)⟩

/-! ## A disconnect surfaced by the pump -/

theorem msgs_fold_eq :
    ∀ (msgs : List (AFNetMsg × Int)) (s : AFCNetClientService),
      msgs.foldl (fun st m => OnNetMsg st m.1 m.2) s
        = { s with trace := s.trace ++ msgs.map (msg_action s.net_msg_callbacks_) } := by
  intro msgs
  induction msgs with
  | nil => intro s; simp
  | cons m rest ih =>
    intro s
    rw [List.foldl_cons, ih, OnNetMsg_eq]
    simp [msg_action]

theorem AFINet_Update_of_session (count_once : Nat) (net : AFINet) (ss : AFHttpSession)
    (h : net.client_session_ptr_ = some ss) :
    (net.Update count_once).1 = ss.events_ ∧
    (net.Update count_once).2.1 = (UpdateNetMsg count_once (some ss)).1 ∧
    (net.Update count_once).2.2.calls = net.calls ++ [NetCall.Update] ∧
    (net.Update count_once).2.2.id = net.id := by
  simp [AFINet.Update, UpdateNetSession, UpdateNetEvent, UpdateNetMsg, h]

theorem map_modify_map_modify {α : Type} (m : List (Int × α)) (key : Int) (f g : α → α) :
    map_modify (map_modify m key f) key g = map_modify m key (fun v => g (f v)) := by
  induction m with
  | nil => simp [map_modify]
  | cons p rest ih =>
    obtain ⟨k0, w⟩ := p
    by_cases h0 : k0 = key
    · simp [map_modify, h0]
    · simp [map_modify, h0, ih]

theorem RemoveServerWeightData_congr (ring : List AFCMachineNode) (d d1 : AFConnectionData)
    (h : ∀ i, machine_node d1 i = machine_node d i) :
    RemoveServerWeightData ring d1 = RemoveServerWeightData ring d := by
  unfold RemoveServerWeightData
  simp only [h]

/-- The tick body on a `CONNECTED` entry whose transport surfaces one event, a
`Disconnected` event of the entry's bus id. -/
theorem ProcessUpdateEntry_disconnected_event (env : Env) (s : AFCNetClientService)
    (key : Int) (d : AFConnectionData) (net : AFINet) (ss : AFHttpSession) (e : AFNetEvent)
    (hfind : find_value s.real_connections_ key = some d)
    (hstate : d.net_state_ = ConnectState.CONNECTED)
    (hnet : d.net_client_ptr_ = some net)
    (hsession : net.client_session_ptr_ = some ss)
    (hevents : ss.events_ = [e])
    (htype : e.type_ = AFNetEventType.DISCONNECTED)
    (hebus : e.bus_id_ = key) :
    ProcessUpdateEntry env s key
      = some (after_disconnect env s key d net e (UpdateNetMsg env.count_once (some ss)).1) := by
  obtain ⟨hev, hmsg, _, _⟩ := AFINet_Update_of_session env.count_once net ss hsession
  have hNU : NetUpdate env s key
      = after_disconnect env s key d net e (UpdateNetMsg env.count_once (some ss)).1 := by
    simp only [NetUpdate, hfind, hnet, hev, hevents, hmsg, msgs_fold_eq, List.foldl_cons,
      List.foldl_nil, OnNetEvent, htype]
    rw [OnDisconnect_of_some env.now _ e
      { d with net_client_ptr_ := some (net.Update env.count_once).2.2 }
      (by simp only [hebus, find_value_map_modify, if_true, hfind, Option.map_some'])]
    simp only [fire_event_callbacks, GetConnectionInfo, hebus, find_value_map_modify, if_true,
      hfind, Option.map_some', map_modify_map_modify, after_disconnect]
    rw [RemoveServerWeightData_congr s.consistent_hashmap_ d
      { d with net_client_ptr_ := some (net.Update env.count_once).2.2 } (fun _ => rfl)]
  have hfind1 : find_value
      (after_disconnect env s key d net e
        (UpdateNetMsg env.count_once (some ss)).1).real_connections_ key
      = some { d with net_state_ := ConnectState.DISCONNECT, last_active_time_ := env.now,
                      net_client_ptr_ := some (net.Update env.count_once).2.2 } := by
    simp only [after_disconnect, find_value_map_modify, if_true, hfind, Option.map_some']
  simp only [ProcessUpdateEntry, hfind, hstate, hnet, hNU]
  rw [KeepAlive_eq env.now _ key _ hfind1]
  simp

/-- A tick on a service without pending requests whose registry holds one entry is the
tick body on that entry. -/
theorem Update_single_entry (env : Env) (s : AFCNetClientService) (key : Int)
    (htmp : s.tmp_connections_ = [])
    (hkeys : s.real_connections_.map (fun p => p.1) = [key]) :
    Update env s = ProcessUpdateEntry env s key := by
  have hs : { s with tmp_connections_ := [] } = s := by
    cases s; simp only at htmp; subst htmp; rfl
  simp only [Update, ProcessAddConnection, htmp, AddConnections, hs, ProcessUpdate, hkeys,
    ProcessUpdateLoop]
  cases ProcessUpdateEntry env s key <;> rfl

/-- C6, as the code has it: when the transport of a `CONNECTED` entry surfaces a
`Disconnected` event of the entry's bus id during a tick, the tick body returns with
the entry in state `DISCONNECT`, its last-activity timestamp set to the current time
and its transport pumped but not shut down.  The virtual nodes of the bus id are off
the ring when the first registered event callback is invoked: each callback sees that
ring and the state `DISCONNECT`, and after the callbacks only the handlers of the
pumped messages run.  The tick body of the next tick moves the entry to `RECONNECT`
and shuts its transport down.  For a registry with this one entry and no pending
request the tick body is the whole tick. -/
theorem Disconnected_event_reaches_RECONNECT_in_next_tick (env env2 : Env)
    (s : AFCNetClientService) (key : Int) (d : AFConnectionData) (net : AFINet)
    (ss : AFHttpSession) (e : AFNetEvent)
    (hfind : find_value s.real_connections_ key = some d)
    (hbus : d.server_bus_id_ = key)
    (hstate : d.net_state_ = ConnectState.CONNECTED)
    (hnet : d.net_client_ptr_ = some net)
    (hsession : net.client_session_ptr_ = some ss)
    (hevents : ss.events_ = [e])
    (htype : e.type_ = AFNetEventType.DISCONNECTED)
    (hebus : e.bus_id_ = key) :
    ∃ s1 d1, ProcessUpdateEntry env s key = some s1 ∧
      find_value s1.real_connections_ key = some d1 ∧
      d1.net_state_ = ConnectState.DISCONNECT ∧ d1.last_active_time_ = env.now ∧
      d1.net_client_ptr_.map (fun n => n.calls) = some (net.calls ++ [NetCall.Update]) ∧
      (∀ i, i < EConstDefine_DefaultWeight → ring_has s1.consistent_hashmap_ key i = false) ∧
      s1.trace = s.trace ++
        s.net_event_callbacks_.map (fun cb =>
          Action.event_cb cb e s1.consistent_hashmap_ (some ConnectState.DISCONNECT)) ++
        (UpdateNetMsg env.count_once (some ss)).1.map (msg_action s.net_msg_callbacks_) ∧
      (∃ s2 d2, ProcessUpdateEntry env2 s1 key = some s2 ∧
        find_value s2.real_connections_ key = some d2 ∧
        d2.net_state_ = ConnectState.RECONNECT ∧
        d2.net_client_ptr_.map (fun n => n.calls)
          = some (net.calls ++ [NetCall.Update, NetCall.Shutdown])) ∧
      (s.tmp_connections_ = [] → s.real_connections_.map (fun p => p.1) = [key] →
        Update env s = some s1) := by
  have hstep := ProcessUpdateEntry_disconnected_event env s key d net ss e hfind hstate hnet
    hsession hevents htype hebus
  obtain ⟨_, _, hcalls, _⟩ := AFINet_Update_of_session env.count_once net ss hsession
  have hfind1 : find_value
      (after_disconnect env s key d net e
        (UpdateNetMsg env.count_once (some ss)).1).real_connections_ key
      = some { d with net_state_ := ConnectState.DISCONNECT, last_active_time_ := env.now,
                      net_client_ptr_ := some (net.Update env.count_once).2.2 } := by
    simp only [after_disconnect, find_value_map_modify, if_true, hfind, Option.map_some']
  refine ⟨_, _, hstep, hfind1, rfl, rfl, ?_, ?_, ?_, ?_, ?_⟩
  · simp only [Option.map_some', hcalls]
  · intro i hi
    apply Bool.eq_false_iff.mpr
    intro hhas
    simp only [after_disconnect] at hhas
    have hx := (ring_has_RemoveServerWeightData s.consistent_hashmap_ d key i).mp hhas
    exact hx.2 ⟨hbus.symm, hi⟩
  · simp only [after_disconnect]
  · have hstep2 : ProcessUpdateEntry env2
        (after_disconnect env s key d net e (UpdateNetMsg env.count_once (some ss)).1) key
        = some { after_disconnect env s key d net e (UpdateNetMsg env.count_once (some ss)).1
            with real_connections_ := (map_modify
              (after_disconnect env s key d net e
                (UpdateNetMsg env.count_once (some ss)).1).real_connections_ key
              (fun d0 => { d0 with net_state_ := ConnectState.RECONNECT,
                                   net_client_ptr_ := d0.net_client_ptr_.map AFINet.Shutdown })) } := by
      simp only [ProcessUpdateEntry, hfind1]
    refine ⟨_, { d with net_state_ := ConnectState.RECONNECT, last_active_time_ := env.now,
                        net_client_ptr_ := some (net.Update env.count_once).2.2.Shutdown },
      hstep2, ?_, rfl, ?_⟩
    · simp only [find_value_map_modify, if_true, hfind1, Option.map_some']
    · simp only [Option.map_some', AFINet.Shutdown, hcalls, List.append_assoc,
        List.singleton_append]
  · intro htmp hkeys
    rw [Update_single_entry env s key htmp hkeys, hstep]

/-- The statement of C6 on the scenario: the tick at time 5 on the connected entry of
bus id 7 whose transport holds the `Disconnected` event leaves the entry `DISCONNECT`,
and the tick body of the tick at time 6 leaves it `RECONNECT`. -/
theorem Disconnected_event_reaches_RECONNECT_in_next_tick_witness :
    find_value scenario_closing.real_connections_ 7 = some scenario_entry_closing ∧
    ∃ s1 d1, Update (scenario_env 5) scenario_closing = some s1 ∧
      find_value s1.real_connections_ 7 = some d1 ∧
      d1.net_state_ = ConnectState.DISCONNECT ∧
      (∃ s2 d2, ProcessUpdateEntry (scenario_env 6) s1 7 = some s2 ∧
        find_value s2.real_connections_ 7 = some d2 ∧
        d2.net_state_ = ConnectState.RECONNECT) := by
  refine ⟨by decide, ?_⟩
  obtain ⟨s1, d1, _, h2, h3, _, _, _, _, ⟨s2, d2, h8, h9, h10, _⟩, h11⟩ :=
    Disconnected_event_reaches_RECONNECT_in_next_tick (scenario_env 5) (scenario_env 6)
      scenario_closing 7 scenario_entry_closing scenario_net_closing scenario_closed_session
      scenario_disconnected_event (by decide) rfl rfl rfl rfl rfl rfl rfl
  exact ⟨s1, d1, h11 (by decide) (by decide), h2, h3, s2, d2, h8, h9, h10⟩

/-- C6 fails as stated: the entry of bus id 7 is `CONNECTED` and its transport holds the
`Disconnected` event.  At the end of the tick that surfaces the event the entry is
`DISCONNECT`, not `RECONNECT`, and its transport has received no `Shutdown` call; both
come with the following tick. -/
theorem Disconnected_event_not_RECONNECT_in_same_tick :
    (find_value scenario_closing.real_connections_ 7).map (fun d => d.net_state_)
      = some ConnectState.CONNECTED ∧
    (Update (scenario_env 5) scenario_closing).bind (fun s1 =>
        (find_value s1.real_connections_ 7).map (fun d =>
          (d.net_state_, d.net_client_ptr_.map (fun n => n.calls))))
      = some (ConnectState.DISCONNECT,
          some [NetCall.StartClient 4 7 "1.2.3.4" 9001 false, NetCall.Update,
            NetCall.Update]) ∧
    ((Update (scenario_env 5) scenario_closing).bind (fun s1 =>
        Update (scenario_env 6) s1)).bind (fun s2 =>
        (find_value s2.real_connections_ 7).map (fun d =>
          (d.net_state_, d.net_client_ptr_.map (fun n => n.calls))))
      = some (ConnectState.RECONNECT,
          some [NetCall.StartClient 4 7 "1.2.3.4" 9001 false, NetCall.Update,
            NetCall.Update, NetCall.Shutdown]) := by
  decide

/-! ## Bus ids with another number of tokens -/

/-- C11: for every bus-id string that does not split on "." into exactly 4 tokens, the
bus-id section of `ParseArgs` returns false and sets no bus id. -/
theorem ParseArgs_busid_rejects_other_token_counts (busid : String)
    (h : (Split busid.data).length ≠ 4) :
    ParseArgs_busid busid = none := by
  unfold ParseArgs_busid
  generalize Split busid.data = l at h
  rcases l with _ | ⟨a, _ | ⟨b, _ | ⟨c, _ | ⟨d, _ | ⟨e, r⟩⟩⟩⟩⟩ <;> simp at h ⊢

/-- The statement of C11 on a string of three tokens, on one of five tokens and on
the empty string. -/
theorem ParseArgs_busid_rejects_other_token_counts_witness :
    (Split "8.8.8".data).length = 3 ∧ ParseArgs_busid "8.8.8" = none ∧
    (Split "1.2.3.4.5".data).length = 5 ∧ ParseArgs_busid "1.2.3.4.5" = none ∧
    (Split "".data).length = 1 ∧ ParseArgs_busid "" = none :=
  ⟨by decide, ParseArgs_busid_rejects_other_token_counts "8.8.8" (by decide),
   by decide, ParseArgs_busid_rejects_other_token_counts "1.2.3.4.5" (by decide),
   by decide, ParseArgs_busid_rejects_other_token_counts "" (by decide)⟩

/-! ## Dispatch of one message and of one event -/

/-- C20: `OnNetMsg` never fails.  When a handler is registered for the id of the
message it is invoked exactly once, with the message and its session id, and no other
handler is; when none is registered no handler is invoked and only the error line is
written.  In both cases the handler tables, the registry, the ring, the reverse index
and the pending queue are unchanged. -/
theorem OnNetMsg_dispatches_by_id (s : AFCNetClientService) (msg : AFNetMsg)
    (session_id : Int) :
    (∀ cb, find_value s.net_msg_callbacks_ msg.msg_id_ = some cb →
      (OnNetMsg s msg session_id).trace = s.trace ++ [Action.msg_cb cb msg session_id]) ∧
    (find_value s.net_msg_callbacks_ msg.msg_id_ = none →
      (OnNetMsg s msg session_id).trace = s.trace ++ [Action.log_invalid_msg msg.msg_id_] ∧
      ∀ cb m sid, Action.msg_cb cb m sid ∉ (OnNetMsg s msg session_id).trace.drop
        s.trace.length) ∧
    OnNetMsg s msg session_id = { s with trace := (OnNetMsg s msg session_id).trace } := by
  refine ⟨?_, ?_, ?_⟩
  · intro cb h
    simp only [OnNetMsg, h]
  · intro h
    have ht : (OnNetMsg s msg session_id).trace
        = s.trace ++ [Action.log_invalid_msg msg.msg_id_] := by
      simp only [OnNetMsg, h]
    refine ⟨ht, ?_⟩
    intro cb m sid
    rw [ht, List.drop_left]
    simp
  · rw [OnNetMsg_eq]

/-- The statement of C20 on the service with handler 1 registered for message id 100:
a message with id 100 reaches handler 1, a message with id 200 reaches no handler. -/
theorem OnNetMsg_dispatches_by_id_witness :
    find_value (RegMsgCallback AFCNetClientService.empty 100 1).2.net_msg_callbacks_ 100
      = some 1 ∧
    (OnNetMsg (RegMsgCallback AFCNetClientService.empty 100 1).2
      { msg_id_ := 100, data_ := [1, 2] } 9).trace
      = [Action.msg_cb 1 { msg_id_ := 100, data_ := [1, 2] } 9] ∧
    find_value (RegMsgCallback AFCNetClientService.empty 100 1).2.net_msg_callbacks_ 200
      = none ∧
    (OnNetMsg (RegMsgCallback AFCNetClientService.empty 100 1).2
      { msg_id_ := 200, data_ := [] } 9).trace = [Action.log_invalid_msg 200] :=
  ⟨by decide,
   (OnNetMsg_dispatches_by_id (RegMsgCallback AFCNetClientService.empty 100 1).2
      { msg_id_ := 100, data_ := [1, 2] } 9).1 1 (by decide),
   by decide,
   ((OnNetMsg_dispatches_by_id (RegMsgCallback AFCNetClientService.empty 100 1).2
      { msg_id_ := 200, data_ := [] } 9).2.1 (by decide)).1⟩

/-- C17: for every event, `OnNetEvent` invokes each callback registered through
`RegNetEventCallback` exactly once, in registration order (a registration appends),
with that same event, and each callback sees the ring and the entry as the
bookkeeping has left them: for a `Connected` event of an active bus id the entry is
`CONNECTED`, its virtual nodes are on the ring and the reverse index binds the bus id;
for a `Disconnected` one the entry is `DISCONNECT` with the current time, its virtual
nodes are off the ring and the reverse index has lost the bus id.  When the bus id has
no active entry the callbacks are invoked all the same, and the registry, the ring and
the reverse index are unchanged. -/
theorem OnNetEvent_bookkeeping_then_callbacks (now : Int) (s : AFCNetClientService)
    (event : AFNetEvent) (cb : Nat) :
    ((RegNetEventCallback s cb).1 = true ∧
      (RegNetEventCallback s cb).2.net_event_callbacks_ = s.net_event_callbacks_ ++ [cb]) ∧
    (OnNetEvent now s event).trace = s.trace ++ s.net_event_callbacks_.map (fun c =>
      Action.event_cb c event (OnNetEvent now s event).consistent_hashmap_
        ((find_value (OnNetEvent now s event).real_connections_ event.bus_id_).map
          (fun d => d.net_state_))) ∧
    (∀ d, event.type_ = AFNetEventType.CONNECTED →
      find_value s.real_connections_ event.bus_id_ = some d →
      find_value (OnNetEvent now s event).real_connections_ event.bus_id_
        = some { d with net_state_ := ConnectState.CONNECTED } ∧
      (OnNetEvent now s event).consistent_hashmap_
        = AddServerWeightData s.consistent_hashmap_ d ∧
      (OnNetEvent now s event).bus_index
        = AddNetConnectionBus s.bus_index event.bus_id_
            (d.net_client_ptr_.map (fun n => n.id))) ∧
    (∀ d, event.type_ = AFNetEventType.DISCONNECTED →
      find_value s.real_connections_ event.bus_id_ = some d →
      find_value (OnNetEvent now s event).real_connections_ event.bus_id_
        = some { d with net_state_ := ConnectState.DISCONNECT, last_active_time_ := now } ∧
      (OnNetEvent now s event).consistent_hashmap_
        = RemoveServerWeightData s.consistent_hashmap_ d ∧
      (OnNetEvent now s event).bus_index
        = RemoveNetConnectionBus s.bus_index event.bus_id_) ∧
    (find_value s.real_connections_ event.bus_id_ = none →
      (OnNetEvent now s event).real_connections_ = s.real_connections_ ∧
      (OnNetEvent now s event).consistent_hashmap_ = s.consistent_hashmap_ ∧
      (OnNetEvent now s event).bus_index = s.bus_index ∧
      (OnNetEvent now s event).trace = s.trace ++ s.net_event_callbacks_.map (fun c =>
        Action.event_cb c event s.consistent_hashmap_ none)) := by
  refine ⟨⟨rfl, rfl⟩, ?_, ?_, ?_, ?_⟩
  · cases ht : event.type_ with
    | NONE => simp only [OnNetEvent, ht, fire_event_callbacks, GetConnectionInfo]
    | CONNECTED =>
      cases hf : find_value s.real_connections_ event.bus_id_ with
      | none =>
        simp only [OnNetEvent, ht, fire_event_callbacks, GetConnectionInfo,
          OnConnect_of_none s event hf]
      | some d =>
        simp only [OnNetEvent, ht, fire_event_callbacks, GetConnectionInfo,
          OnConnect_of_some s event d hf]
    | DISCONNECTED =>
      cases hf : find_value s.real_connections_ event.bus_id_ with
      | none =>
        simp only [OnNetEvent, ht, fire_event_callbacks, GetConnectionInfo,
          OnDisconnect_of_none now s event hf]
      | some d =>
        simp only [OnNetEvent, ht, fire_event_callbacks, GetConnectionInfo,
          OnDisconnect_of_some now s event d hf]
  · intro d ht hf
    simp only [OnNetEvent, ht, fire_event_callbacks, OnConnect_of_some s event d hf,
      find_value_map_modify, if_true, hf, Option.map_some']
    refine ⟨?_, ?_, ?_⟩ <;> first | rfl | trivial
  · intro d ht hf
    simp only [OnNetEvent, ht, fire_event_callbacks, OnDisconnect_of_some now s event d hf,
      find_value_map_modify, if_true, hf, Option.map_some']
    refine ⟨?_, ?_, ?_⟩ <;> first | rfl | trivial
  · intro hf
    cases ht : event.type_ with
    | NONE =>
      simp only [OnNetEvent, ht, fire_event_callbacks, GetConnectionInfo, hf, Option.map_none']
      refine ⟨?_, ?_, ?_, ?_⟩ <;> first | rfl | trivial
    | CONNECTED =>
      simp only [OnNetEvent, ht, fire_event_callbacks, GetConnectionInfo,
        OnConnect_of_none s event hf, hf, Option.map_none']
      refine ⟨?_, ?_, ?_, ?_⟩ <;> first | rfl | trivial
    | DISCONNECTED =>
      simp only [OnNetEvent, ht, fire_event_callbacks, GetConnectionInfo,
        OnDisconnect_of_none now s event hf, hf, Option.map_none']
      refine ⟨?_, ?_, ?_, ?_⟩ <;> first | rfl | trivial

/-- The statement of C17 on the scenario, whose only callback is callback 1: a
`Connected` event of bus id 9, which has no entry, reaches the callback and changes
neither registry nor ring; the `Connected` event of bus id 7 makes the entry
`CONNECTED` before the callback sees it. -/
theorem OnNetEvent_bookkeeping_then_callbacks_witness :
    find_value scenario_connecting.real_connections_ 9 = none ∧
    ((OnNetEvent 0 scenario_connecting
        { id_ := 2, type_ := AFNetEventType.CONNECTED, bus_id_ := 9, ip_ := "1.2.3.5" }
      ).real_connections_ = scenario_connecting.real_connections_ ∧
      (OnNetEvent 0 scenario_connecting
        { id_ := 2, type_ := AFNetEventType.CONNECTED, bus_id_ := 9, ip_ := "1.2.3.5" }
      ).consistent_hashmap_ = scenario_connecting.consistent_hashmap_ ∧
      (OnNetEvent 0 scenario_connecting
        { id_ := 2, type_ := AFNetEventType.CONNECTED, bus_id_ := 9, ip_ := "1.2.3.5" }
      ).bus_index = scenario_connecting.bus_index ∧
      (OnNetEvent 0 scenario_connecting
        { id_ := 2, type_ := AFNetEventType.CONNECTED, bus_id_ := 9, ip_ := "1.2.3.5" }
      ).trace = scenario_connecting.trace ++ scenario_connecting.net_event_callbacks_.map
        (fun c => Action.event_cb c
          { id_ := 2, type_ := AFNetEventType.CONNECTED, bus_id_ := 9, ip_ := "1.2.3.5" }
          scenario_connecting.consistent_hashmap_ none)) ∧
    scenario_connecting.net_event_callbacks_ = [1] ∧
    (find_value scenario_connected.real_connections_ 7).map (fun d => d.net_state_)
      = some ConnectState.CONNECTED :=
  ⟨by decide,
   (OnNetEvent_bookkeeping_then_callbacks 0 scenario_connecting
      { id_ := 2, type_ := AFNetEventType.CONNECTED, bus_id_ := 9, ip_ := "1.2.3.5" }
      0).2.2.2.2 (by decide),
   by decide, by decide⟩

/-! ## What promotion creates and what it leaves alone -/

/-- Whenever the promotion loop returns: the active ids are the former ones and the
queued ones, the former entries are untouched, and an entry that was not there before
is the promoted entry of a queued tcp request. -/
theorem AddConnections_frame (env : Env) :
    ∀ (q : List AFConnectionData) (s s1 : AFCNetClientService),
      AddConnections env q s = some s1 →
      (∀ bus : Int, (find_value s1.real_connections_ bus).isSome = true ↔
        ((find_value s.real_connections_ bus).isSome = true ∨
          ∃ c ∈ q, c.server_bus_id_ = bus)) ∧
      (∀ (bus : Int) (d : AFConnectionData), find_value s.real_connections_ bus = some d →
        find_value s1.real_connections_ bus = some d) ∧
      (∀ (bus : Int) (d : AFConnectionData), find_value s1.real_connections_ bus = some d →
        find_value s.real_connections_ bus = none →
        ∃ s0 c, c ∈ q ∧ c.server_bus_id_ = bus ∧ c.endpoint_.proto = proto_type.tcp ∧
          d = promoted_entry env s0 c) := by
  intro q
  induction q with
  | nil =>
    intro s s1 h
    simp only [AddConnections] at h
    rw [← Option.some.inj h]
    refine ⟨fun bus => by simp, fun _ _ hd => hd, ?_⟩
    intro bus d hd hn
    rw [hn] at hd; cases hd
  | cons c rest ih =>
    intro s s1 h
    simp only [AddConnections] at h
    cases h0 : AddConnection env s c with
    | none => rw [h0] at h; cases h
    | some s0 =>
      rw [h0] at h
      obtain ⟨hiff, hkeep, hnew⟩ := ih s0 s1 h
      rcases AddConnection_cases env s s0 c h0 with ⟨hsome, e⟩ | ⟨hn, htcp, e⟩
      · subst e
        refine ⟨?_, hkeep, ?_⟩
        · intro bus
          rw [hiff bus]
          constructor
          · rintro (hb | ⟨c', hc', e'⟩)
            · exact Or.inl hb
            · exact Or.inr ⟨c', List.mem_cons_of_mem _ hc', e'⟩
          · rintro (hb | ⟨c', hc', e'⟩)
            · exact Or.inl hb
            · rcases List.mem_cons.mp hc' with e2 | hrest
              · left; rw [← e', e2]; exact hsome
              · exact Or.inr ⟨c', hrest, e'⟩
        · intro bus d hd hnone
          obtain ⟨sx, c', hc', hb, ht, hdx⟩ := hnew bus d hd hnone
          exact ⟨sx, c', List.mem_cons_of_mem _ hc', hb, ht, hdx⟩
      · have hfind0 : ∀ k, find_value s0.real_connections_ k
            = if k = c.server_bus_id_ then some (promoted_entry env s c)
              else find_value s.real_connections_ k := by
          intro k
          rw [e]
          exact find_value_map_insert _ _ _ _ hn
        refine ⟨?_, ?_, ?_⟩
        · intro bus
          rw [hiff bus, hfind0 bus]
          by_cases hb : bus = c.server_bus_id_
          · simp only [hb, if_true, Option.isSome_some, true_or, true_iff]
            exact Or.inr ⟨c, List.mem_cons_self _ _, rfl⟩
          · simp only [hb, if_false]
            constructor
            · rintro (h1 | ⟨c', hc', e'⟩)
              · exact Or.inl h1
              · exact Or.inr ⟨c', List.mem_cons_of_mem _ hc', e'⟩
            · rintro (h1 | ⟨c', hc', e'⟩)
              · exact Or.inl h1
              · rcases List.mem_cons.mp hc' with e2 | hrest
                · exact absurd (by rw [← e', e2]) hb
                · exact Or.inr ⟨c', hrest, e'⟩
        · intro bus d hd
          apply hkeep bus d
          have hb : ¬ bus = c.server_bus_id_ := by
            intro e2; rw [e2, hn] at hd; cases hd
          rw [hfind0 bus]
          simp only [hb, if_false, hd]
        · intro bus d hd hnone
          by_cases hb : bus = c.server_bus_id_
          · have h0' : find_value s0.real_connections_ bus
                = some (promoted_entry env s c) := by
              rw [hfind0 bus]; simp only [hb, if_true]
            have h1' := hkeep bus _ h0'
            rw [hd] at h1'
            exact ⟨s, c, List.mem_cons_self _ _, hb.symm, htcp, Option.some.inj h1'⟩
          · have h0' : find_value s0.real_connections_ bus = none := by
              rw [hfind0 bus]; simp only [hb, if_false, hnone]
            obtain ⟨sx, c', hc', hb', ht, hdx⟩ := hnew bus d hd h0'
            exact ⟨sx, c', List.mem_cons_of_mem _ hc', hb', ht, hdx⟩

/-- Whenever `ProcessAddConnection` returns: the pending queue is empty, the active ids
are the former ones united with the queued ones, every entry active before is
unchanged, and every new entry is the promoted entry of a queued tcp request. -/
theorem ProcessAddConnection_frame (env : Env) (s s1 : AFCNetClientService)
    (h : ProcessAddConnection env s = some s1) :
    s1.tmp_connections_ = [] ∧
    (∀ bus : Int, (find_value s1.real_connections_ bus).isSome = true ↔
      ((find_value s.real_connections_ bus).isSome = true ∨
        ∃ c ∈ s.tmp_connections_, c.server_bus_id_ = bus)) ∧
    (∀ (bus : Int) (d : AFConnectionData), find_value s.real_connections_ bus = some d →
      find_value s1.real_connections_ bus = some d) ∧
    (∀ (bus : Int) (d : AFConnectionData), find_value s1.real_connections_ bus = some d →
      find_value s.real_connections_ bus = none →
      ∃ s0 c, c ∈ s.tmp_connections_ ∧ c.server_bus_id_ = bus ∧
        c.endpoint_.proto = proto_type.tcp ∧ d = promoted_entry env s0 c) := by
  rw [ProcessAddConnection_eq] at h
  cases h0 : AddConnections env s.tmp_connections_ s with
  | none => rw [h0] at h; cases h
  | some s0 =>
    rw [h0] at h
    simp only [Option.map_some'] at h
    rw [← Option.some.inj h]
    exact ⟨rfl, AddConnections_frame env _ s s0 h0⟩

/-- For a pending request whose target id is not yet active and whose protocol is
tcp, the body of the loop of `ProcessAddConnection` returns; it creates one transport
(the next allocation of `CreateNet`), whose only call is one `StartClient` with the
header length, bus id, ip and port of the request, sets the last-activity timestamp to
the current time, and inserts the entry under the request's bus id in state
`CONNECTING` when that call succeeded and `RECONNECT` when it failed, leaving the other
entries alone.  On a queue of tcp requests `ProcessAddConnection` does so for the first
request of every id that is not active.  Whenever `ProcessAddConnection` returns, an
entry that was not active before is `CONNECTING` or `RECONNECT`. -/
theorem ProcessAddConnection_promotes_tcp_request (env : Env) (s : AFCNetClientService)
    (c : AFConnectionData)
    (hnew : find_value s.real_connections_ c.server_bus_id_ = none)
    (htcp : c.endpoint_.proto = proto_type.tcp) :
    (∃ s1 d net, AddConnection env s c = some s1 ∧
      find_value s1.real_connections_ c.server_bus_id_ = some d ∧
      d.head_len_ = c.head_len_ ∧ d.server_bus_id_ = c.server_bus_id_ ∧
      d.endpoint_ = c.endpoint_ ∧ d.last_active_time_ = env.now ∧
      d.net_client_ptr_ = some net ∧ net.id = s.next_net_id ∧
      s1.next_net_id = s.next_net_id + 1 ∧
      net.calls = [NetCall.StartClient c.head_len_ c.server_bus_id_ c.endpoint_.ip
        c.endpoint_.port false] ∧
      start_calls d.net_client_ptr_ = 1 ∧
      (env.start_ok c.server_bus_id_ = true → d.net_state_ = ConnectState.CONNECTING) ∧
      (env.start_ok c.server_bus_id_ = false → d.net_state_ = ConnectState.RECONNECT) ∧
      (∀ k, k ≠ c.server_bus_id_ →
        find_value s1.real_connections_ k = find_value s.real_connections_ k)) ∧
    ((∀ c0 ∈ s.tmp_connections_, c0.endpoint_.proto = proto_type.tcp) →
      (s.real_connections_.map (fun p => p.1)).Nodup →
      first_request s.tmp_connections_ c.server_bus_id_ = some c →
      ∃ s1 s0, ProcessAddConnection env s = some s1 ∧
        find_value s1.real_connections_ c.server_bus_id_ = some (promoted_entry env s0 c)) ∧
    (∀ s1, ProcessAddConnection env s = some s1 →
      ∀ (k : Int) (d : AFConnectionData), find_value s1.real_connections_ k = some d →
        find_value s.real_connections_ k = none →
        d.net_state_ = ConnectState.CONNECTING ∨ d.net_state_ = ConnectState.RECONNECT) := by
  refine ⟨?_, ?_, ?_⟩
  · refine ⟨_, promoted_entry env s c, _, AddConnection_of_new_tcp env s c hnew htcp, ?_,
      rfl, rfl, rfl, rfl, rfl, rfl, rfl, rfl, ?_, ?_, ?_, ?_⟩
    · simp only [find_value_map_insert _ _ _ _ hnew, if_true]
    · simp [promoted_entry, start_calls]
    · intro hok; simp only [promoted_entry, hok, if_true]
    · intro hok; simp [promoted_entry, hok]
    · intro k hk
      simp only [find_value_map_insert _ _ _ _ hnew, hk, if_false]
  · intro hall hnd hfirst
    obtain ⟨s1, h1, _, _, _, hf⟩ := AddConnections_tcp env s.tmp_connections_ s hall hnd
    obtain ⟨s0, h0⟩ := hf c.server_bus_id_ c hnew hfirst
    refine ⟨{ s1 with tmp_connections_ := [] }, s0, ?_, h0⟩
    rw [ProcessAddConnection_eq, h1]; rfl
  · intro s1 h1 k d hd hnone
    obtain ⟨_, _, _, hnewentries⟩ := ProcessAddConnection_frame env s s1 h1
    obtain ⟨s0, c0, _, _, _, hd0⟩ := hnewentries k d hd hnone
    rw [hd0]
    simp only [promoted_entry]
    cases env.start_ok c0.server_bus_id_ <;> simp

/-- The promotion on the scenario: bus id 7 is not active and its request is
tcp; with a transport that starts the entry is `CONNECTING`, with one that does not it
is `RECONNECT`, both with timestamp 3 and one `StartClient` call. -/
theorem ProcessAddConnection_promotes_tcp_request_witness :
    find_value scenario_requested.real_connections_ 7 = none ∧
    scenario_request.endpoint_.proto = proto_type.tcp ∧
    (∃ s1 d, AddConnection (scenario_env 3) scenario_requested scenario_request = some s1 ∧
      find_value s1.real_connections_ 7 = some d ∧
      d.net_state_ = ConnectState.CONNECTING ∧ d.last_active_time_ = 3 ∧
      start_calls d.net_client_ptr_ = 1) ∧
    (∃ s1 d, AddConnection (scenario_env_down 3) scenario_requested scenario_request
        = some s1 ∧
      find_value s1.real_connections_ 7 = some d ∧
      d.net_state_ = ConnectState.RECONNECT ∧ d.last_active_time_ = 3 ∧
      start_calls d.net_client_ptr_ = 1) := by
  refine ⟨by decide, rfl, ?_, ?_⟩
  · obtain ⟨s1, d, net, h1, h2, _, _, _, h6, _, _, _, _, h11, h12, _, _⟩ :=
      (ProcessAddConnection_promotes_tcp_request (scenario_env 3) scenario_requested
        scenario_request (by decide) rfl).1
    exact ⟨s1, d, h1, h2, h12 rfl, h6, h11⟩
  · obtain ⟨s1, d, net, h1, h2, _, _, _, h6, _, _, _, _, h11, _, h13, _⟩ :=
      (ProcessAddConnection_promotes_tcp_request (scenario_env_down 3) scenario_requested
        scenario_request (by decide) rfl).1
    exact ⟨s1, d, h1, h2, h13 rfl, h6, h11⟩

/-- C13, evaluated on the code: `CreateNet` returns the null pointer for a websocket
and for a udp endpoint, and `ProcessAddConnection` on a queued websocket request calls
`StartClient` through it: the request does not end as an entry in state `RECONNECT`,
the call through the missing transport is reached.  A tcp request whose transport does
not start is recovered as the claim says. -/
theorem ProcessAddConnection_reaches_missing_transport :
    (CreateNet AFCNetClientService.empty proto_type.ws).1 = none ∧
    (CreateNet AFCNetClientService.empty proto_type.udp).1 = none ∧
    AddConnection (scenario_env 0) AFCNetClientService.empty
      { scenario_request with endpoint_ := scenario_endpoint_ws } = none ∧
    ProcessAddConnection (scenario_env 0)
      (StartClient AFCNetClientService.empty 4 7 scenario_endpoint_ws).2 = none ∧
    ProcessAddConnection (scenario_env_down 0)
      (StartClient AFCNetClientService.empty 4 7 scenario_endpoint_ws).2 = none ∧
    (ProcessAddConnection (scenario_env_down 0)
        (StartClient AFCNetClientService.empty 4 7 scenario_endpoint).2).bind (fun s1 =>
        (find_value s1.real_connections_ 7).map (fun d => d.net_state_))
      = some ConnectState.RECONNECT := by
  decide

/-- C14, evaluated on the code: the entry of bus id 7 is active, and two requests are
queued, one for bus id 7 with another endpoint and one for bus id 9.  When the request
for bus id 9 is a udp request `ProcessAddConnection` calls `StartClient` through the
null pointer: it does not return with an empty queue and bus id 9 among the keys.
When it is a tcp request the queue is emptied, the keys are 7 and 9, and the entry of
bus id 7 is the one it was. -/
theorem ProcessAddConnection_udp_request_no_frame :
    ProcessAddConnection (scenario_env 1)
      (StartClient (StartClient scenario_connecting 5 7 scenario_endpoint_other).2 4 9
        scenario_endpoint_udp).2 = none ∧
    (ProcessAddConnection (scenario_env 1)
      (StartClient (StartClient scenario_connecting 5 7 scenario_endpoint_other).2 4 9
        scenario_endpoint).2).map (fun s1 =>
          (s1.tmp_connections_, s1.real_connections_.map (fun p => p.1),
            find_value s1.real_connections_ 7))
      = some ([], [7, 9], find_value scenario_connecting.real_connections_ 7) := by
  decide

/-! ## Teardown -/

theorem find_value_map_values {α : Type} (m : List (Int × α)) (f : α → α) (k : Int) :
    find_value (m.map (fun p => (p.1, f p.2))) k = (find_value m k).map f := by
  induction m with
  | nil => simp [find_value]
  | cons p rest ih =>
    obtain ⟨k0, w⟩ := p
    by_cases h0 : k0 = k
    · simp [find_value, h0]
    · simp [find_value, h0, ih]

/-- C18, as the code has it: `Shutdown` shuts down and releases the transport of every
active entry that has one, and leaves every entry in the registry: the keys are
what they were, a later lookup of an active bus id still finds its entry, now without
transport and otherwise unchanged, and nothing else in the service changes. -/
theorem Shutdown_releases_transports_keeps_entries (s : AFCNetClientService) :
    (Shutdown s).1 = s.real_connections_.filterMap
      (fun p => p.2.net_client_ptr_.map AFINet.Shutdown) ∧
    (∀ k, GetConnectionInfo (Shutdown s).2 k
      = (GetConnectionInfo s k).map (fun d => { d with net_client_ptr_ := none })) ∧
    (Shutdown s).2.real_connections_.map (fun p => p.1)
      = s.real_connections_.map (fun p => p.1) ∧
    (Shutdown s).2 = { s with real_connections_ := (Shutdown s).2.real_connections_ } := by
  refine ⟨?_, ?_, ?_, rfl⟩
  · simp only [Shutdown]
    congr 1
    funext p
    cases h : p.2.net_client_ptr_ <;> simp [ShutdownEntry, h, ARK_DELETE]
  · intro k
    have hf : (fun p : Int × AFConnectionData => (p.1, (ShutdownEntry p.2).2))
        = (fun p => (p.1, (fun d : AFConnectionData =>
            { d with net_client_ptr_ := none }) p.2)) := by
      funext p
      cases h : p.2.net_client_ptr_ with
      | none =>
        simp only [ShutdownEntry, h]
        cases hp : p.2
        simp only [hp] at h
        simp only [h]
      | some net => simp only [ShutdownEntry, h, ARK_DELETE]
    simp only [GetConnectionInfo, Shutdown, hf]
    exact find_value_map_values s.real_connections_
      (fun d => { d with net_client_ptr_ := none }) k
  · simp [Shutdown, Function.comp_def]

/-- C18 fails as stated: the entry of bus id 7 is active with a transport.  After
`Shutdown` that transport has been shut down and released, but the registry is not
empty and the lookup of bus id 7 finds the entry, without transport. -/
theorem Shutdown_registry_not_empty :
    (Shutdown scenario_connected).1.map (fun n => n.calls)
      = [[NetCall.StartClient 4 7 "1.2.3.4" 9001 false, NetCall.Update,
          NetCall.Shutdown]] ∧
    (Shutdown scenario_connected).2.real_connections_.map (fun p => p.1) = [7] ∧
    (GetConnectionInfo (Shutdown scenario_connected).2 7).map
        (fun d => (d.net_state_, d.net_client_ptr_))
      = some (ConnectState.CONNECTED, none) := by
  decide

/-! ## The end-to-end run -/

/-- One tcp request on the service as constructed, then a tick. -/
theorem Update_one_request (env : Env) (head_len : Nat) (bus : Int) (ep : AFEndpoint)
    (htcp : ep.proto = proto_type.tcp) :
    ∃ d, Update env (StartClient AFCNetClientService.empty head_len bus ep).2
        = some { AFCNetClientService.empty with
            next_net_id := 1, real_connections_ := [(bus, d)] } ∧
      d.server_bus_id_ = bus ∧ d.endpoint_ = ep ∧ d.head_len_ = head_len ∧
      d.last_active_time_ = env.now := by
  cases hok : env.start_ok bus
  · refine ⟨
      { head_len_ := head_len, server_bus_id_ := bus, endpoint_ := ep,
        net_state_ := ConnectState.RECONNECT, last_active_time_ := env.now,
        net_client_ptr_ := some
          { id := 0, client_session_ptr_ := none,
            calls := [NetCall.StartClient head_len bus ep.ip ep.port false] } },
      ?_, rfl, rfl, rfl, rfl⟩
    simp [Update, ProcessAddConnection, AddConnections, AddConnection, StartClient,
      AFCNetClientService.empty, find_value, htcp, CreateNet, map_insert, hok,
      ProcessUpdate, ProcessUpdateLoop, ProcessUpdateEntry, SECOND_MS, AFINet.StartClient]
  · refine ⟨
      { head_len_ := head_len, server_bus_id_ := bus, endpoint_ := ep,
        net_state_ := ConnectState.CONNECTING, last_active_time_ := env.now,
        net_client_ptr_ := some
          { id := 0, client_session_ptr_ := none,
            calls := [NetCall.StartClient head_len bus ep.ip ep.port false,
              NetCall.Update] } },
      ?_, rfl, rfl, rfl, rfl⟩
    simp [Update, ProcessAddConnection, AddConnections, AddConnection, StartClient,
      AFCNetClientService.empty, find_value, htcp, CreateNet, map_insert, hok,
      ProcessUpdate, ProcessUpdateLoop, ProcessUpdateEntry, NetUpdate, AFINet.Update,
      UpdateNetSession, UpdateNetEvent, UpdateNetMsg, map_modify, AFINet.StartClient]

theorem report_count_append (t u : List Action) :
    report_count (t ++ u) = report_count t + report_count u := by
  simp [report_count, List.filter_append]

theorem report_count_event_cbs (cbs : List Nat) (event : AFNetEvent)
    (ring : List AFCMachineNode) (state : Option ConnectState) :
    report_count (cbs.map (fun cb => Action.event_cb cb event ring state)) = 0 := by
  induction cbs with
  | nil => rfl
  | cons cb rest ih =>
    simp only [report_count, List.map_cons, List.filter_cons] at ih ⊢
    exact ih

/-- The callbacks `OnNetEvent` invokes, and what they see. -/
theorem OnNetEvent_trace (now : Int) (s : AFCNetClientService) (event : AFNetEvent) :
    (OnNetEvent now s event).trace = s.trace ++ s.net_event_callbacks_.map (fun c =>
      Action.event_cb c event (OnNetEvent now s event).consistent_hashmap_
        ((find_value (OnNetEvent now s event).real_connections_ event.bus_id_).map
          (fun d => d.net_state_))) := by
  cases ht : event.type_ with
  | NONE => simp only [OnNetEvent, ht, fire_event_callbacks, GetConnectionInfo]
  | CONNECTED =>
    cases hf : find_value s.real_connections_ event.bus_id_ with
    | none =>
      simp only [OnNetEvent, ht, fire_event_callbacks, GetConnectionInfo,
        OnConnect_of_none s event hf]
    | some d =>
      simp only [OnNetEvent, ht, fire_event_callbacks, GetConnectionInfo,
        OnConnect_of_some s event d hf]
  | DISCONNECTED =>
    cases hf : find_value s.real_connections_ event.bus_id_ with
    | none =>
      simp only [OnNetEvent, ht, fire_event_callbacks, GetConnectionInfo,
        OnDisconnect_of_none now s event hf]
    | some d =>
      simp only [OnNetEvent, ht, fire_event_callbacks, GetConnectionInfo,
        OnDisconnect_of_some now s event d hf]

/-- Handling an event sends no server report, whatever the event. -/
theorem OnNetEvent_report_count (now : Int) (s : AFCNetClientService) (event : AFNetEvent) :
    report_count (OnNetEvent now s event).trace = report_count s.trace := by
  rw [OnNetEvent_trace, report_count_append, report_count_event_cbs]
  rfl

/-- C19, as the code has it: for every tcp target bus id, after `StartClient` on the
service as constructed (the game module registers no event callback on it), one
`Update` tick and a `Connected` event carrying that bus id, the entry's state is
`CONNECTED` and the ring contains the virtual nodes of that bus id, and no server
report has been sent: handling the event sends none, on any service and for any event.
The first report for the entry is the one `KeepAlive` sends in a later tick, once 10
ticks of the clock have passed since the tick that promoted it. -/
theorem Connected_event_sends_no_report (env : Env) (now : Int) (head_len : Nat) (bus : Int)
    (ep : AFEndpoint) (event : AFNetEvent)
    (htcp : ep.proto = proto_type.tcp)
    (htype : event.type_ = AFNetEventType.CONNECTED)
    (hbus : event.bus_id_ = bus) :
    (GameNetClientModule_StartClient 0 (some AFCNetClientService.empty)
      = (0, some AFCNetClientService.empty)) ∧
    (∃ s1, Update env (StartClient AFCNetClientService.empty head_len bus ep).2 = some s1 ∧
      (find_value (OnNetEvent now s1 event).real_connections_ bus).map
          (fun d => d.net_state_) = some ConnectState.CONNECTED ∧
      (∀ i, i < EConstDefine_DefaultWeight →
        ring_has (OnNetEvent now s1 event).consistent_hashmap_ bus i = true) ∧
      (OnNetEvent now s1 event).trace = [] ∧
      (∀ now2, env.now + 10 ≤ now2 →
        (KeepAlive now2 (OnNetEvent now s1 event) bus).trace
          = [Action.report bus ConnectState.CONNECTED, Action.log_server_info]) ∧
      (∀ now2, now2 < env.now + 10 →
        (KeepAlive now2 (OnNetEvent now s1 event) bus).trace = [])) ∧
    (∀ (s : AFCNetClientService) (e : AFNetEvent),
      report_count (OnNetEvent now s e).trace = report_count s.trace) := by
  refine ⟨rfl, ?_, fun s e => OnNetEvent_report_count now s e⟩
  obtain ⟨d, hup, hdbus, _, _, hlast⟩ := Update_one_request env head_len bus ep htcp
  have hfind : find_value
      ({ AFCNetClientService.empty with
          next_net_id := 1, real_connections_ := [(bus, d)] } :
        AFCNetClientService).real_connections_ event.bus_id_ = some d := by
    simp [find_value, hbus]
  have hev : OnNetEvent now
      { AFCNetClientService.empty with next_net_id := 1, real_connections_ := [(bus, d)] }
      event
      = { AFCNetClientService.empty with
          next_net_id := 1
          real_connections_ := [(bus, { d with net_state_ := ConnectState.CONNECTED })]
          consistent_hashmap_ := AddServerWeightData [] d
          bus_index := (AddNetConnectionBus [] bus (d.net_client_ptr_.map (fun n => n.id))) } := by
    simp only [OnNetEvent, htype, OnConnect_of_some _ event d hfind, fire_event_callbacks]
    simp [AFCNetClientService.empty, map_modify, hbus]
  have hfind2 : find_value
      ({ AFCNetClientService.empty with
          next_net_id := 1
          real_connections_ := [(bus, { d with net_state_ := ConnectState.CONNECTED })]
          consistent_hashmap_ := AddServerWeightData [] d
          bus_index := (AddNetConnectionBus [] bus (d.net_client_ptr_.map (fun n => n.id))) } :
        AFCNetClientService).real_connections_ bus
      = some { d with net_state_ := ConnectState.CONNECTED } := by
    simp [find_value]
  have hring : ∀ i, i < EConstDefine_DefaultWeight →
      ring_has (AddServerWeightData [] d) bus i = true :=
    fun i hi => (ring_has_AddServerWeightData [] d bus i).mpr (Or.inr ⟨hdbus.symm, hi⟩)
  generalize AddServerWeightData [] d = ring0 at hev hfind2 hring
  refine ⟨_, hup, ?_, ?_, ?_, ?_, ?_⟩
  · rw [hev, hfind2]; rfl
  · intro i hi
    rw [hev]
    exact hring i hi
  · rw [hev]; rfl
  · intro now2 h2
    have hng : ¬ (d.last_active_time_ + 10 > now2) := by rw [hlast]; omega
    rw [hev, KeepAlive_eq now2 _ bus _ hfind2]
    simp only [hng, if_false, hdbus]
    rfl
  · intro now2 h2
    have hg : d.last_active_time_ + 10 > now2 := by rw [hlast]; omega
    rw [hev, KeepAlive_eq now2 _ bus _ hfind2]
    simp only [hg, if_true]
    rfl

/-- The statement of C19 on the end-to-end scenario of the spec: bus id 0x02030405 at
tcp 1.2.3.4:9001. -/
theorem Connected_event_sends_no_report_witness :
    scenario_endpoint.proto = proto_type.tcp ∧
    e2e_connected_event.type_ = AFNetEventType.CONNECTED ∧
    e2e_connected_event.bus_id_ = e2e_bus_id ∧
    ∃ s1, Update (scenario_env 0)
        (StartClient AFCNetClientService.empty 4 e2e_bus_id scenario_endpoint).2 = some s1 ∧
      (find_value (OnNetEvent 0 s1 e2e_connected_event).real_connections_ e2e_bus_id).map
          (fun d => d.net_state_) = some ConnectState.CONNECTED ∧
      (∀ i, i < EConstDefine_DefaultWeight →
        ring_has (OnNetEvent 0 s1 e2e_connected_event).consistent_hashmap_ e2e_bus_id i
          = true) ∧
      (OnNetEvent 0 s1 e2e_connected_event).trace = [] := by
  refine ⟨rfl, rfl, rfl, ?_⟩
  obtain ⟨s1, h1, h2, h3, h4, _, _⟩ :=
    (Connected_event_sends_no_report (scenario_env 0) 0 4 e2e_bus_id scenario_endpoint
      e2e_connected_event rfl rfl rfl).2.1
  exact ⟨s1, h1, h2, h3, h4⟩

/-- C19 fails as stated: after `StartClient(tcp, bus = 0x02030405, 1.2.3.4:9001)`, a
tick and the `Connected` event, the entry is `CONNECTED` and the ring holds the
virtual nodes of the bus id, but the number of server reports sent is 0, not 1: the
service has done nothing towards the outside. -/
theorem Connected_event_report_count_zero :
    (find_value e2e_connected.real_connections_ e2e_bus_id).map (fun d => d.net_state_)
      = some ConnectState.CONNECTED ∧
    (∀ i, i < EConstDefine_DefaultWeight →
      ring_has e2e_connected.consistent_hashmap_ e2e_bus_id i = true) ∧
    report_count e2e_connected.trace = 0 ∧
    e2e_connected.trace = [] := by
  decide

/-! ## Every entry holds a transport -/

theorem holds_net_modify (real : List (Int × AFConnectionData)) (key : Int)
    (f : AFConnectionData → AFConnectionData) (h : holds_net real)
    (hf : ∀ d, d.net_client_ptr_.isSome = true → (f d).net_client_ptr_.isSome = true) :
    holds_net (map_modify real key f) := by
  intro k d hd
  rw [find_value_map_modify] at hd
  by_cases hk : k = key
  · subst hk
    simp only [if_true] at hd
    cases h0 : find_value real k with
    | none => rw [h0] at hd; cases hd
    | some d0 =>
      rw [h0] at hd
      rw [← Option.some.inj hd]
      exact hf d0 (h k d0 h0)
  · simp only [hk, if_false] at hd
    exact h k d hd

theorem holds_net_insert (real : List (Int × AFConnectionData)) (key : Int)
    (d0 : AFConnectionData) (h : holds_net real) (hnone : find_value real key = none)
    (hd0 : d0.net_client_ptr_.isSome = true) :
    holds_net (map_insert real key d0) := by
  intro k d hd
  rw [find_value_map_insert _ _ _ _ hnone] at hd
  by_cases hk : k = key
  · simp only [hk, if_true] at hd
    rw [← Option.some.inj hd]; exact hd0
  · simp only [hk, if_false] at hd
    exact h k d hd

theorem OnNetEvent_holds_net (now : Int) (s : AFCNetClientService) (event : AFNetEvent)
    (h : holds_net s.real_connections_) :
    holds_net (OnNetEvent now s event).real_connections_ := by
  cases ht : event.type_ with
  | NONE => simp only [OnNetEvent, ht, fire_event_callbacks]; exact h
  | CONNECTED =>
    cases hf : find_value s.real_connections_ event.bus_id_ with
    | none =>
      simp only [OnNetEvent, ht, fire_event_callbacks, OnConnect_of_none s event hf]
      exact h
    | some d =>
      simp only [OnNetEvent, ht, fire_event_callbacks, OnConnect_of_some s event d hf]
      exact holds_net_modify _ _ _ h (fun _ hd => hd)
  | DISCONNECTED =>
    cases hf : find_value s.real_connections_ event.bus_id_ with
    | none =>
      simp only [OnNetEvent, ht, fire_event_callbacks, OnDisconnect_of_none now s event hf]
      exact h
    | some d =>
      simp only [OnNetEvent, ht, fire_event_callbacks, OnDisconnect_of_some now s event d hf]
      exact holds_net_modify _ _ _ h (fun _ hd => hd)

theorem events_holds_net (now : Int) :
    ∀ (events : List AFNetEvent) (s : AFCNetClientService),
      holds_net s.real_connections_ →
      holds_net (events.foldl (OnNetEvent now) s).real_connections_ := by
  intro events
  induction events with
  | nil => intro s h; exact h
  | cons e rest ih =>
    intro s h
    exact ih _ (OnNetEvent_holds_net now s e h)

theorem msgs_real_connections :
    ∀ (msgs : List (AFNetMsg × Int)) (s : AFCNetClientService),
      (msgs.foldl (fun st m => OnNetMsg st m.1 m.2) s).real_connections_
        = s.real_connections_ := by
  intro msgs s
  rw [msgs_fold_eq]

theorem KeepAlive_holds_net (now : Int) (s : AFCNetClientService) (key : Int)
    (h : holds_net s.real_connections_) :
    holds_net (KeepAlive now s key).real_connections_ := by
  unfold KeepAlive
  cases hf : find_value s.real_connections_ key with
  | none => exact h
  | some d =>
    simp only
    split
    · exact h
    · exact holds_net_modify _ _ _ h (fun _ hd => hd)

theorem NetUpdate_holds_net (env : Env) (s : AFCNetClientService) (key : Int)
    (h : holds_net s.real_connections_) :
    holds_net (NetUpdate env s key).real_connections_ := by
  unfold NetUpdate
  cases hf : find_value s.real_connections_ key with
  | none => exact h
  | some d =>
    cases hn : d.net_client_ptr_ with
    | none => simp only [hn]; exact h
    | some net =>
      simp only [hn]
      rw [msgs_real_connections]
      apply events_holds_net
      exact holds_net_modify _ _ _ h (fun _ _ => rfl)

theorem ProcessUpdateEntry_holds_net (env : Env) (s s1 : AFCNetClientService) (key : Int)
    (h : holds_net s.real_connections_)
    (hstep : ProcessUpdateEntry env s key = some s1) :
    holds_net s1.real_connections_ := by
  unfold ProcessUpdateEntry at hstep
  cases hf : find_value s.real_connections_ key with
  | none =>
    simp only [hf] at hstep
    rw [← Option.some.inj hstep]; exact h
  | some d =>
    simp only [hf] at hstep
    cases hst : d.net_state_ with
    | DISCONNECT =>
      simp only [hst] at hstep
      rw [← Option.some.inj hstep]
      apply holds_net_modify _ _ _ h
      intro d0 hd0
      obtain ⟨n, hn⟩ := Option.isSome_iff_exists.mp hd0
      simp [hn]
    | CONNECTING =>
      simp only [hst] at hstep
      rw [← Option.some.inj hstep]
      exact NetUpdate_holds_net env s key h
    | CONNECTED =>
      simp only [hst] at hstep
      cases hn : d.net_client_ptr_ with
      | none =>
        simp only [hn] at hstep
        rw [← Option.some.inj hstep]; exact h
      | some net =>
        simp only [hn] at hstep
        rw [← Option.some.inj hstep]
        exact KeepAlive_holds_net env.now _ key (NetUpdate_holds_net env s key h)
    | RECONNECT =>
      simp only [hst] at hstep
      split at hstep
      · rw [← Option.some.inj hstep]; exact h
      · cases hn : d.net_client_ptr_ with
        | none => simp only [hn] at hstep; cases hstep
        | some net =>
          simp only [hn] at hstep
          rw [← Option.some.inj hstep]
          exact holds_net_modify _ _ _ h (fun _ _ => rfl)

theorem ProcessUpdateLoop_holds_net (env : Env) :
    ∀ (keys : List Int) (s s1 : AFCNetClientService),
      holds_net s.real_connections_ →
      ProcessUpdateLoop env keys s = some s1 →
      holds_net s1.real_connections_ := by
  intro keys
  induction keys with
  | nil =>
    intro s s1 h hstep
    simp only [ProcessUpdateLoop] at hstep
    rw [← Option.some.inj hstep]; exact h
  | cons key rest ih =>
    intro s s1 h hstep
    simp only [ProcessUpdateLoop] at hstep
    cases h0 : ProcessUpdateEntry env s key with
    | none => rw [h0] at hstep; cases hstep
    | some s0 =>
      rw [h0] at hstep
      exact ih s0 s1 (ProcessUpdateEntry_holds_net env s s0 key h h0) hstep

theorem AddConnections_holds_net (env : Env) :
    ∀ (q : List AFConnectionData) (s s1 : AFCNetClientService),
      holds_net s.real_connections_ →
      AddConnections env q s = some s1 →
      holds_net s1.real_connections_ := by
  intro q
  induction q with
  | nil =>
    intro s s1 h hstep
    simp only [AddConnections] at hstep
    rw [← Option.some.inj hstep]; exact h
  | cons c rest ih =>
    intro s s1 h hstep
    simp only [AddConnections] at hstep
    cases h0 : AddConnection env s c with
    | none => rw [h0] at hstep; cases hstep
    | some s0 =>
      rw [h0] at hstep
      refine ih s0 s1 ?_ hstep
      rcases AddConnection_cases env s s0 c h0 with ⟨_, e⟩ | ⟨hn, _, e⟩
      · rw [e]; exact h
      · rw [e]
        exact holds_net_insert s.real_connections_ c.server_bus_id_ (promoted_entry env s c)
          h hn rfl

theorem Update_holds_net (env : Env) (s s1 : AFCNetClientService)
    (h : holds_net s.real_connections_) (hstep : Update env s = some s1) :
    holds_net s1.real_connections_ := by
  unfold Update at hstep
  rw [ProcessAddConnection_eq] at hstep
  cases h0 : AddConnections env s.tmp_connections_ s with
  | none => rw [h0] at hstep; cases hstep
  | some s0 =>
    rw [h0] at hstep
    simp only [Option.map_some', ProcessUpdate] at hstep
    exact ProcessUpdateLoop_holds_net env _ { s0 with tmp_connections_ := [] } s1
      (AddConnections_holds_net env _ s s0 h h0) hstep

/-- In every reachable state every entry of the registry holds a transport. -/
theorem Reachable_holds_net (s : AFCNetClientService) (h : Reachable s) :
    holds_net s.real_connections_ := by
  induction h with
  | init => intro k d hd; cases hd
  | start_client s head_len bus endpoint _ ih => exact ih
  | reg_msg s msg_id cb _ ih =>
    unfold RegMsgCallback
    cases find_value s.net_msg_callbacks_ msg_id <;> exact ih
  | reg_forward s cb _ ih => exact ih
  | reg_event s cb _ ih => exact ih
  | update s s1 env _ hstep ih => exact Update_holds_net env s s1 ih hstep
  | net_event s now event _ ih => exact OnNetEvent_holds_net now s event ih
  | net_msg s msg session_id _ ih =>
    rw [OnNetMsg_eq]; exact ih
  | io s key session _ ih =>
    apply holds_net_modify _ _ _ ih
    intro d0 hd0
    obtain ⟨n, hn⟩ := Option.isSome_iff_exists.mp hd0
    simp [hn]

/-! ## Retries -/

theorem ProcessUpdateEntry_reconnect_waits (env : Env) (s : AFCNetClientService) (key : Int)
    (d : AFConnectionData)
    (hfind : find_value s.real_connections_ key = some d)
    (hstate : d.net_state_ = ConnectState.RECONNECT)
    (hwait : ¬ (d.last_active_time_ + 30 * SECOND_MS < env.now)) :
    ProcessUpdateEntry env s key = some s := by
  have hge : d.last_active_time_ + 30 * SECOND_MS ≥ env.now := by omega
  simp only [ProcessUpdateEntry, hfind, hstate, hge, if_true]

theorem ProcessUpdateEntry_reconnect_attempts (env : Env) (s : AFCNetClientService)
    (key : Int) (d : AFConnectionData) (net : AFINet)
    (hfind : find_value s.real_connections_ key = some d)
    (hstate : d.net_state_ = ConnectState.RECONNECT)
    (hnet : d.net_client_ptr_ = some net)
    (helapsed : d.last_active_time_ + 30 * SECOND_MS < env.now) :
    ProcessUpdateEntry env s key
      = some { s with real_connections_ := (map_modify s.real_connections_ key
          (fun d0 => { d0 with
            last_active_time_ := env.now
            net_client_ptr_ := some (net.Shutdown.StartClient d.head_len_ d.server_bus_id_
              d.endpoint_.ip d.endpoint_.port d.endpoint_.is_v6)
            net_state_ := if env.start_ok d.server_bus_id_ then ConnectState.CONNECTING
              else ConnectState.RECONNECT })) } := by
  have hnge : ¬ (d.last_active_time_ + 30 * SECOND_MS ≥ env.now) := by omega
  simp only [ProcessUpdateEntry, hfind, hstate, hnge, if_false, hnet]

/-- The ticks of a service whose registry holds one `RECONNECT` entry with a transport
that never starts: they all return, the entry stays `RECONNECT`, and it has made one
attempt for every tick at which the interval had elapsed. -/
theorem ticks_down_single (count_once : Nat) (key : Int) :
    ∀ (times : List Int) (s : AFCNetClientService) (d : AFConnectionData),
      s.tmp_connections_ = [] →
      s.real_connections_.map (fun p => p.1) = [key] →
      find_value s.real_connections_ key = some d →
      d.net_state_ = ConnectState.RECONNECT →
      d.net_client_ptr_.isSome = true →
      ∃ s1 d1, ticks_down count_once times s = some s1 ∧
        find_value s1.real_connections_ key = some d1 ∧
        d1.net_state_ = ConnectState.RECONNECT ∧
        d1.last_active_time_ = last_attempt d.last_active_time_ times ∧
        start_calls d1.net_client_ptr_
          = start_calls d.net_client_ptr_ + attempts d.last_active_time_ times := by
  intro times
  induction times with
  | nil =>
    intro s d _ _ hfind hstate _
    exact ⟨s, d, rfl, hfind, hstate, rfl, rfl⟩
  | cons now rest ih =>
    intro s d htmp hkeys hfind hstate hnet
    obtain ⟨net, hn⟩ := Option.isSome_iff_exists.mp hnet
    have hup := Update_single_entry
      { now := now, start_ok := fun _ => false, count_once := count_once } s key htmp hkeys
    by_cases hel : d.last_active_time_ + 30 * SECOND_MS < now
    · have hstep := ProcessUpdateEntry_reconnect_attempts
        { now := now, start_ok := fun _ => false, count_once := count_once } s key d net
        hfind hstate hn hel
      obtain ⟨s1, d1, h1, h2, h3, h4, h5⟩ := ih
        { s with real_connections_ := (map_modify s.real_connections_ key
          (fun d0 => { d0 with
            last_active_time_ := now
            net_client_ptr_ := some (net.Shutdown.StartClient d.head_len_ d.server_bus_id_
              d.endpoint_.ip d.endpoint_.port d.endpoint_.is_v6)
            net_state_ := ConnectState.RECONNECT })) }
        { d with
          last_active_time_ := now
          net_client_ptr_ := some (net.Shutdown.StartClient d.head_len_ d.server_bus_id_
            d.endpoint_.ip d.endpoint_.port d.endpoint_.is_v6)
          net_state_ := ConnectState.RECONNECT }
        htmp (by rw [map_modify_keys]; exact hkeys)
        (by simp only [find_value_map_modify, if_true, hfind, Option.map_some'])
        rfl rfl
      dsimp only at h4 h5
      rw [start_calls_shutdown_start] at h5
      refine ⟨s1, d1, ?_, h2, h3, ?_, ?_⟩
      · simp only [ticks_down, hup, hstep]
        simpa using h1
      · simp only [last_attempt, hel, if_true]
        exact h4
      · simp only [attempts, hel, if_true]
        rw [h5, hn]
        omega
    · have hstep := ProcessUpdateEntry_reconnect_waits
        { now := now, start_ok := fun _ => false, count_once := count_once } s key d
        hfind hstate hel
      obtain ⟨s1, d1, h1, h2, h3, h4, h5⟩ := ih s d htmp hkeys hfind hstate hnet
      refine ⟨s1, d1, ?_, h2, h3, ?_, ?_⟩
      · simp only [ticks_down, hup, hstep]
        exact h1
      · simp only [last_attempt, hel, if_false]
        exact h4
      · simp only [attempts, hel, if_false]
        exact h5

theorem attempts_spaced : ∀ (n : Nat) (last : Int), attempts last (spaced last n) = n := by
  intro n
  induction n with
  | zero => intro last; rfl
  | succ n ih =>
    intro last
    have h : last + 30 * SECOND_MS < last + 30 * SECOND_MS + 1 := by omega
    simp only [spaced, attempts, h, if_true, ih]

/-- C15: for a `RECONNECT` entry of a reachable state, when the interval has elapsed
(more than 30 seconds since the last-activity timestamp) the tick body returns, sets
the timestamp to the current time, makes one `StartClient` call, and leaves the entry
`CONNECTING` if the start succeeds and `RECONNECT` if it fails.  With a transport that
never starts, the ticks of a service holding this one entry all return and leave it
`RECONNECT`, whatever their number, and the entry makes a fresh attempt at every tick
at which the interval has elapsed again: `n` ticks spaced by the interval make `n`
attempts, for every `n`. -/
theorem reconnect_retries_without_cap (env : Env) (s : AFCNetClientService) (key : Int)
    (d : AFConnectionData)
    (hreach : Reachable s)
    (hfind : find_value s.real_connections_ key = some d)
    (hstate : d.net_state_ = ConnectState.RECONNECT) :
    (d.last_active_time_ + 30 * SECOND_MS < env.now →
      ∃ s1 d1, ProcessUpdateEntry env s key = some s1 ∧
        find_value s1.real_connections_ key = some d1 ∧
        d1.last_active_time_ = env.now ∧
        (env.start_ok d.server_bus_id_ = true → d1.net_state_ = ConnectState.CONNECTING) ∧
        (env.start_ok d.server_bus_id_ = false → d1.net_state_ = ConnectState.RECONNECT) ∧
        start_calls d1.net_client_ptr_ = start_calls d.net_client_ptr_ + 1) ∧
    (s.tmp_connections_ = [] → s.real_connections_.map (fun p => p.1) = [key] →
      ∀ (count_once : Nat) (times : List Int),
        ∃ s1 d1, ticks_down count_once times s = some s1 ∧
          find_value s1.real_connections_ key = some d1 ∧
          d1.net_state_ = ConnectState.RECONNECT ∧
          d1.last_active_time_ = last_attempt d.last_active_time_ times ∧
          start_calls d1.net_client_ptr_
            = start_calls d.net_client_ptr_ + attempts d.last_active_time_ times) ∧
    (∀ n : Nat, attempts d.last_active_time_ (spaced d.last_active_time_ n) = n) := by
  have hnet : d.net_client_ptr_.isSome = true := Reachable_holds_net s hreach key d hfind
  refine ⟨?_, ?_, fun n => attempts_spaced n _⟩
  · intro hel
    obtain ⟨net, hn⟩ := Option.isSome_iff_exists.mp hnet
    refine ⟨_, { d with
        last_active_time_ := env.now
        net_client_ptr_ := some (net.Shutdown.StartClient d.head_len_ d.server_bus_id_
          d.endpoint_.ip d.endpoint_.port d.endpoint_.is_v6)
        net_state_ := if env.start_ok d.server_bus_id_ then ConnectState.CONNECTING
          else ConnectState.RECONNECT },
      ProcessUpdateEntry_reconnect_attempts env s key d net hfind hstate hn hel,
      ?_, rfl, ?_, ?_, ?_⟩
    · simp only [find_value_map_modify, if_true, hfind, Option.map_some']
    · intro hok; simp only [hok, if_true]
    · intro hok; simp [hok]
    · simp only [hn]
      exact start_calls_shutdown_start net _ _ _ _ _
  · intro htmp hkeys count_once times
    exact ticks_down_single count_once key times s d htmp hkeys hfind hstate hnet

theorem scenario_reconnecting_reachable : Reachable scenario_reconnecting :=
  Reachable.update scenario_requested scenario_reconnecting (scenario_env_down 0)
    (Reachable.start_client _ 4 7 scenario_endpoint
      (Reachable.reg_event _ 1 Reachable.init))
    (by decide)

/-- The statement of C15 on the scenario: the entry of bus id 7 is `RECONNECT` with
timestamp 0 and one attempt made; after three ticks spaced by the interval, none of
which starts the transport, it is still `RECONNECT` and has made four attempts. -/
theorem reconnect_retries_without_cap_witness :
    Reachable scenario_reconnecting ∧
    find_value scenario_reconnecting.real_connections_ 7 = some scenario_entry_reconnecting ∧
    spaced 0 3 = [30001, 60002, 90003] ∧
    ∃ s1 d1, ticks_down 100 (spaced 0 3) scenario_reconnecting = some s1 ∧
      find_value s1.real_connections_ 7 = some d1 ∧
      d1.net_state_ = ConnectState.RECONNECT ∧
      start_calls d1.net_client_ptr_ = 4 := by
  refine ⟨scenario_reconnecting_reachable, by decide, by decide, ?_⟩
  obtain ⟨s1, d1, h1, h2, h3, _, h5⟩ :=
    (reconnect_retries_without_cap (scenario_env_down 0) scenario_reconnecting 7
      scenario_entry_reconnecting scenario_reconnecting_reachable (by decide) rfl).2.1
      (by decide) (by decide) 100 (spaced 0 3)
  refine ⟨s1, d1, h1, h2, h3, ?_⟩
  rw [h5]
  decide

/-! ## Reports are sent for connected entries -/

theorem reports_connected_refl (s : AFCNetClientService) : reports_connected s s :=
  ⟨[], by simp, by simp⟩

theorem reports_connected_trans (s s1 s2 : AFCNetClientService)
    (h1 : reports_connected s s1) (h2 : reports_connected s1 s2) :
    reports_connected s s2 := by
  obtain ⟨a1, e1, p1⟩ := h1
  obtain ⟨a2, e2, p2⟩ := h2
  refine ⟨a1 ++ a2, by rw [e2, e1, List.append_assoc], ?_⟩
  intro b st hmem
  rcases List.mem_append.mp hmem with h | h
  · exact p1 b st h
  · exact p2 b st h

theorem OnNetEvent_reports_connected (now : Int) (s : AFCNetClientService)
    (event : AFNetEvent) : reports_connected s (OnNetEvent now s event) := by
  refine ⟨_, OnNetEvent_trace now s event, ?_⟩
  intro b st hmem
  obtain ⟨c, _, hc⟩ := List.mem_map.mp hmem
  cases hc

theorem OnNetMsg_reports_connected (s : AFCNetClientService) (msg : AFNetMsg)
    (session_id : Int) : reports_connected s (OnNetMsg s msg session_id) := by
  refine ⟨_, by rw [OnNetMsg_eq], ?_⟩
  intro b st hmem
  rw [List.mem_singleton] at hmem
  cases hf : find_value s.net_msg_callbacks_ msg.msg_id_ <;> rw [hf] at hmem <;> cases hmem

theorem events_reports_connected (now : Int) :
    ∀ (events : List AFNetEvent) (s : AFCNetClientService),
      reports_connected s (events.foldl (OnNetEvent now) s) := by
  intro events
  induction events with
  | nil => intro s; exact reports_connected_refl s
  | cons e rest ih =>
    intro s
    exact reports_connected_trans _ _ _ (OnNetEvent_reports_connected now s e) (ih _)

theorem msgs_reports_connected :
    ∀ (msgs : List (AFNetMsg × Int)) (s : AFCNetClientService),
      reports_connected s (msgs.foldl (fun st m => OnNetMsg st m.1 m.2) s) := by
  intro msgs
  induction msgs with
  | nil => intro s; exact reports_connected_refl s
  | cons m rest ih =>
    intro s
    exact reports_connected_trans _ _ _ (OnNetMsg_reports_connected s m.1 m.2) (ih _)

theorem OnNetEvent_connected_or_stamped (now : Int) (key : Int) (s : AFCNetClientService)
    (event : AFNetEvent) (h : connected_or_stamped now key s.real_connections_) :
    connected_or_stamped now key (OnNetEvent now s event).real_connections_ := by
  cases ht : event.type_ with
  | NONE => simp only [OnNetEvent, ht, fire_event_callbacks]; exact h
  | CONNECTED =>
    cases hf : find_value s.real_connections_ event.bus_id_ with
    | none =>
      simp only [OnNetEvent, ht, fire_event_callbacks, OnConnect_of_none s event hf]
      exact h
    | some d0 =>
      simp only [OnNetEvent, ht, fire_event_callbacks, OnConnect_of_some s event d0 hf]
      intro d hd
      rw [find_value_map_modify] at hd
      by_cases hk : key = event.bus_id_
      · simp only [hk, if_true, hf, Option.map_some'] at hd
        rw [← Option.some.inj hd]
        exact Or.inl rfl
      · simp only [hk, if_false] at hd
        exact h d hd
  | DISCONNECTED =>
    cases hf : find_value s.real_connections_ event.bus_id_ with
    | none =>
      simp only [OnNetEvent, ht, fire_event_callbacks, OnDisconnect_of_none now s event hf]
      exact h
    | some d0 =>
      simp only [OnNetEvent, ht, fire_event_callbacks, OnDisconnect_of_some now s event d0 hf]
      intro d hd
      rw [find_value_map_modify] at hd
      by_cases hk : key = event.bus_id_
      · simp only [hk, if_true, hf, Option.map_some'] at hd
        rw [← Option.some.inj hd]
        exact Or.inr rfl
      · simp only [hk, if_false] at hd
        exact h d hd

theorem events_connected_or_stamped (now : Int) (key : Int) :
    ∀ (events : List AFNetEvent) (s : AFCNetClientService),
      connected_or_stamped now key s.real_connections_ →
      connected_or_stamped now key (events.foldl (OnNetEvent now) s).real_connections_ := by
  intro events
  induction events with
  | nil => intro s h; exact h
  | cons e rest ih =>
    intro s h
    exact ih _ (OnNetEvent_connected_or_stamped now key s e h)

/-- `KeepAlive` on an entry that is `CONNECTED` or was stamped in this tick sends a
report only for a `CONNECTED` entry. -/
theorem KeepAlive_reports_connected (now : Int) (s : AFCNetClientService) (key : Int)
    (h : connected_or_stamped now key s.real_connections_) :
    reports_connected s (KeepAlive now s key) := by
  cases hf : find_value s.real_connections_ key with
  | none =>
    have : KeepAlive now s key = s := by simp only [KeepAlive, hf]
    rw [this]; exact reports_connected_refl s
  | some d =>
    rw [KeepAlive_eq now s key d hf]
    by_cases hg : d.last_active_time_ + 10 > now
    · simp only [hg, if_true]; exact reports_connected_refl s
    · simp only [hg, if_false]
      refine ⟨_, rfl, ?_⟩
      intro b st hmem
      simp only [List.mem_cons, List.mem_singleton, Action.report.injEq, List.mem_nil_iff,
        or_false] at hmem
      rcases hmem with ⟨_, hst⟩ | hx
      · rcases h d hf with hc | hl
        · rw [hst]; exact hc
        · exact absurd (by rw [hl]; omega) hg
      · cases hx

theorem NetUpdate_reports_connected (env : Env) (s : AFCNetClientService) (key : Int) :
    reports_connected s (NetUpdate env s key) := by
  unfold NetUpdate
  cases hf : find_value s.real_connections_ key with
  | none => exact reports_connected_refl s
  | some d =>
    cases hn : d.net_client_ptr_ with
    | none => simp only [hn]; exact reports_connected_refl s
    | some net =>
      simp only [hn]
      refine reports_connected_trans _ _ _ ?_ (msgs_reports_connected _ _)
      refine reports_connected_trans _ _ _ ?_ (events_reports_connected env.now _ _)
      exact ⟨[], by simp, by simp⟩

theorem NetUpdate_connected_or_stamped (env : Env) (s : AFCNetClientService) (key : Int)
    (d : AFConnectionData)
    (hfind : find_value s.real_connections_ key = some d)
    (hstate : d.net_state_ = ConnectState.CONNECTED) :
    connected_or_stamped env.now key (NetUpdate env s key).real_connections_ := by
  unfold NetUpdate
  simp only [hfind]
  cases hn : d.net_client_ptr_ with
  | none =>
    simp only
    intro d1 hd1
    rw [hfind] at hd1
    rw [← Option.some.inj hd1]; exact Or.inl hstate
  | some net =>
    simp only
    rw [msgs_real_connections]
    apply events_connected_or_stamped
    intro d1 hd1
    simp only [find_value_map_modify, if_true, hfind, Option.map_some'] at hd1
    rw [← Option.some.inj hd1]
    exact Or.inl hstate

theorem ProcessUpdateEntry_reports_connected (env : Env) (s s1 : AFCNetClientService)
    (key : Int) (hstep : ProcessUpdateEntry env s key = some s1) :
    reports_connected s s1 := by
  unfold ProcessUpdateEntry at hstep
  cases hf : find_value s.real_connections_ key with
  | none =>
    simp only [hf] at hstep
    rw [← Option.some.inj hstep]; exact reports_connected_refl s
  | some d =>
    simp only [hf] at hstep
    cases hst : d.net_state_ with
    | DISCONNECT =>
      simp only [hst] at hstep
      rw [← Option.some.inj hstep]
      exact ⟨[], by simp, by simp⟩
    | CONNECTING =>
      simp only [hst] at hstep
      rw [← Option.some.inj hstep]
      exact NetUpdate_reports_connected env s key
    | CONNECTED =>
      simp only [hst] at hstep
      cases hn : d.net_client_ptr_ with
      | none =>
        simp only [hn] at hstep
        rw [← Option.some.inj hstep]; exact reports_connected_refl s
      | some net =>
        simp only [hn] at hstep
        rw [← Option.some.inj hstep]
        exact reports_connected_trans _ _ _ (NetUpdate_reports_connected env s key)
          (KeepAlive_reports_connected env.now _ key
            (NetUpdate_connected_or_stamped env s key d hf hst))
    | RECONNECT =>
      simp only [hst] at hstep
      split at hstep
      · rw [← Option.some.inj hstep]; exact reports_connected_refl s
      · cases hn : d.net_client_ptr_ with
        | none => simp only [hn] at hstep; cases hstep
        | some net =>
          simp only [hn] at hstep
          rw [← Option.some.inj hstep]
          exact ⟨[], by simp, by simp⟩

theorem ProcessUpdateLoop_reports_connected (env : Env) :
    ∀ (keys : List Int) (s s1 : AFCNetClientService),
      ProcessUpdateLoop env keys s = some s1 → reports_connected s s1 := by
  intro keys
  induction keys with
  | nil =>
    intro s s1 hstep
    simp only [ProcessUpdateLoop] at hstep
    rw [← Option.some.inj hstep]; exact reports_connected_refl s
  | cons key rest ih =>
    intro s s1 hstep
    simp only [ProcessUpdateLoop] at hstep
    cases h0 : ProcessUpdateEntry env s key with
    | none => rw [h0] at hstep; cases hstep
    | some s0 =>
      rw [h0] at hstep
      exact reports_connected_trans _ _ _
        (ProcessUpdateEntry_reports_connected env s s0 key h0) (ih s0 s1 hstep)

theorem AddConnections_trace (env : Env) :
    ∀ (q : List AFConnectionData) (s s1 : AFCNetClientService),
      AddConnections env q s = some s1 → s1.trace = s.trace := by
  intro q
  induction q with
  | nil =>
    intro s s1 hstep
    simp only [AddConnections] at hstep
    rw [← Option.some.inj hstep]
  | cons c rest ih =>
    intro s s1 hstep
    simp only [AddConnections] at hstep
    cases h0 : AddConnection env s c with
    | none => rw [h0] at hstep; cases hstep
    | some s0 =>
      rw [h0] at hstep
      rw [ih s0 s1 hstep]
      rcases AddConnection_cases env s s0 c h0 with ⟨_, e⟩ | ⟨_, _, e⟩ <;> rw [e]

/-- In a tick every server report is sent for an entry that is `CONNECTED` at that
moment. -/
theorem Update_reports_connected (env : Env) (s s1 : AFCNetClientService)
    (hstep : Update env s = some s1) : reports_connected s s1 := by
  unfold Update at hstep
  rw [ProcessAddConnection_eq] at hstep
  cases h0 : AddConnections env s.tmp_connections_ s with
  | none => rw [h0] at hstep; cases hstep
  | some s0 =>
    rw [h0] at hstep
    simp only [Option.map_some', ProcessUpdate] at hstep
    have h1 := ProcessUpdateLoop_reports_connected env _ { s0 with tmp_connections_ := [] }
      s1 hstep
    obtain ⟨added, e, p⟩ := h1
    refine ⟨added, ?_, p⟩
    rw [e]
    simp only [AddConnections_trace env _ s s0 h0]

/-- What stops `KeepAlive` after a `Disconnected` event is the timestamp: with the
event of the entry under `key` handled at clock reading `t1` and `KeepAlive` run at
clock reading `t2`, nothing is sent when `t2 < t1 + 10`, and otherwise a report is
sent for the entry in state `DISCONNECT`. -/
theorem KeepAlive_after_Disconnected_event (t1 t2 : Int) (s : AFCNetClientService)
    (key : Int) (d : AFConnectionData) (e : AFNetEvent)
    (hfind : find_value s.real_connections_ key = some d)
    (htype : e.type_ = AFNetEventType.DISCONNECTED)
    (hebus : e.bus_id_ = key) :
    (KeepAlive t2 (OnNetEvent t1 s e) key).trace =
      if t2 < t1 + 10 then (OnNetEvent t1 s e).trace
      else (OnNetEvent t1 s e).trace ++
        [Action.report d.server_bus_id_ ConnectState.DISCONNECT, Action.log_server_info] := by
  subst hebus
  have hf1 : find_value (OnNetEvent t1 s e).real_connections_ e.bus_id_
      = some { d with net_state_ := ConnectState.DISCONNECT, last_active_time_ := t1 } := by
    simp only [OnNetEvent, htype, fire_event_callbacks, OnDisconnect_of_some t1 s e d hfind,
      find_value_map_modify, if_true, hfind, Option.map_some']
  rw [KeepAlive_eq t2 _ _ _ hf1]
  by_cases h : t2 < t1 + 10
  · have h1 : t1 + 10 > t2 := h
    simp only [h, h1, if_true]
  · have h1 : ¬ (t1 + 10 > t2) := h
    simp only [h, h1, if_false]

/-- C16: in every tick that returns, each server report the tick appends to the trace
was sent for an entry whose state was `CONNECTED` at the moment of sending.  In
particular, when the transport of a `CONNECTED` entry surfaces a `Disconnected` event
of the entry's bus id, the tick body returns with the entry in state `DISCONNECT` and
has sent no report: it appended the event callbacks and the message handlers only.
For a registry with this one entry and no pending request the tick body is the whole
tick.  The clock is one reading per tick. -/
theorem Update_reports_only_for_connected (env : Env) (s : AFCNetClientService) :
    (∀ s1, Update env s = some s1 →
      ∃ added, s1.trace = s.trace ++ added ∧
        ∀ (b : Int) (st : ConnectState), Action.report b st ∈ added →
          st = ConnectState.CONNECTED) ∧
    (∀ (key : Int) (d : AFConnectionData) (net : AFINet) (ss : AFHttpSession)
      (e : AFNetEvent),
      find_value s.real_connections_ key = some d →
      d.net_state_ = ConnectState.CONNECTED →
      d.net_client_ptr_ = some net →
      net.client_session_ptr_ = some ss →
      ss.events_ = [e] →
      e.type_ = AFNetEventType.DISCONNECTED →
      e.bus_id_ = key →
      (∃ s1 added d1, ProcessUpdateEntry env s key = some s1 ∧
        s1.trace = s.trace ++ added ∧
        (∀ (b : Int) (st : ConnectState), Action.report b st ∉ added) ∧
        find_value s1.real_connections_ key = some d1 ∧
        d1.net_state_ = ConnectState.DISCONNECT) ∧
      (s.tmp_connections_ = [] → s.real_connections_.map (fun p => p.1) = [key] →
        Update env s = ProcessUpdateEntry env s key)) := by
  refine ⟨fun s1 hstep => Update_reports_connected env s s1 hstep, ?_⟩
  intro key d net ss e hfind hstate hnet hsession hevents htype hebus
  refine ⟨?_, fun htmp hkeys => Update_single_entry env s key htmp hkeys⟩
  refine ⟨_,
    s.net_event_callbacks_.map (fun cb =>
        Action.event_cb cb e (RemoveServerWeightData s.consistent_hashmap_ d)
          (some ConnectState.DISCONNECT)) ++
      (UpdateNetMsg env.count_once (some ss)).1.map (msg_action s.net_msg_callbacks_),
    { d with net_state_ := ConnectState.DISCONNECT, last_active_time_ := env.now,
             net_client_ptr_ := some (net.Update env.count_once).2.2 },
    ProcessUpdateEntry_disconnected_event env s key d net ss e hfind hstate hnet hsession
      hevents htype hebus, ?_, ?_, ?_, rfl⟩
  · simp only [after_disconnect, List.append_assoc]
  · intro b st hmem
    rcases List.mem_append.mp hmem with h | h
    · obtain ⟨c, _, hc⟩ := List.mem_map.mp h
      cases hc
    · obtain ⟨m, _, hm⟩ := List.mem_map.mp h
      unfold msg_action at hm
      cases hf : find_value s.net_msg_callbacks_ m.1.msg_id_ <;> rw [hf] at hm <;> cases hm
  · simp only [after_disconnect, find_value_map_modify, if_true, hfind, Option.map_some']

theorem Update_reports_only_for_connected_witness :
    (∃ s1 added, Update (scenario_env 100) scenario_connected = some s1 ∧
      s1.trace = scenario_connected.trace ++ added ∧
      Action.report 7 ConnectState.CONNECTED ∈ added ∧
      ∀ (b : Int) (st : ConnectState), Action.report b st ∈ added →
        st = ConnectState.CONNECTED) ∧
    (∃ s1 added, Update (scenario_env 100) scenario_closing = some s1 ∧
      s1.trace = scenario_closing.trace ++ added ∧
      ∀ (b : Int) (st : ConnectState), Action.report b st ∉ added) := by
  constructor
  · have hstep : Update (scenario_env 100) scenario_connected
        = some ((Update (scenario_env 100) scenario_connected).getD scenario_connected) := by
      decide
    obtain ⟨added, htrace, hrep⟩ :=
      (Update_reports_only_for_connected (scenario_env 100) scenario_connected).1 _ hstep
    refine ⟨_, added, hstep, htrace, ?_, hrep⟩
    have hmem : Action.report 7 ConnectState.CONNECTED ∈
        ((Update (scenario_env 100) scenario_connected).getD scenario_connected).trace := by
      decide
    rw [htrace] at hmem
    rcases List.mem_append.mp hmem with h | h
    · exact absurd h (by decide)
    · exact h
  · obtain ⟨⟨s1, added, _, hstep, htrace, hno, _⟩, hwhole⟩ :=
      (Update_reports_only_for_connected (scenario_env 100) scenario_closing).2 7
        scenario_entry_closing scenario_net_closing scenario_closed_session
        scenario_disconnected_event (by decide) rfl rfl rfl rfl rfl rfl
    exact ⟨s1, added, by rw [hwhole (by decide) (by decide)]; exact hstep, htrace, hno⟩

/-! ## The transport of a reconnect attempt -/

/-- A reconnect attempt on an entry that holds a transport returns; it calls
`Shutdown` and then `StartClient` on that same transport object, which is the one the
entry holds afterwards (same allocation, same session, its record of calls extended by
these two), and it creates no transport: the allocation counter of `CreateNet` and all
other entries are unchanged.  Every entry of a state reached from construction holds a
transport.  The attempt tests the pointer before `Shutdown` only: on an entry without
transport it calls `StartClient` through the null pointer. -/
theorem reconnect_restarts_same_transport (env : Env) (s : AFCNetClientService) (key : Int)
    (d : AFConnectionData)
    (hfind : find_value s.real_connections_ key = some d)
    (hstate : d.net_state_ = ConnectState.RECONNECT)
    (helapsed : d.last_active_time_ + 30 * SECOND_MS < env.now) :
    (∀ net, d.net_client_ptr_ = some net →
      ∃ s1 d1 net1, ProcessUpdateEntry env s key = some s1 ∧
        find_value s1.real_connections_ key = some d1 ∧
        d1.net_client_ptr_ = some net1 ∧
        net1.id = net.id ∧
        net1.client_session_ptr_ = net.client_session_ptr_ ∧
        net1.calls = net.calls ++ [NetCall.Shutdown,
          NetCall.StartClient d.head_len_ d.server_bus_id_ d.endpoint_.ip d.endpoint_.port
            d.endpoint_.is_v6] ∧
        s1.next_net_id = s.next_net_id ∧
        (∀ k, k ≠ key → find_value s1.real_connections_ k = find_value s.real_connections_ k)) ∧
    (Reachable s → ∃ net, d.net_client_ptr_ = some net) ∧
    (d.net_client_ptr_ = none → ProcessUpdateEntry env s key = none) := by
  refine ⟨?_, ?_, ?_⟩
  · intro net hnet
    refine ⟨_, { d with
        last_active_time_ := env.now
        net_client_ptr_ := some (net.Shutdown.StartClient d.head_len_ d.server_bus_id_
          d.endpoint_.ip d.endpoint_.port d.endpoint_.is_v6)
        net_state_ := if env.start_ok d.server_bus_id_ then ConnectState.CONNECTING
          else ConnectState.RECONNECT },
      net.Shutdown.StartClient d.head_len_ d.server_bus_id_ d.endpoint_.ip d.endpoint_.port
        d.endpoint_.is_v6,
      ProcessUpdateEntry_reconnect_attempts env s key d net hfind hstate hnet helapsed,
      ?_, rfl, rfl, rfl, ?_, rfl, ?_⟩
    · simp only [find_value_map_modify, if_true, hfind, Option.map_some']
    · simp only [AFINet.Shutdown, AFINet.StartClient, List.append_assoc, List.singleton_append]
    · intro k hk
      simp only [find_value_map_modify, hk, if_false]
  · intro hreach
    exact Option.isSome_iff_exists.mp (Reachable_holds_net s hreach key d hfind)
  · intro hnone
    have hnge : ¬ (d.last_active_time_ + 30 * SECOND_MS ≥ env.now) := by omega
    simp only [ProcessUpdateEntry, hfind, hstate, hnge, if_false, hnone]

/-- The reconnect attempt on the scenario: the entry of bus id 7 is `RECONNECT` with
timestamp 0 and holds the transport of allocation 0; the attempt at time 30001 returns
and the entry holds that transport, restarted. -/
theorem reconnect_restarts_same_transport_witness :
    find_value scenario_reconnecting.real_connections_ 7 = some scenario_entry_reconnecting ∧
    ∃ s1 d1 net1, ProcessUpdateEntry (scenario_env 30001) scenario_reconnecting 7 = some s1 ∧
      find_value s1.real_connections_ 7 = some d1 ∧
      d1.net_client_ptr_ = some net1 ∧
      net1.id = 0 ∧
      net1.calls = [NetCall.StartClient 4 7 "1.2.3.4" 9001 false, NetCall.Shutdown,
        NetCall.StartClient 4 7 "1.2.3.4" 9001 false] ∧
      s1.next_net_id = scenario_reconnecting.next_net_id := by
  refine ⟨by decide, ?_⟩
  obtain ⟨s1, d1, net1, h1, h2, h3, h4, _, h6, h7, _⟩ :=
    (reconnect_restarts_same_transport (scenario_env 30001) scenario_reconnecting 7
      scenario_entry_reconnecting (by decide) rfl (by decide)).1 scenario_net rfl
  exact ⟨s1, d1, net1, h1, h2, h3, h4, h6, h7⟩

/-- C21, evaluated on the code: the entry of bus id 7 is `RECONNECT` with timestamp 0
and holds the transport of allocation 0, the only one created so far.  After the tick
at time 30001 it holds that same transport, shut down and started again, and no
transport has been created.  After `Shutdown` of the service the entry holds no
transport, and the tick at time 30001 calls `StartClient` through the null pointer. -/
theorem reconnect_creates_no_transport :
    scenario_reconnecting.next_net_id = 1 ∧
    (GetConnectionInfo scenario_reconnecting 7).map (fun d => d.net_client_ptr_)
      = some (some scenario_net) ∧
    (Update (scenario_env 30001) scenario_reconnecting).map (fun s1 => s1.next_net_id)
      = some 1 ∧
    (Update (scenario_env 30001) scenario_reconnecting).bind (fun s1 =>
        (GetConnectionInfo s1 7).map (fun d => d.net_state_))
      = some ConnectState.CONNECTING ∧
    (Update (scenario_env 30001) scenario_reconnecting).bind (fun s1 =>
        (GetConnectionInfo s1 7).bind (fun d => d.net_client_ptr_))
      = some { id := 0, client_session_ptr_ := none,
               calls := [NetCall.StartClient 4 7 "1.2.3.4" 9001 false, NetCall.Shutdown,
                 NetCall.StartClient 4 7 "1.2.3.4" 9001 false] } ∧
    (GetConnectionInfo scenario_reconnecting_torn_down 7).map
        (fun d => (d.net_state_, d.net_client_ptr_))
      = some (ConnectState.RECONNECT, none) ∧
    Update (scenario_env 30001) scenario_reconnecting_torn_down = none := by
  decide

/-! ## The arguments of the connect attempts -/

/-- The `StartClient` call of a reconnect attempt is the one the specification words;
the call of the promotion is that one exactly for the endpoints without the IPv6
flag. -/
theorem connect_calls_against_spec (d : AFConnectionData) :
    reconnect_call d = spec_connect_call d ∧
    (promotion_call d = spec_connect_call d ↔ d.endpoint_.is_v6 = false) := by
  refine ⟨rfl, ?_⟩
  simp only [promotion_call, spec_connect_call, NetCall.StartClient.injEq, true_and]
  constructor
  · intro h; exact h.symm
  · intro h; exact h.symm

/-- The calls the transport of a tcp request has received after the promotion, whose
start failed, and the reconnect attempt of a tick more than 30 seconds later: the call
of the promotion, `Shutdown`, the call of the reconnect attempt. -/
theorem promotion_then_reconnect_calls (env env2 : Env) (s : AFCNetClientService)
    (c : AFConnectionData)
    (hnew : find_value s.real_connections_ c.server_bus_id_ = none)
    (htcp : c.endpoint_.proto = proto_type.tcp)
    (hfail : env.start_ok c.server_bus_id_ = false)
    (hel : env.now + 30 * SECOND_MS < env2.now) :
    ∃ s1 s2 d2 net2, AddConnection env s c = some s1 ∧
      ProcessUpdateEntry env2 s1 c.server_bus_id_ = some s2 ∧
      find_value s2.real_connections_ c.server_bus_id_ = some d2 ∧
      d2.net_client_ptr_ = some net2 ∧
      net2.calls = [promotion_call c, NetCall.Shutdown, reconnect_call c] := by
  have hfind1 : find_value (map_insert s.real_connections_ c.server_bus_id_
      (promoted_entry env s c)) c.server_bus_id_ = some (promoted_entry env s c) := by
    rw [find_value_map_insert _ _ _ _ hnew]; simp only [if_true]
  have hstep := ProcessUpdateEntry_reconnect_attempts env2
    { s with
      next_net_id := s.next_net_id + 1
      real_connections_ := (map_insert s.real_connections_ c.server_bus_id_
        (promoted_entry env s c)) }
    c.server_bus_id_ (promoted_entry env s c)
    { id := s.next_net_id, client_session_ptr_ := none,
      calls := [NetCall.StartClient c.head_len_ c.server_bus_id_ c.endpoint_.ip
        c.endpoint_.port false] }
    hfind1 (by simp only [promoted_entry, hfail]; rfl) rfl
    (by simp only [promoted_entry]; exact hel)
  refine ⟨_, _,
    { promoted_entry env s c with
      last_active_time_ := env2.now
      net_client_ptr_ := some (AFINet.StartClient (AFINet.Shutdown
          { id := s.next_net_id, client_session_ptr_ := none,
            calls := [NetCall.StartClient c.head_len_ c.server_bus_id_ c.endpoint_.ip
              c.endpoint_.port false] })
        c.head_len_ c.server_bus_id_ c.endpoint_.ip c.endpoint_.port c.endpoint_.is_v6)
      net_state_ := if env2.start_ok c.server_bus_id_ then ConnectState.CONNECTING
        else ConnectState.RECONNECT },
    _, AddConnection_of_new_tcp env s c hnew htcp, hstep, ?_, rfl, ?_⟩
  · simp only [find_value_map_modify, if_true, hfind1, Option.map_some']
    rfl
  · simp only [promoted_entry, AFINet.Shutdown, AFINet.StartClient, promotion_call,
      reconnect_call, List.cons_append, List.nil_append]

/-- C22, evaluated on the code: a request for bus id 7 at the tcp endpoint `::1`, port
9001, with the IPv6 flag set.  The promotion in the tick at time 0 calls `StartClient`
with the flag `false`; the start fails, and the reconnect attempt in the tick at time
30001 calls `StartClient` on the same transport with the flag `true`: the two attempts
of the entry do not pass the same arguments. -/
theorem connect_attempts_differ_in_ipv6_flag :
    ((Update (scenario_env_down 0) scenario_v6_requested).bind (fun s1 =>
        (GetConnectionInfo s1 7).bind (fun d => d.net_client_ptr_))).map (fun n => n.calls)
      = some [NetCall.StartClient 4 7 "::1" 9001 false] ∧
    (((Update (scenario_env_down 0) scenario_v6_requested).bind (fun s1 =>
        Update (scenario_env 30001) s1)).bind (fun s2 =>
        (GetConnectionInfo s2 7).bind (fun d => d.net_client_ptr_))).map (fun n => n.calls)
      = some [NetCall.StartClient 4 7 "::1" 9001 false, NetCall.Shutdown,
          NetCall.StartClient 4 7 "::1" 9001 true] ∧
    (scenario_v6_requested.tmp_connections_.map
        (fun d => decide (promotion_call d = reconnect_call d))) = [false] := by
  decide

/-- Whatever the default of the fifth parameter is, the call of the promotion and the
call of the reconnect attempt differ for the endpoints whose IPv6 flag is not that
default, and only for them. -/
theorem promotion_call_with_differs (ip_v6_default : Bool) (d : AFConnectionData) :
    promotion_call_with false d = promotion_call d ∧
    (promotion_call_with ip_v6_default d = reconnect_call d ↔
      d.endpoint_.is_v6 = ip_v6_default) := by
  refine ⟨rfl, ?_⟩
  simp only [promotion_call_with, reconnect_call, NetCall.StartClient.injEq, true_and]
  constructor
  · intro h; exact h.symm
  · intro h; exact h.symm

/-! ## `ValueFromString<bool>` -/

theorem c_str_of_no_nul (strValue : String) (h : Char.ofNat 0 ∉ strValue.data) :
    c_str strValue = strValue.data := by
  unfold c_str
  rw [List.takeWhile_eq_self_iff]
  intro c hc
  simp only [ne_eq, decide_not, Bool.not_eq_true', decide_eq_false_iff_not]
  intro hc0
  exact h (hc0 ▸ hc)

theorem checkbool_four (from_ : List Char) (h : from_.length = 4) :
    checkbool from_ 4 strue = true ↔ from_ = strue := by
  rcases from_ with _ | ⟨a, _ | ⟨b, _ | ⟨c, _ | ⟨d, _ | ⟨e, r⟩⟩⟩⟩⟩ <;>
    simp only [List.length_nil, List.length_cons] at h <;> try omega
  have hr : List.range 4 = [0, 1, 2, 3] := by decide
  simp [checkbool, checkbool_loop, hr, strue]

theorem checkbool_five (from_ : List Char) (h : from_.length = 5) :
    checkbool from_ 5 sfalse = true ↔ from_ = sfalse := by
  rcases from_ with _ | ⟨a, _ | ⟨b, _ | ⟨c, _ | ⟨d, _ | ⟨e, _ | ⟨f, r⟩⟩⟩⟩⟩⟩ <;>
    simp only [List.length_nil, List.length_cons] at h <;> try omega
  have hr : List.range 5 = [0, 1, 2, 3, 4] := by decide
  simp [checkbool, checkbool_loop, hr, sfalse]

/-- What `detail::convert` returns, by the length of the buffer; in the last branch
`atoi` is the number read from the buffer. -/
theorem convert_eq (from_ : List Char) :
    convert from_ =
      if from_ = strue then some true
      else if from_ = sfalse then some false
      else if from_.length = 4 ∨ from_.length = 5 then none
      else some (decide (atoi from_ > 0)) := by
  unfold convert
  simp only [strlen]
  by_cases h4 : from_.length = 4
  · have hns : from_ ≠ sfalse := by
      intro e; rw [e] at h4; exact absurd h4 (by decide)
    simp only [h4, if_true, true_or, hns, if_false]
    by_cases ht : from_ = strue
    · have := (checkbool_four from_ h4).mpr ht
      rw [if_pos this, if_pos ht]
    · have : checkbool from_ 4 strue = false := by
        cases hc : checkbool from_ 4 strue
        · rfl
        · exact absurd ((checkbool_four from_ h4).mp hc) ht
      simp [this, ht]
  · have hnt : from_ ≠ strue := by
      intro e; rw [e] at h4; exact h4 (by decide)
    simp only [h4, if_false, false_or, hnt]
    by_cases h5 : from_.length = 5
    · simp only [h5, if_true]
      by_cases hf : from_ = sfalse
      · have := (checkbool_five from_ h5).mpr hf
        rw [if_pos this, if_pos hf]
      · have : checkbool from_ 5 sfalse = false := by
          cases hc : checkbool from_ 5 sfalse
          · rfl
          · exact absurd ((checkbool_five from_ h5).mp hc) hf
        simp [this, hf]
    · have hnf : from_ ≠ sfalse := by
        intro e; rw [e] at h5; exact h5 (by decide)
      simp only [h5, if_false, hnf, convert_int32]

theorem ValueFromString_bool_eq (strValue : String) (nValue : Bool) :
    ValueFromString_bool strValue nValue =
      if c_str strValue = strue then (true, true)
      else if c_str strValue = sfalse then (true, false)
      else if (c_str strValue).length = 4 ∨ (c_str strValue).length = 5 then (false, nValue)
      else (true, decide (atoi (c_str strValue) > 0)) := by
  unfold ValueFromString_bool lexical_cast_bool
  rw [convert_eq]
  split_ifs <;> rfl

/-- C23: for every string, with the length and the characters that the code reads
from `c_str()` (those of the string itself when it holds no NUL character):
`ValueFromString<bool>` returns true with `nValue = true` for "true", returns true
with `nValue = false` for "false", returns false and leaves `nValue` as it was for
every other string of length 4 or 5, and for every other length returns true; the
value of `nValue` is then `atoi > 0`, with `atoi` the number read from the string,
which is what `std::atoi` returns whenever that number fits an `int`. -/
theorem ValueFromString_bool_by_length (strValue : String) (nValue : Bool) :
    (c_str strValue = "true".data → ValueFromString_bool strValue nValue = (true, true)) ∧
    (c_str strValue = "false".data → ValueFromString_bool strValue nValue = (true, false)) ∧
    (strlen (c_str strValue) = 4 ∨ strlen (c_str strValue) = 5 →
      c_str strValue ≠ "true".data → c_str strValue ≠ "false".data →
      ValueFromString_bool strValue nValue = (false, nValue)) ∧
    (strlen (c_str strValue) ≠ 4 → strlen (c_str strValue) ≠ 5 →
      (ValueFromString_bool strValue nValue).1 = true ∧
      (atoi_fits_int (c_str strValue) →
        ValueFromString_bool strValue nValue
          = (true, decide (atoi (c_str strValue) > 0)))) ∧
    (Char.ofNat 0 ∉ strValue.data →
      c_str strValue = strValue.data ∧ strlen (c_str strValue) = strValue.length) := by
  have hcs : ∀ h : Char.ofNat 0 ∉ strValue.data, c_str strValue = strValue.data :=
    c_str_of_no_nul strValue
  refine ⟨?_, ?_, ?_, ?_, ?_⟩
  · intro h
    have h0 : c_str strValue = strue := h
    rw [ValueFromString_bool_eq, if_pos h0]
  · intro h
    have h0 : c_str strValue = sfalse := h
    have h1 : ¬ c_str strValue = strue := by
      intro e; rw [h0] at e; exact absurd e (by decide)
    rw [ValueFromString_bool_eq, if_neg h1, if_pos h0]
  · intro hlen h1 h2
    have hlen0 : (c_str strValue).length = 4 ∨ (c_str strValue).length = 5 := hlen
    have h10 : ¬ c_str strValue = strue := h1
    have h20 : ¬ c_str strValue = sfalse := h2
    rw [ValueFromString_bool_eq, if_neg h10, if_neg h20, if_pos hlen0]
  · intro h4 h5
    have h40 : ¬ (c_str strValue).length = 4 := h4
    have h50 : ¬ (c_str strValue).length = 5 := h5
    have h1 : ¬ c_str strValue = strue := by
      intro e; rw [e] at h40; exact h40 (by decide)
    have h2 : ¬ c_str strValue = sfalse := by
      intro e; rw [e] at h50; exact h50 (by decide)
    have h3 : ¬ ((c_str strValue).length = 4 ∨ (c_str strValue).length = 5) := by
      intro h; rcases h with h | h
      · exact h40 h
      · exact h50 h
    rw [ValueFromString_bool_eq, if_neg h1, if_neg h2, if_neg h3]
    exact ⟨rfl, fun _ => rfl⟩
  · intro h
    refine ⟨hcs h, ?_⟩
    rw [hcs h]; rfl

/-- The statement of C23 on strings: "true" and "false" are read; "1234", "10000" and
"TRUE" are refused, and the value handed in is left; "7", "0", "-5", the empty string
and "+123456" go through `atoi`, and their numbers fit an `int`; "2147483648" is
accepted too. -/
theorem ValueFromString_bool_by_length_witness :
    ValueFromString_bool "true" false = (true, true) ∧
    ValueFromString_bool "false" true = (true, false) ∧
    ValueFromString_bool "1234" true = (false, true) ∧
    ValueFromString_bool "1234" false = (false, false) ∧
    ValueFromString_bool "10000" true = (false, true) ∧
    ValueFromString_bool "TRUE" false = (false, false) ∧
    ValueFromString_bool "7" false = (true, true) ∧
    ValueFromString_bool "0" true = (true, false) ∧
    ValueFromString_bool "-5" true = (true, false) ∧
    ValueFromString_bool "" true = (true, false) ∧
    ValueFromString_bool "+123456" false = (true, true) ∧
    (ValueFromString_bool "2147483648" false).1 = true :=
  ⟨(ValueFromString_bool_by_length "true" false).1 (by decide),
    (ValueFromString_bool_by_length "false" true).2.1 (by decide),
    (ValueFromString_bool_by_length "1234" true).2.2.1 (by decide) (by decide) (by decide),
    (ValueFromString_bool_by_length "1234" false).2.2.1 (by decide) (by decide) (by decide),
    (ValueFromString_bool_by_length "10000" true).2.2.1 (by decide) (by decide) (by decide),
    (ValueFromString_bool_by_length "TRUE" false).2.2.1 (by decide) (by decide) (by decide),
    (((ValueFromString_bool_by_length "7" false).2.2.2.1 (by decide) (by decide)).2
      (by decide)).trans
      (by decide),
    (((ValueFromString_bool_by_length "0" true).2.2.2.1 (by decide) (by decide)).2
      (by decide)).trans
      (by decide),
    (((ValueFromString_bool_by_length "-5" true).2.2.2.1 (by decide) (by decide)).2
      (by decide)).trans
      (by decide),
    (((ValueFromString_bool_by_length "" true).2.2.2.1 (by decide) (by decide)).2
      (by decide)).trans
      (by decide),
    (((ValueFromString_bool_by_length "+123456" false).2.2.2.1 (by decide) (by decide)).2
      (by decide)).trans
      (by decide),
    ((ValueFromString_bool_by_length "2147483648" false).2.2.2.1 (by decide) (by decide)).1⟩

/-- A string that holds a NUL character is read up to it: the five characters "true"
and NUL are read as "true", the characters "12", NUL, "45" as "12". -/
theorem ValueFromString_bool_reads_up_to_nul :
    (String.mk ['t', 'r', 'u', 'e', Char.ofNat 0]).length = 5 ∧
    ValueFromString_bool (String.mk ['t', 'r', 'u', 'e', Char.ofNat 0]) false
      = (true, true) ∧
    (String.mk ['1', '2', Char.ofNat 0, '4', '5']).length = 5 ∧
    ValueFromString_bool (String.mk ['1', '2', Char.ofNat 0, '4', '5']) false
      = (true, true) := by
  decide

/-! ## Promotion from a mixed queue -/

/-- C12, evaluated on the code: two requests are pending, bus id 9 at a udp endpoint and
then bus id 7 at a tcp endpoint; bus id 7 is not active.  `ProcessAddConnection` calls
`StartClient` through the null pointer `CreateNet` returned for the udp request, with a
transport that starts and with one that does not: it does not return, and the tcp
request of bus id 7 is not promoted.  With the tcp request queued first the call ends
the same way, at the udp request.  Queued alone, the tcp request is promoted as
`CONNECTING`. -/
theorem ProcessAddConnection_tcp_request_not_promoted_behind_udp :
    scenario_udp_then_tcp.tmp_connections_.map (fun c => (c.server_bus_id_, c.endpoint_.proto))
      = [(9, proto_type.udp), (7, proto_type.tcp)] ∧
    GetConnectionInfo scenario_udp_then_tcp 7 = none ∧
    ProcessAddConnection (scenario_env 0) scenario_udp_then_tcp = none ∧
    ProcessAddConnection (scenario_env_down 0) scenario_udp_then_tcp = none ∧
    scenario_tcp_then_udp.tmp_connections_.map (fun c => (c.server_bus_id_, c.endpoint_.proto))
      = [(7, proto_type.tcp), (9, proto_type.udp)] ∧
    ProcessAddConnection (scenario_env 0) scenario_tcp_then_udp = none ∧
    (ProcessAddConnection (scenario_env 0)
        (StartClient AFCNetClientService.empty 4 7 scenario_endpoint).2).bind (fun s1 =>
        (GetConnectionInfo s1 7).map (fun d => d.net_state_))
      = some ConnectState.CONNECTING := by
  decide

end ark
